import Mathlib

/-!
Verification development for sd2iec_esp32.

A shallow embedding of parts of the ESP32 port of sd2iec
(`arch-timer.h`, `nvs-conf.c`, `vfsops.c`) together with theorems about them.

Machine integers are natural numbers or integers with explicit wrap-around.
-/

set_option linter.unusedVariables false

namespace Sd2iec

/-! ## arch-timer.h -/

/-- Reinterpretation of a 32-bit pattern as `int32_t` (two's complement). -/
def toInt32 (x : Int) : Int :=
  (x + 2147483648) % 4294967296 - 2147483648

/-- Value of `CONFIG_MCU_FREQ` from `autoconf.h` (the 160 MHz setting). -/
def CONFIG_MCU_FREQ : Nat := 160000000

/-- `asm_ccount`: the cycle counter register `c` (a 32-bit pattern) read as `int32_t`. -/
def asm_ccount (c : Nat) : Int := toInt32 (c % 4294967296)

/-- `start_timeout(usecs)` with the cycle counter reading `c`: the new value of
`arch_timeout`.  The sum is computed in `uint32_t` (the product `usecs * 160` is
unsigned and wraps) and stored into the `int32_t` variable. -/
def start_timeout (c : Nat) (usecs : Nat) : Int :=
  toInt32 ((asm_ccount c + ((usecs % 4294967296 * (CONFIG_MCU_FREQ / 1000000) % 4294967296 : Nat) : Int))
    % 4294967296)

/-- `has_timed_out()` with `arch_timeout` given and the cycle counter reading `c`; the
subtraction of the two `int32_t` values wraps. -/
def has_timed_out (arch_timeout : Int) (c : Nat) : Bool :=
  decide (toInt32 (arch_timeout - asm_ccount c) < 0)

/-! ## vfsops.c: parse_error -/

/-- Error numbers of `errormsg.h` that `vfsops.c` uses, kept symbolic (the numeric values
of the header are not needed). -/
inductive ErrorCode where
  | ERROR_OK
  | ERROR_FILE_NOT_FOUND
  | ERROR_WRITE_PROTECT
  | ERROR_FILE_EXISTS
  | ERROR_DRIVE_NOT_READY
  | ERROR_SYNTAX_UNABLE
  | ERROR_DISK_FULL
  | ERROR_RECORD_MISSING
  deriving DecidableEq, Repr

/-- The call by which an error is recorded: `set_error(code)` or
`set_error_ts(code, track, sector)`, with the arguments as they are passed. -/
inductive ErrorCall where
  | set_error (code : ErrorCode)
  | set_error_ts (code : ErrorCode) (track : Int) (sector : Int)
  deriving DecidableEq, Repr

/-- Error number of a recorded error. -/
def ErrorCall.code : ErrorCall → ErrorCode
  | .set_error c => c
  | .set_error_ts c _ _ => c

/-- The `errno` constants of the platform's `<errno.h>` that `parse_error` switches on
(and `EINVAL`, which the file-system model below raises for a negative seek).
They are a parameter of the embedding. -/
structure Errno where
  ENOENT : Int
  EACCES : Int
  EPERM : Int
  EEXIST : Int
  EBUSY : Int
  EFAULT : Int
  EBADF : Int
  EINVAL : Int
  deriving DecidableEq, Repr

/-- The case labels of the `switch` in `parse_error` are pairwise different (a C compiler
rejects the function otherwise). -/
def Errno.labels_distinct (E : Errno) : Prop :=
  [0, E.ENOENT, E.EACCES, E.EPERM, E.EEXIST, E.EBUSY, E.EFAULT, E.EBADF].Nodup

instance (E : Errno) : Decidable E.labels_distinct := by
  unfold Errno.labels_distinct; infer_instance

/-- The values of newlib's `<errno.h>`. -/
def newlibErrno : Errno :=
  { ENOENT := 2, EACCES := 13, EPERM := 1, EEXIST := 17, EBUSY := 16, EFAULT := 14, EBADF := 9,
    EINVAL := 22 }

/-- `parse_error(res, readflag)`: the error it records. -/
def parse_error (E : Errno) (res : Int) (readflag : Nat) : ErrorCall :=
  if res = 0 then .set_error .ERROR_OK
  else if res = E.ENOENT then .set_error_ts .ERROR_FILE_NOT_FOUND res 0
  else if res = E.EACCES ∨ res = E.EPERM then .set_error_ts .ERROR_WRITE_PROTECT res 0
  else if res = E.EEXIST then .set_error_ts .ERROR_FILE_EXISTS res 0
  else if res = E.EBUSY ∨ res = E.EFAULT then .set_error_ts .ERROR_DRIVE_NOT_READY res 0
  else if res = E.EBADF then .set_error_ts .ERROR_DRIVE_NOT_READY res 0
  else .set_error_ts .ERROR_SYNTAX_UNABLE res 99

/-! ## nvs-conf.c -/

/-- Constants and helpers of `flags.h`, `config.h` and `diskio.h` that `nvs-conf.c` uses
and that are declared in headers outside the embedded files; they are parameters. -/
structure NvsEnv where
  ROM_NAME_LENGTH : Nat
  POSTMATCH : Nat
  EXTENSION_HIDING : Nat
  default_driveconfig : Nat
  NEED_DISKMUX : Bool
  deriving DecidableEq, Repr

/-- The static `storedconfig` structure (packed). -/
structure StoredConfig where
  dummy : Nat
  checksum : Nat
  structsize : Nat
  unused : Nat
  global_flags : Nat
  address : Nat
  hardaddress : Nat
  fileexts : Nat
  drvconfig0 : Nat
  drvconfig1 : Nat
  imagedirs : Nat
  romname : List Nat
  deriving DecidableEq, Repr

/-- A well-formed `storedconfig`: every field fits its C type and `romname` has
`ROM_NAME_LENGTH` bytes. -/
def StoredConfig.wf (env : NvsEnv) (c : StoredConfig) : Prop :=
  c.dummy < 256 ∧ c.checksum < 256 ∧ c.structsize < 65536 ∧ c.unused < 256 ∧
  c.global_flags < 256 ∧ c.address < 256 ∧ c.hardaddress < 256 ∧ c.fileexts < 256 ∧
  c.drvconfig0 < 65536 ∧ c.drvconfig1 < 65536 ∧ c.imagedirs < 256 ∧
  c.romname.length = env.ROM_NAME_LENGTH ∧ ∀ x ∈ c.romname, x < 256

instance (env : NvsEnv) (c : StoredConfig) : Decidable (c.wf env) := by
  unfold StoredConfig.wf; infer_instance

/-- `sizeof(storedconfig)`. -/
def sizeof_storedconfig (env : NvsEnv) : Nat := 14 + env.ROM_NAME_LENGTH

/-- The bytes of `storedconfig` as seen through `(uint8_t *)&storedconfig`
(packed layout, little-endian 16-bit fields). -/
def StoredConfig.bytes (c : StoredConfig) : List Nat :=
  [c.dummy, c.checksum, c.structsize % 256, c.structsize / 256, c.unused, c.global_flags,
   c.address, c.hardaddress, c.fileexts, c.drvconfig0 % 256, c.drvconfig0 / 256,
   c.drvconfig1 % 256, c.drvconfig1 / 256, c.imagedirs] ++ c.romname

/-- The structure whose bytes are `b` (the inverse of `StoredConfig.bytes`). -/
def StoredConfig.ofBytes (b : List Nat) : StoredConfig :=
  { dummy := b.getD 0 0, checksum := b.getD 1 0,
    structsize := b.getD 2 0 + 256 * b.getD 3 0,
    unused := b.getD 4 0, global_flags := b.getD 5 0, address := b.getD 6 0,
    hardaddress := b.getD 7 0, fileexts := b.getD 8 0,
    drvconfig0 := b.getD 9 0 + 256 * b.getD 10 0,
    drvconfig1 := b.getD 11 0 + 256 * b.getD 12 0,
    imagedirs := b.getD 13 0, romname := b.drop 14 }

/-- The global variables that `nvs-conf.c` reads and writes. -/
structure Config where
  globalflags : Nat
  file_extension_mode : Nat
  drive_config : Nat
  rom_filename : List Nat
  device_address : Nat
  image_as_dir : Nat
  storedconfig : StoredConfig
  deriving DecidableEq, Repr

/-- The NVS key "config": the blob stored under it, if any, and whether `nvs_open`
succeeds. -/
structure NvsStore where
  blob : Option (List Nat)
  opens : Bool
  deriving DecidableEq, Repr

/-- `device_hw_address()` of `arch-config.h`. -/
def device_hw_address : Nat := 8

/-- `read_config_block(destptr, length)`: the bytes at `destptr` afterwards.  Nothing is
copied when the store cannot be opened, has no blob, or the blob is longer than
`length`. -/
def read_config_block (nvs : NvsStore) (dest : List Nat) : List Nat :=
  if nvs.opens then
    match nvs.blob with
    | none => dest
    | some b => if b.length ≤ dest.length then b ++ dest.drop b.length else dest
  else dest

/-- `write_config_block(srcptr, length)`: the store afterwards. -/
def write_config_block (nvs : NvsStore) (src : List Nat) : NvsStore :=
  if nvs.opens then { nvs with blob := some src } else nvs

/-- The loop `for (checksum = 0, i = 2; i < sizeof(storedconfig); i++) checksum += p[i];`
with `checksum` an `uint8_t`. -/
def config_checksum (env : NvsEnv) (p : List Nat) : Nat :=
  (List.range' 2 (sizeof_storedconfig env - 2)).foldl (fun checksum i => (checksum + p.getD i 0) % 256) 0

/-- The part of `read_configuration` that sets the default values. -/
def set_defaults (env : NvsEnv) (s : Config) : Config :=
  { s with globalflags := (s.globalflags ||| env.POSTMATCH) % 256
           file_extension_mode := 1
           drive_config := env.default_driveconfig
           rom_filename := List.replicate (env.ROM_NAME_LENGTH + 1) 0 }

/-- The two tests of `read_configuration` that a stored configuration has to pass. -/
def config_accepted (env : NvsEnv) (c : StoredConfig) : Bool :=
  c.structsize == sizeof_storedconfig env && c.checksum == config_checksum env c.bytes

/-- `strcpy(dest, src)` where `src` is an array that may lack a terminator: `none` when
the copy would read past the end of `src`. -/
def strcpy (dest src : List Nat) : Option (List Nat) :=
  if 0 ∈ src then
    some (src.takeWhile (· ≠ 0) ++ [0] ++ dest.drop ((src.takeWhile (· ≠ 0)).length + 1))
  else none

/-- `strncpy(dest, src, n)` into a zeroed destination of `n` bytes. -/
def strncpy (src : List Nat) (n : Nat) : List Nat :=
  ((src.takeWhile (· ≠ 0)).take n) ++ List.replicate (n - ((src.takeWhile (· ≠ 0)).take n).length) 0

/-- `read_configuration()`.  The result is `none` when the final `strcpy` runs past the
end of `storedconfig.romname`.  `set_drive_config(x)` is taken as the assignment of `x` to
`drive_config`, `get_default_driveconfig()` as the parameter `default_driveconfig`. -/
def read_configuration (env : NvsEnv) (nvs : NvsStore) (s : Config) : Option Config :=
  let s := set_defaults env s
  let sc := StoredConfig.ofBytes (read_config_block nvs s.storedconfig.bytes)
  let s := { s with storedconfig := sc }
  if sc.structsize ≠ sizeof_storedconfig env then some s
  else if sc.checksum ≠ config_checksum env sc.bytes then some s
  else
    let tmp := sc.global_flags
    let g := s.globalflags &&& (255 ^^^ ((env.POSTMATCH ||| env.EXTENSION_HIDING) % 256))
    let g := (g ||| tmp) % 256
    let s := { s with globalflags := g }
    let s := if sc.hardaddress = device_hw_address then { s with device_address := sc.hardaddress } else s
    let s := { s with file_extension_mode := sc.fileexts }
    let s :=
      if env.NEED_DISKMUX then
        let d := (sc.drvconfig0 ||| (sc.drvconfig1 <<< 16)) % 4294967296
        if d = 4294967295 then { s with drive_config := env.default_driveconfig }
        else { s with drive_config := d }
      else s
    let s := { s with image_as_dir := sc.imagedirs }
    match strcpy s.rom_filename sc.romname with
    | none => none
    | some r => some { s with rom_filename := r }

/-- The contents of `storedconfig` that `write_configuration` assembles. -/
def build_storedconfig (env : NvsEnv) (s : Config) : StoredConfig :=
  let sc := s.storedconfig
  let sc := { sc with structsize := sizeof_storedconfig env % 65536
                      global_flags := (s.globalflags &&& (env.POSTMATCH ||| env.EXTENSION_HIDING)) % 256
                      address := s.device_address % 256
                      hardaddress := device_hw_address % 256
                      fileexts := s.file_extension_mode % 256 }
  let sc := if env.NEED_DISKMUX then
      { sc with drvconfig0 := s.drive_config % 65536
                drvconfig1 := (s.drive_config >>> 16) % 65536 }
    else sc
  let sc := { sc with imagedirs := s.image_as_dir % 256
                      romname := strncpy s.rom_filename env.ROM_NAME_LENGTH }
  { sc with checksum := config_checksum env sc.bytes }

/-- `write_configuration()`: the globals (only `storedconfig` changes) and the store. -/
def write_configuration (env : NvsEnv) (nvs : NvsStore) (s : Config) : Config × NvsStore :=
  let sc := build_storedconfig env s
  ({ s with storedconfig := sc }, write_config_block nvs sc.bytes)

/-- Flag values and name length of the upstream sd2iec headers, with disk multiplexing on. -/
def sampleEnv : NvsEnv :=
  { ROM_NAME_LENGTH := 16, POSTMATCH := 16, EXTENSION_HIDING := 8,
    default_driveconfig := 4294967040, NEED_DISKMUX := true }

/-- A configuration as it may stand after start-up: device 9 selected by software,
a ROM file name set, `storedconfig` still zeroed. -/
def sampleConfig : Config :=
  { globalflags := 16, file_extension_mode := 2, drive_config := 4294967040,
    rom_filename := [82, 79, 77, 0, 0, 0, 0, 0, 0, 0, 0, 0, 0, 0, 0, 0, 0],
    device_address := 9, image_as_dir := 1,
    storedconfig := StoredConfig.ofBytes (List.replicate 30 0) }

/-- A store that opens and holds no blob yet. -/
def emptyStore : NvsStore := { blob := none, opens := true }

/-! ## vfsops.c: the file system seen through POSIX calls

`vfsops.c` reaches the files through `open`, `read`, `write`, `lseek`, `fstat` and
`close`.  These are modelled on a world of named files and open descriptors.  A script
of outcomes lets the environment make a coming call fail or transfer fewer bytes; when
the script is exhausted every call succeeds. -/

/-- Outcome prescribed by the environment for the next system call. -/
inductive IoOutcome where
  | ok
  | fail (errno : Int)
  | short (n : Nat)
  deriving DecidableEq, Repr

/-- An open file descriptor. -/
structure OpenFile where
  name : List Nat
  offset : Nat
  readable : Bool
  writable : Bool
  deriving DecidableEq, Repr

/-- The environment of `vfsops.c`: files by name, descriptor table, the script of
outcomes, `errno`, and the error channel (the last `set_error`/`set_error_ts` call). -/
structure World where
  files : List Nat → Option (List Nat)
  fds : Int → Option OpenFile
  nextfd : Int
  script : List IoOutcome
  errno : Int
  error : Option ErrorCall

/-- Take the outcome of the next system call from the script. -/
def World.next (w : World) : IoOutcome × World :=
  match w.script with
  | [] => (.ok, w)
  | o :: rest => (o, { w with script := rest })

/-- Contents of the file a descriptor refers to. -/
def World.contents (w : World) (f : OpenFile) : List Nat := (w.files f.name).getD []

/-- Flags of `open` as used by `vfsops.c`. -/
structure OpenFlags where
  readable : Bool
  writable : Bool
  creat : Bool
  excl : Bool
  deriving DecidableEq, Repr

def O_RDONLY : OpenFlags := { readable := true, writable := false, creat := false, excl := false }
def O_WRONLY : OpenFlags := { readable := false, writable := true, creat := false, excl := false }
def O_RDWR : OpenFlags := { readable := true, writable := true, creat := false, excl := false }
def O_CREAT_EXCL_RDWR : OpenFlags := { readable := true, writable := true, creat := true, excl := true }

/-- A new descriptor for `name`, at offset 0. -/
def World.install (w : World) (name : List Nat) (flags : OpenFlags) : Int × World :=
  (w.nextfd, { w with
    fds := fun d => if d = w.nextfd then
        some { name := name, offset := 0, readable := flags.readable, writable := flags.writable }
      else w.fds d
    nextfd := w.nextfd + 1 })

/-- `open(name, flags)`: the descriptor (negative on failure) and the world afterwards. -/
def sys_open (E : Errno) (w : World) (name : List Nat) (flags : OpenFlags) : Int × World :=
  match w.next with
  | (.fail e, w) => (-1, { w with errno := e })
  | (_, w) =>
    match w.files name with
    | none =>
      if flags.creat then
        World.install { w with files := fun n => if n = name then some [] else w.files n } name flags
      else (-1, { w with errno := E.ENOENT })
    | some _ =>
      if flags.creat && flags.excl then (-1, { w with errno := E.EEXIST })
      else World.install w name flags

/-- `read(fd, buf, len)`: the return value, the bytes stored at `buf`, the world. -/
def sys_read (E : Errno) (w : World) (fd : Int) (len : Nat) : Int × List Nat × World :=
  match w.next with
  | (.fail e, w) => (-1, [], { w with errno := e })
  | (o, w) =>
    match w.fds fd with
    | none => (-1, [], { w with errno := E.EBADF })
    | some f =>
      if f.readable then
        let avail := ((w.contents f).drop f.offset).take len
        let got := match o with
          | .short n => avail.take n
          | _ => avail
        (got.length, got,
          { w with fds := fun d => if d = fd then some { f with offset := f.offset + got.length }
                                   else w.fds d })
      else (-1, [], { w with errno := E.EBADF })

/-- File contents after writing `bytes` at `offset` (a gap is filled with zeros). -/
def write_at (c : List Nat) (offset : Nat) (bytes : List Nat) : List Nat :=
  c.take offset ++ List.replicate (offset - c.length) 0 ++ bytes ++ c.drop (offset + bytes.length)

/-- `write(fd, buf, count)` with `bytes` the `count` bytes at `buf`: the return value and
the world. -/
def sys_write (E : Errno) (w : World) (fd : Int) (bytes : List Nat) : Int × World :=
  match w.next with
  | (.fail e, w) => (-1, { w with errno := e })
  | (o, w) =>
    match w.fds fd with
    | none => (-1, { w with errno := E.EBADF })
    | some f =>
      if f.writable then
        let put := match o with
          | .short n => bytes.take n
          | _ => bytes
        (put.length,
          { w with files := fun n => if n = f.name then some (write_at (w.contents f) f.offset put)
                                     else w.files n
                   fds := fun d => if d = fd then some { f with offset := f.offset + put.length }
                                   else w.fds d })
      else (-1, { w with errno := E.EBADF })

/-- The `whence` argument of `lseek`. -/
inductive Whence where
  | SEEK_SET
  | SEEK_CUR
  | SEEK_END
  deriving DecidableEq, Repr

/-- `lseek(fd, off, whence)`: the resulting offset (−1 on failure) and the world. -/
def sys_lseek (E : Errno) (w : World) (fd : Int) (off : Int) (whence : Whence) : Int × World :=
  match w.next with
  | (.fail e, w) => (-1, { w with errno := e })
  | (_, w) =>
    match w.fds fd with
    | none => (-1, { w with errno := E.EBADF })
    | some f =>
      let base : Int := match whence with
        | .SEEK_SET => 0
        | .SEEK_CUR => f.offset
        | .SEEK_END => (w.contents f).length
      if base + off < 0 then (-1, { w with errno := E.EINVAL })
      else (base + off,
        { w with fds := fun d => if d = fd then some { f with offset := (base + off).toNat }
                                 else w.fds d })

/-- `fstat(fd, &statbuf)`: the result (0 on success) with `st_size`, and the world. -/
def sys_fstat (E : Errno) (w : World) (fd : Int) : Int × Int × World :=
  match w.next with
  | (.fail e, w) => (-1, 0, { w with errno := e })
  | (_, w) =>
    match w.fds fd with
    | none => (-1, 0, { w with errno := E.EBADF })
    | some f => (0, (w.contents f).length, w)

/-- `close(fd)`. -/
def sys_close (E : Errno) (w : World) (fd : Int) : Int × World :=
  match w.next with
  | (.fail e, w) => (-1, { w with errno := e })
  | (_, w) =>
    match w.fds fd with
    | none => (-1, { w with errno := E.EBADF })
    | some _ => (0, { w with fds := fun d => if d = fd then none else w.fds d })

/-- `vfs_size(fd)`. -/
def vfs_size (E : Errno) (w : World) (fd : Int) : Int × World :=
  match sys_fstat E w fd with
  | (res, size, w) => if res ≠ 0 then (-1, w) else (size, w)

/-- `vfs_tell(fd)`. -/
def vfs_tell (E : Errno) (w : World) (fd : Int) : Int × World :=
  sys_lseek E w fd 0 .SEEK_CUR

/-! ## vfsops.c: buffers and callbacks -/

/-- The callbacks a buffer can hold (function pointers in the source). -/
inductive Callback where
  | null
  | callback_dummy
  | vfs_file_read
  | vfs_file_write
  | vfs_file_sync
  | vfs_file_seek
  | vfs_file_close
  deriving DecidableEq, Repr

/-- The fields of `buffer_t` that `vfsops.c` uses.  `data` is the memory seen from the
`data` pointer: indices 0..255 are the buffer's data area, larger indices lie behind it.
`fd` and `headersize` are `pvt.vfs.fd` and `pvt.vfs.headersize`. -/
structure Buffer where
  data : Nat → Nat
  position : Nat
  lastused : Nat
  sendeoi : Nat
  recordlen : Nat
  fptr : Nat
  mustflush : Nat
  allocated : Bool
  dirty : Bool
  read : Bool
  write : Bool
  sticky : Bool
  fd : Int
  headersize : Nat
  refill : Callback
  cleanup : Callback
  seek : Callback

/-- Conversion to `uint32_t`. -/
def u32 (x : Int) : Nat := (x % 4294967296).toNat

/-- Store `bytes` at `data + start`. -/
def poke (data : Nat → Nat) (start : Nat) (bytes : List Nat) : Nat → Nat :=
  fun i => if start ≤ i ∧ i < start + bytes.length then bytes.getD (i - start) 0 else data i

/-- The `n` bytes at `data + start`. -/
def peek (data : Nat → Nat) (start n : Nat) : List Nat :=
  (List.range n).map (fun i => data (start + i))

/-- Modelled from the spec: `free_buffer` of `buffers.c`, which the spec gives as
releasing the buffer, "no-op if sticky". -/
def free_buffer (buf : Buffer) : Buffer :=
  if buf.sticky then buf else { buf with allocated := false }

/-- Modelled from the spec: `mark_buffer_clean` of `buffers.h` clears the dirty flag. -/
def mark_buffer_clean (buf : Buffer) : Buffer := { buf with dirty := false }

/-- Modelled from the spec: `mark_write_buffer` of `buffers.h` sets the write flag. -/
def mark_write_buffer (buf : Buffer) : Buffer := { buf with write := true }

/-- Modelled from the spec: `stick_buffer` of `buffers.h` sets the sticky flag. -/
def stick_buffer (buf : Buffer) : Buffer := { buf with sticky := true }

/-- Record an error on the error channel. -/
def World.set (w : World) (e : ErrorCall) : World := { w with error := some e }

/-- The loop `while(!buf->data[buf->lastused] && --(buf->lastused) > 1);` on the 8-bit
field `lastused`; it ends within 257 rounds, `fuel` bounds the rounds. -/
def strip_nulls (data : Nat → Nat) : Nat → Nat → Nat
  | 0, lastused => lastused
  | fuel + 1, lastused =>
    if data lastused = 0 then
      if (lastused + 255) % 256 > 1 then strip_nulls data fuel ((lastused + 255) % 256)
      else (lastused + 255) % 256
    else lastused

/-- `vfs_file_read(buf)`: return value, buffer and world afterwards. -/
def vfs_file_read (E : Errno) (buf : Buffer) (w : World) : Nat × Buffer × World :=
  let len := if buf.recordlen ≠ 0 then buf.recordlen else 254
  match sys_read E w buf.fd len with
  | (bytesread, bytes, w) =>
    let buf := { buf with data := poke buf.data 2 bytes }
    if bytesread < 0 then
      (1, free_buffer buf, w.set (parse_error E w.errno 1))
    else
      let buf := if bytesread = 0 then
          { buf with data := poke buf.data 2 [if buf.recordlen ≠ 0 then 255 else 13] }
        else buf
      let bytesread : Int := if bytesread = 0 then 1 else bytesread
      let buf := { buf with position := 2, lastused := ((bytesread + 1) % 256).toNat }
      let buf := if buf.recordlen ≠ 0 then
          { buf with lastused := strip_nulls buf.data 257 buf.lastused }
        else buf
      if bytesread < 254 then (0, { buf with sendeoi := 1 }, w)
      else
        match vfs_size E w buf.fd with
        | (size, w) =>
          match vfs_tell E w buf.fd with
          | (tell, w) =>
            if size - tell = 0 ∨ buf.recordlen ≠ 0 then (0, { buf with sendeoi := 1 }, w)
            else (0, { buf with sendeoi := 0 }, w)

/-- `write_data(buf)`: return value, buffer and world afterwards. -/
def write_data (E : Errno) (buf : Buffer) (w : World) : Nat × Buffer × World :=
  let buf := if buf.mustflush = 0 then { buf with lastused := (buf.position + 255) % 256 } else buf
  let pad : List Nat := List.replicate ((buf.recordlen : Int) - ((buf.lastused : Int) - 1)).toNat 0
  let buf := if (buf.recordlen : Int) > (buf.lastused : Int) - 1 then
      { buf with data := poke buf.data (buf.lastused + 1) pad }
    else buf
  let buf := if buf.recordlen ≠ 0 then { buf with lastused := (buf.recordlen + 1) % 256 } else buf
  let count : Nat := u32 ((buf.lastused : Int) - 1)
  match sys_write E w buf.fd (peek buf.data 2 count) with
  | (byteswritten, w) =>
    if byteswritten < 0 then
      let w := w.set (parse_error E w.errno 1)
      (1, free_buffer buf, (sys_close E w buf.fd).2)
    else if byteswritten % 4294967296 ≠ ((buf.lastused : Int) - 1) % 4294967296 then
      let w := w.set (.set_error .ERROR_DISK_FULL)
      (1, free_buffer buf, (sys_close E w buf.fd).2)
    else
      let buf := mark_buffer_clean buf
      let buf := { buf with mustflush := 0, position := 2, lastused := 2 }
      match vfs_tell E w buf.fd with
      | (tell, w) =>
        (0, { buf with fptr := u32 (tell - (buf.headersize : Int)) }, w)

/-- The loop `while(offset < 0) { ... }` of `vfs_file_write`; `none` when it has not
ended after `fuel` rounds.  The result carries the return value of a failed `write_data`
(0 when the loop ended normally). -/
def vfs_file_write_fill (E : Errno) (offset : Int) :
    Nat → Nat → Buffer → World → Option (Nat × Buffer × World)
  | fuel, i, buf, w =>
    if offset < 0 then
      match fuel with
      | 0 => none
      | fuel + 1 =>
        let lastused := if buf.recordlen ≠ 0 then buf.recordlen
          else (if i > 254 then 254 else i % 256)
        let i := (i + 4294967296 - lastused) % 4294967296
        let buf := { buf with lastused := lastused, position := (lastused + 2) % 256 }
        match write_data E buf w with
        | (r, buf, w) =>
          if r ≠ 0 then some (1, buf, w) else vfs_file_write_fill E offset fuel i buf w
    else some (0, buf, w)

/-- The part of `vfs_file_write` after the first `write_data`: the block `if(i) { ... }`
that fills the gap between the old end of file (`fptr`) and the position written to. -/
def vfs_file_write_gap (E : Errno) (fuel : Nat) (fptr i : Nat) (buf : Buffer) (w : World) :
    Option (Nat × Buffer × World) :=
  if i ≠ 0 then
    match sys_lseek E w buf.fd (toInt32 (((buf.headersize + fptr) % 4294967296 : Nat) : Int))
        .SEEK_SET with
    | (offset, w) =>
      let buf := { buf with mustflush := 0, fptr := fptr }
      let buf := { buf with data := poke buf.data 2 [if buf.recordlen ≠ 0 then 255 else 0] }
      let buf := { buf with data := poke buf.data 3 (List.replicate 253 0) }
      match vfs_file_write_fill E offset fuel i buf w with
      | none => none
      | some (r, buf, w) =>
        if r ≠ 0 then some (1, buf, w)
        else
          match sys_lseek E w buf.fd 0 .SEEK_END with
          | (offset, w) =>
            if offset < 0 then
              let w := w.set (parse_error E w.errno 1)
              some (1, free_buffer buf, (sys_close E w buf.fd).2)
            else
              match vfs_tell E w buf.fd with
              | (tell, w) => some (0, { buf with fptr := u32 (tell - (buf.headersize : Int)) }, w)
  else some (0, buf, w)

/-- `vfs_file_write(buf)`: return value, buffer and world; `none` when the fill loop has
not ended after `fuel` rounds. -/
def vfs_file_write (E : Errno) (fuel : Nat) (buf : Buffer) (w : World) :
    Option (Nat × Buffer × World) :=
  match vfs_size E w buf.fd with
  | (fsize, w) =>
    match (if buf.fptr ≠ u32 (fsize - (buf.headersize : Int)) then
        sys_lseek E w buf.fd (toInt32 (((buf.headersize + buf.fptr) % 4294967296 : Nat) : Int))
          .SEEK_SET
      else (0, w)) with
    | (offset, w) =>
      if offset < 0 then
        let w := w.set (parse_error E w.errno 1)
        some (1, free_buffer buf, (sys_close E w buf.fd).2)
      else
        match write_data E buf w with
        | (r, buf2, w) =>
          if r ≠ 0 then some (1, buf2, w)
          else
            vfs_file_write_gap E fuel (u32 (fsize - (buf.headersize : Int)))
              (if buf.fptr > u32 (fsize - (buf.headersize : Int)) then
                buf.fptr - u32 (fsize - (buf.headersize : Int)) else 0)
              buf2 w

/-- `vfs_file_seek(buf, position, index)`. -/
def vfs_file_seek (E : Errno) (fuel : Nat) (buf : Buffer) (w : World) (position index : Nat) :
    Option (Nat × Buffer × World) :=
  let pos : Nat := (position + buf.headersize) % 4294967296
  let flushed : Option (Nat × Buffer × World) :=
    if buf.dirty then vfs_file_write E fuel buf w else some (0, buf, w)
  match flushed with
  | none => none
  | some (r, buf, w) =>
    if r ≠ 0 then some (1, buf, w)
    else
      match vfs_size E w buf.fd with
      | (fsize, w) =>
        let finish (buf : Buffer) : Buffer :=
          let buf := { buf with position := (index + 2) % 256 }
          if index + 2 > buf.lastused then { buf with position := buf.lastused } else buf
        if fsize % 4294967296 ≥ (pos : Int) then
          match sys_lseek E w buf.fd (toInt32 pos) .SEEK_SET with
          | (offset, w) =>
            if offset < 0 then
              let w := w.set (parse_error E w.errno 0)
              some (1, free_buffer buf, (sys_close E w buf.fd).2)
            else
              match vfs_file_read E buf w with
              | (r, buf, w) => if r ≠ 0 then some (1, buf, w) else some (0, finish buf, w)
        else
          let buf := { buf with data := poke buf.data 2 [if buf.recordlen ≠ 0 then 255 else 13]
                                lastused := 2, fptr := position }
          some (0, finish buf, w.set (.set_error .ERROR_RECORD_MISSING))

/-- `vfs_file_sync(buf)`. -/
def vfs_file_sync (E : Errno) (fuel : Nat) (buf : Buffer) (w : World) :
    Option (Nat × Buffer × World) :=
  vfs_file_seek E fuel buf w ((buf.fptr + buf.recordlen) % 4294967296) 0

/-- The call `buf->refill(buf)`; `none` also for a pointer that is no refill callback. -/
def call_refill (E : Errno) (fuel : Nat) (buf : Buffer) (w : World) :
    Option (Nat × Buffer × World) :=
  match buf.refill with
  | .vfs_file_read => some (vfs_file_read E buf w)
  | .vfs_file_write => vfs_file_write E fuel buf w
  | .vfs_file_sync => vfs_file_sync E fuel buf w
  | .callback_dummy => some (0, buf, w)
  | _ => none

/-- `vfs_file_close(buf)`. -/
def vfs_file_close (E : Errno) (fuel : Nat) (buf : Buffer) (w : World) :
    Option (Nat × Buffer × World) :=
  if !buf.allocated then some (0, buf, w)
  else
    let flushed : Option (Nat × Buffer × World) :=
      if buf.write then call_refill E fuel buf w else some (0, buf, w)
    match flushed with
    | none => none
    | some (r, buf, w) =>
      if r ≠ 0 then some (1, buf, w)
      else
        match sys_close E w buf.fd with
        | (res, w) =>
          let buf := { buf with fd := -1 }
          let w := w.set (parse_error E w.errno 1)
          let buf := { buf with cleanup := .callback_dummy }
          if res < 0 then some (1, buf, w) else some (0, buf, w)

/-- `vfs_open(path, dent, mode)`.  The assembly of the path name (`vfs_path_dent`) is
not modelled: `name` stands for the name it yields. -/
def vfs_open (E : Errno) (w : World) (name : List Nat) (mode : OpenFlags) : Int × World :=
  sys_open E w name mode

/-- `P00_HEADER_SIZE`. -/
def P00_HEADER_SIZE : Nat := 26

/-- `vfs_open_read(path, dent, buf)`; `x00` tells whether `dent->opstype` is
`OPSTYPE_VFS_X00`. -/
def vfs_open_read (E : Errno) (w : World) (name : List Nat) (x00 : Bool) (buf : Buffer) :
    Buffer × World :=
  match vfs_open E w name O_RDONLY with
  | (fd, w) =>
    if fd < 0 then (buf, w.set (parse_error E w.errno 1))
    else
      let buf := { buf with fd := fd }
      let w := if x00 then (sys_lseek E w buf.fd P00_HEADER_SIZE .SEEK_SET).2 else w
      let buf := if x00 then { buf with headersize := P00_HEADER_SIZE } else buf
      let buf := { buf with read := true, cleanup := .vfs_file_close, refill := .vfs_file_read,
                            seek := .vfs_file_seek }
      let buf := stick_buffer buf
      (vfs_file_read E buf w).2

/-- The retry loop of `create_file`: `x` is the index in `name` that `x00ext` points to,
`fd` the result of the last `vfs_open`; `none` when the loop has not ended after `fuel`
rounds. -/
def create_file_retry (E : Errno) (x : Nat) :
    Nat → World → List Nat → Int → Option (Int × List Nat × World)
  | fuel, w, name, fd =>
    if fd < 0 then
      match fuel with
      | 0 => none
      | fuel + 1 =>
        let name := name.set x ((name.getD x 0 + 1) % 256)
        if name.getD x 0 = 58 then
          let name := name.set x 48
          let name := name.set (x - 1) ((name.getD (x - 1) 0 + 1) % 256)
          if name.getD (x - 1) 0 = 58 then some (fd, name, w)
          else
            match vfs_open E w name O_CREAT_EXCL_RDWR with
            | (fd, w) => create_file_retry E x fuel w name fd
        else
          match vfs_open E w name O_CREAT_EXCL_RDWR with
          | (fd, w) => create_file_retry E x fuel w name fd
    else some (fd, name, w)

/-- The header that `create_file` assembles in `ops_scratch` for an x00 file:
"C64File", a zero byte, the 16 bytes of the CBM name, a zero byte, the record length. -/
def p00_header (cbmname : List Nat) (recordlen : Nat) : List Nat :=
  [67, 54, 52, 70, 105, 108, 101, 0] ++ (cbmname ++ List.replicate 16 0).take 16 ++ [0, recordlen]

/-- `create_file(path, dent, type, buf, recordlen)`.  `realname` and `x00ext` are what
`build_name` left in `dent->pvt.vfs.realname` and returned (the index its pointer has in
`realname`); `cbmname` is `dent->name`.  The result is the return value, the buffer, the
world and the final `realname`. -/
def create_file (E : Errno) (fuel : Nat) (w : World) (realname : List Nat) (x00ext : Option Nat)
    (cbmname : List Nat) (buf : Buffer) (recordlen : Nat) :
    Option (Int × Buffer × World × List Nat) :=
  match vfs_open E w realname O_CREAT_EXCL_RDWR with
  | (fd, w) =>
    let retried : Option (Int × List Nat × World) :=
      match x00ext with
      | some x => create_file_retry E x fuel w realname fd
      | none => some (fd, realname, w)
    match retried with
    | none => none
    | some (fd, realname, w) =>
      if fd < 0 then some (fd, buf, w, realname)
      else
        let buf := { buf with fd := fd }
        if x00ext.isSome || recordlen ≠ 0 then
          let header : List Nat := if x00ext.isSome then p00_header cbmname recordlen else [recordlen]
          let buf := if x00ext.isSome then { buf with headersize := P00_HEADER_SIZE }
            else { buf with headersize := 1 }
          match sys_write E w buf.fd header with
          | (byteswritten, w) =>
            if byteswritten ≠ (buf.headersize : Int) then
              some (-1, { buf with fd := -1 }, (sys_close E w buf.fd).2, realname)
            else some (fd, buf, w, realname)
        else some (fd, buf, w, realname)

/-- `vfs_open_write(path, dent, type, buf, append)`, with the arguments of `create_file`
and `x00` as in `vfs_open_read`.  In the append branch `vfs_size` and `lseek` are applied
to `buf->pvt.vfs.fd` as it stands on entry, as in the source. -/
def vfs_open_write (E : Errno) (fuel : Nat) (w : World) (realname : List Nat)
    (x00ext : Option Nat) (cbmname : List Nat) (x00 : Bool) (buf : Buffer) (append : Nat) :
    Option (Buffer × World) :=
  let opened : Option (Int × Buffer × World) :=
    if append ≠ 0 then
      match vfs_open E w realname O_WRONLY with
      | (fd, w) =>
        if fd ≥ 0 then
          let buf := if x00 then { buf with headersize := P00_HEADER_SIZE } else buf
          match vfs_size E w buf.fd with
          | (fsize, w) =>
            let w := (sys_lseek E w buf.fd 0 .SEEK_END).2
            some (fd, { buf with fptr := u32 (fsize - (buf.headersize : Int)) }, w)
        else some (fd, buf, w)
    else
      match create_file E fuel w realname x00ext cbmname buf 0 with
      | none => none
      | some (fd, buf, w, _) => some (fd, buf, w)
  match opened with
  | none => none
  | some (fd, buf, w) =>
    if fd < 0 then some (buf, w.set (parse_error E w.errno 0))
    else
      let buf := { buf with fd := fd }
      let buf := mark_write_buffer buf
      let buf := { buf with position := 2, lastused := 2, cleanup := .vfs_file_close,
                            refill := .vfs_file_write, seek := .vfs_file_seek }
      some ({ buf with data := poke buf.data 2 [13] }, w)

/-! ## Sample states and drivers -/

/-- A buffer as `alloc_buffer` hands it out: allocated, everything else zero. -/
def freshBuffer : Buffer :=
  { data := fun _ => 0, position := 0, lastused := 0, sendeoi := 0, recordlen := 0, fptr := 0,
    mustflush := 0, allocated := true, dirty := false, read := false, write := false,
    sticky := false, fd := 0, headersize := 0, refill := .null, cleanup := .null, seek := .null }

/-- A world with the single file `name`, no open descriptor, every call succeeding. -/
def worldWith (name : List Nat) (contents : List Nat) : World :=
  { files := fun n => if n = name then some contents else none
    fds := fun _ => none, nextfd := 3, script := [], errno := 0, error := none }

/-- A world without files. -/
def emptyWorld : World :=
  { files := fun _ => none, fds := fun _ => none, nextfd := 3, script := [], errno := 0,
    error := none }

/-- What the bus side sees of a buffer after a refill. -/
structure Block where
  bytes : List Nat
  position : Nat
  lastused : Nat
  sendeoi : Nat
  deriving DecidableEq, Repr

/-- The payload `data[2..lastused]` of a buffer, with its position, lastused and sendeoi. -/
def Buffer.block (buf : Buffer) : Block :=
  { bytes := peek buf.data 2 (buf.lastused - 1), position := buf.position,
    lastused := buf.lastused, sendeoi := buf.sendeoi }

/-- Call `vfs_file_read` until a call fails or sets `sendeoi` (at most `fuel` calls) and
collect the block found in the buffer after each successful call. -/
def read_blocks (E : Errno) : Nat → Buffer → World → List Block
  | 0, _, _ => []
  | fuel + 1, buf, w =>
    match vfs_file_read E buf w with
    | (r, buf, w) =>
      if r ≠ 0 then []
      else if buf.sendeoi ≠ 0 then [buf.block]
      else buf.block :: read_blocks E fuel buf w

/-- The descriptor `fd` is open for reading at offset `o` on a file with contents `c`, and
no failure is scheduled. -/
def ReadyAt (w : World) (fd : Int) (c : List Nat) (o : Nat) : Prop :=
  w.script = [] ∧ ∃ f, w.fds fd = some f ∧ f.readable = true ∧ f.offset = o ∧
    w.files f.name = some c

/-- The descriptor `fd` is open for writing at offset `o` on a file with contents `c`,
and no failure is scheduled. -/
def WritableAt (w : World) (fd : Int) (c : List Nat) (o : Nat) : Prop :=
  w.script = [] ∧ ∃ f, w.fds fd = some f ∧ f.writable = true ∧ f.offset = o ∧
    w.files f.name = some c

/-- The descriptor `fd` was opened read-write on the file `name`, stands at offset `o`,
the file has contents `c`, and no failure is scheduled. -/
def WritingTo (w : World) (fd : Int) (name : List Nat) (c : List Nat) (o : Nat) : Prop :=
  w.script = [] ∧ 0 ≤ w.nextfd ∧
    w.fds fd = some { name := name, offset := o, readable := true, writable := true } ∧
    w.files name = some c

/-- The bus side storing one received byte in a write buffer, as in a LISTEN transfer
(the transfer loop itself belongs to the bus engine, outside `vfsops.c`): the byte goes to
`data[position]`, `position` advances, and when it wraps past 255 the buffer is flushed
through `vfs_file_write` with `mustflush = 1` and `lastused = 255`.  The result is `none`
when the flush fails. -/
def store_byte (E : Errno) (fuel : Nat) (b : Nat) (buf : Buffer) (w : World) :
    Option (Buffer × World) :=
  let buf := { buf with data := poke buf.data buf.position [b], dirty := true,
                        position := (buf.position + 1) % 256 }
  if buf.position = 0 then
    match vfs_file_write E fuel { buf with mustflush := 1, lastused := 255 } w with
    | none => none
    | some (r, buf, w) => if r ≠ 0 then none else some (buf, w)
  else some (buf, w)

/-- Store a sequence of bytes with `store_byte`. -/
def store_bytes (E : Errno) (fuel : Nat) : List Nat → Buffer → World → Option (Buffer × World)
  | [], buf, w => some (buf, w)
  | b :: bs, buf, w =>
    match store_byte E fuel b buf w with
    | none => none
    | some (buf, w) => store_bytes E fuel bs buf w

/-- Open `name` with `vfs_open_read` (which refills once) and keep calling `vfs_file_read`
until `sendeoi` is set; the blocks found in the buffer. -/
def read_back (E : Errno) (fuel : Nat) (w : World) (name : List Nat) (buf : Buffer) :
    List Block :=
  match vfs_open_read E w name false buf with
  | (buf, w) => if buf.sendeoi ≠ 0 then [buf.block] else buf.block :: read_blocks E fuel buf w

/-- Create the header-free file `name` with `vfs_open_write` (no append), store `bytes`,
close with `vfs_file_close`, then read the file back with `read_back`. -/
def write_then_read (E : Errno) (fuel : Nat) (w : World) (name cbmname bytes : List Nat)
    (wbuf rbuf : Buffer) : Option (List Block) :=
  match vfs_open_write E fuel w name none cbmname false wbuf 0 with
  | none => none
  | some (buf, w) =>
    match store_bytes E fuel bytes buf w with
    | none => none
    | some (buf, w) =>
      match vfs_file_close E fuel buf w with
      | none => none
      | some (r, _, w) => if r ≠ 0 then none else some (read_back E fuel w name rbuf)

/-- The globals after `read_configuration` took one of its two early returns on the
blob `b`: the defaults, everything else as before. -/
def rejected_result (env : NvsEnv) (s : Config) (b : List Nat) : Config :=
  { globalflags := (s.globalflags ||| env.POSTMATCH) % 256
    file_extension_mode := 1
    drive_config := env.default_driveconfig
    rom_filename := List.replicate (env.ROM_NAME_LENGTH + 1) 0
    device_address := s.device_address
    image_as_dir := s.image_as_dir
    storedconfig := StoredConfig.ofBytes b }

/-- State of a sequential write buffer during a transfer: `written` is in the file (the
descriptor stands at its end), `pending` is in the buffer at `data[2..]`. -/
def StoreInv (buf : Buffer) (w : World) (fd : Int) (name written pending : List Nat) : Prop :=
  WritingTo w fd name written written.length ∧ buf.fd = fd ∧
  buf.position = pending.length + 2 ∧ pending.length ≤ 253 ∧
  peek buf.data 2 pending.length = pending ∧ buf.mustflush = 0 ∧ buf.recordlen = 0 ∧
  buf.headersize = 0 ∧ buf.fptr = written.length ∧ buf.refill = .vfs_file_write ∧
  buf.write = true ∧ buf.allocated = true

/-- A buffer of a relative file with record length 255 whose first header byte is 7. -/
def rel255Buffer : Buffer :=
  { freshBuffer with fd := 3, recordlen := 255, read := true,
                     data := fun i => if i = 0 then 7 else 0 }

/-- A world in which descriptor 3 is open for reading at the start of a file of 300
bytes, all of them 1. -/
def rel255World : World :=
  (sys_open newlibErrno (worldWith [70] (List.replicate 300 1)) [70] O_RDONLY).2

/-- The buffer as `vfs_file_read` leaves it before it decides on `sendeoi`, given the
result `bytesread ≥ 0` of `read` and the bytes read (an auxiliary view of the body of
`vfs_file_read`). -/
def vfs_file_read_filled (buf : Buffer) (bytesread : Int) (bytes : List Nat) : Buffer :=
  let buf := { buf with data := poke buf.data 2 bytes }
  let buf := if bytesread = 0 then
      { buf with data := poke buf.data 2 [if buf.recordlen ≠ 0 then 255 else 13] }
    else buf
  let bytesread : Int := if bytesread = 0 then 1 else bytesread
  let buf := { buf with position := 2, lastused := ((bytesread + 1) % 256).toNat }
  if buf.recordlen ≠ 0 then { buf with lastused := strip_nulls buf.data 257 buf.lastused } else buf

/-- The end of `vfs_file_read`: the decision on `sendeoi` (an auxiliary view). -/
def vfs_file_read_eoi (E : Errno) (buf : Buffer) (bytesread : Int) (w : World) :
    Nat × Buffer × World :=
  if bytesread < 254 then (0, { buf with sendeoi := 1 }, w)
  else
    match vfs_size E w buf.fd with
    | (size, w) =>
      match vfs_tell E w buf.fd with
      | (tell, w) =>
        if size - tell = 0 ∨ buf.recordlen ≠ 0 then (0, { buf with sendeoi := 1 }, w)
        else (0, { buf with sendeoi := 0 }, w)

/-- The body of `vfs_file_read` after the call of `read`, whose result is `res` (an
auxiliary view). -/
def vfs_file_read_after (E : Errno) (buf : Buffer) (res : Int × List Nat × World) :
    Nat × Buffer × World :=
  if res.1 < 0 then
    (1, free_buffer { buf with data := poke buf.data 2 res.2.1 },
      res.2.2.set (parse_error E res.2.2.errno 1))
  else
    vfs_file_read_eoi E (vfs_file_read_filled buf res.1 res.2.1)
      (if res.1 = 0 then 1 else res.1) res.2.2

/-! ## esp32/system.c: system_sleep -/

/-- What one round of the loop in `system_sleep` observes: the value of
`interrupt_happens` and of `IEC_ATN` (non-zero while the ATN line is released) when the
loop condition is evaluated, and the value `ulTaskNotifyTakeIndexed` returns if the round
waits (0 when the 1000 ms ran out). -/
structure SleepObs where
  interrupt_happens : Nat
  iec_atn : Nat
  notification : Nat
  deriving DecidableEq, Repr

/-- The outcome of `system_sleep`: how many times it waited, and `interrupt_happens` on
return. -/
structure SleepResult where
  waits : Nat
  interrupt_happens : Nat
  deriving DecidableEq, Repr

/-- The loop `while (!interrupt_happens && IEC_ATN) { ... if (ulNotificationValue) break; }`
run on the observations, `waits` waits done so far; `none` when the observations end while
the loop is still running. -/
def system_sleep_loop : List SleepObs → Nat → Option Nat
  | [], _ => none
  | o :: rest, waits =>
    if o.interrupt_happens = 0 ∧ o.iec_atn ≠ 0 then
      if o.notification ≠ 0 then some (waits + 1)
      else system_sleep_loop rest (waits + 1)
    else some waits

/-- `system_sleep()` on a sequence of observations; `none` when it has not returned by
the end of the sequence. -/
def system_sleep (obs : List SleepObs) : Option SleepResult :=
  match system_sleep_loop obs 0 with
  | none => none
  | some waits => some { waits := waits, interrupt_happens := 0 }

/-- A round in which nothing happens: no interrupt flagged, ATN released, the wait times
out. -/
def SleepObs.quiet (o : SleepObs) : Prop :=
  o.interrupt_happens = 0 ∧ o.iec_atn ≠ 0 ∧ o.notification = 0

instance (o : SleepObs) : Decidable o.quiet := by
  unfold SleepObs.quiet; infer_instance

/-! ## esp32/debug.c: atncmd2str -/

/-- `atncmd2str(cmd)`. -/
def atncmd2str (cmd : Int) : String :=
  if cmd = 0x3F then "ATN_CODE_UNLISTEN"
  else if cmd = 0x5F then "ATN_CODE_UNTALK"
  else if (cmd % 256).toNat &&& 0xf0 = 0x20 then "ATN_CODE_LISTEN"
  else if (cmd % 256).toNat &&& 0xf0 = 0x40 then "ATN_CODE_TALK"
  else if (cmd % 256).toNat &&& 0xf0 = 0x60 then "ATN_CODE_DATA"
  else if (cmd % 256).toNat &&& 0xf0 = 0xE0 then "ATN_CODE_CLOSE"
  else if (cmd % 256).toNat &&& 0xf0 = 0xF0 then "ATN_CODE_OPEN"
  else "UNKNOWN CMD"

/-- The name that the ATN decoding table of the specification gives to a command byte. -/
def atn_table_name (b : Nat) : String :=
  if 0x20 ≤ b ∧ b ≤ 0x3E then "ATN_CODE_LISTEN"
  else if b = 0x3F then "ATN_CODE_UNLISTEN"
  else if 0x40 ≤ b ∧ b ≤ 0x5E then "ATN_CODE_TALK"
  else if b = 0x5F then "ATN_CODE_UNTALK"
  else if 0x60 ≤ b ∧ b ≤ 0x6F then "ATN_CODE_DATA"
  else if 0xE0 ≤ b ∧ b ≤ 0xEF then "ATN_CODE_CLOSE"
  else if 0xF0 ≤ b ∧ b ≤ 0xFF then "ATN_CODE_OPEN"
  else "UNKNOWN CMD"

/-! ## esp32/iec-bus.h: output functions -/

/-- Build options of `iec-bus.h` that are set outside the embedded files. -/
structure IecConfig where
  USE_SLOW_GPIO : Bool
  IEC_INPUTS_INVERTED : Bool
  deriving DecidableEq, Repr

/-- `COND_INV(state)`. -/
def COND_INV (cfg : IecConfig) (state : Bool) : Bool :=
  if cfg.IEC_INPUTS_INVERTED then !state else state

/-- The output latch bits of the DATA and CLOCK pins and the cached line states
(`CONFIG_DEBUG_VERBOSE` is set in `autoconf.h`). -/
structure IecLines where
  out_data : Bool
  out_clock : Bool
  atn_state : Nat
  clock_state : Nat
  data_state : Nat
  srq_state : Nat
  deriving DecidableEq, Repr

/-- `set_data0()`. -/
def set_data0 (cfg : IecConfig) (l : IecLines) : IecLines :=
  { l with data_state := 0
           out_data := if cfg.USE_SLOW_GPIO then COND_INV cfg false else false }

/-- `set_data1()`. -/
def set_data1 (cfg : IecConfig) (l : IecLines) : IecLines :=
  { l with data_state := 1
           out_data := if cfg.USE_SLOW_GPIO then COND_INV cfg true else true }

/-- `set_data(state)`. -/
def set_data (cfg : IecConfig) (state : Nat) (l : IecLines) : IecLines :=
  if state ≠ 0 then set_data1 cfg l else set_data0 cfg l

/-- `set_clock0()`. -/
def set_clock0 (cfg : IecConfig) (l : IecLines) : IecLines :=
  { l with data_state := 0
           out_clock := if cfg.USE_SLOW_GPIO then COND_INV cfg false else false }

/-- `set_clock1()`. -/
def set_clock1 (cfg : IecConfig) (l : IecLines) : IecLines :=
  { l with clock_state := 1
           out_clock := if cfg.USE_SLOW_GPIO then COND_INV cfg true else true }

/-- `set_clock(state)`. -/
def set_clock (cfg : IecConfig) (state : Nat) (l : IecLines) : IecLines :=
  if state ≠ 0 then set_clock1 cfg l else set_clock0 cfg l

/-- The fast register path without input inversion. -/
def fastGpio : IecConfig := { USE_SLOW_GPIO := false, IEC_INPUTS_INVERTED := false }

/-- Both lines pulled, both cached states 1. -/
def linesPulled : IecLines :=
  { out_data := true, out_clock := true, atn_state := 0, clock_state := 1, data_state := 1,
    srq_state := 0 }

/-! ## vfsops.c: vfs_delete and vfs_readdir -/

/-- `unlink(name)`. -/
def sys_unlink (E : Errno) (w : World) (name : List Nat) : Int × World :=
  match w.next with
  | (.fail e, w) => (-1, { w with errno := e })
  | (_, w) =>
    match w.files name with
    | none => (-1, { w with errno := E.ENOENT })
    | some _ => (0, { w with files := fun n => if n = name then none else w.files n })

/-- `vfs_delete(path, dent)`; `name` stands for the path name that `vfs_path_dent`
assembles.  The LED calls and `p00cache_invalidate` are left out. -/
def vfs_delete (E : Errno) (w : World) (name : List Nat) : Nat × World :=
  match sys_unlink E w name with
  | (res, w) =>
    let w := w.set (parse_error E w.errno 0)
    if res < 0 then (1, w) else (255, w)

/-- What one call of `readdir` yields: an entry with its `d_name`, or NULL with `errno`
left alone (end of directory) or set (error). -/
inductive ReaddirResult where
  | entry (d_name : List Nat)
  | null (errno : Option Int)
  deriving DecidableEq, Repr

/-- The result of `vfs_readdir`: the return value, the error recorded by `parse_error`
(if any), the results `readdir` has still to deliver, and the `d_name` of the entry that
`dent` was filled from (if any). -/
structure ReaddirOutcome where
  ret : Int
  error : Option ErrorCall
  rest : List ReaddirResult
  filled : Option (List Nat)
  deriving DecidableEq, Repr

/-- `vfs_readdir(dh, dent)`.  `stream` holds the results of the successive `readdir`
calls (NULL with `errno` 0 once it is used up), `stat` the result of `stat` on an entry.
The part after a successful `stat`, which fills `dent` and ends in `return 0` on every
path, is represented by the entry's name only. -/
def vfs_readdir (E : Errno) (stat : List Nat → Int) : List ReaddirResult → ReaddirOutcome
  | [] => { ret := -1, error := none, rest := [], filled := none }
  | .null none :: rest => { ret := -1, error := none, rest := rest, filled := none }
  | .null (some e) :: rest =>
    if e ≠ 0 then { ret := -1, error := some (parse_error E e 1), rest := rest, filled := none }
    else { ret := -1, error := none, rest := rest, filled := none }
  | .entry d_name :: rest =>
    if d_name = [46] ∨ d_name = [46, 46] then vfs_readdir E stat rest
    else if stat d_name ≠ 0 then { ret := -1, error := none, rest := rest, filled := none }
    else { ret := 0, error := none, rest := rest, filled := some d_name }

/-- Open the header-free file `name` with `vfs_open_write` (no append) and close it at
once with `vfs_file_close`: the return value of the close and the file's contents. -/
def open_and_close (E : Errno) (fuel : Nat) (w : World) (name : List Nat) (buf : Buffer) :
    Option (Nat × Option (List Nat)) :=
  match vfs_open_write E fuel w name none [] false buf 0 with
  | none => none
  | some (buf, w) =>
    match vfs_file_close E fuel buf w with
    | none => none
    | some (r, _, w) => some (r, w.files name)

/-- What `vfs_open_write` with `append = 1` leaves behind: the descriptor in the buffer,
`fptr`, and the offsets of two descriptors of interest. -/
structure AppendView where
  fd : Int
  fptr : Nat
  offset_new : Option Nat
  offset_old : Option Nat
  deriving DecidableEq, Repr

/-- Call `vfs_open_write` with `append = 1` on `name` and look at the result; `old` is a
descriptor whose offset is reported as well. -/
def append_view (E : Errno) (w : World) (name : List Nat) (x00 : Bool) (buf : Buffer)
    (old : Int) : Option AppendView :=
  match vfs_open_write E 0 w name none [] x00 buf 1 with
  | none => none
  | some (buf, w) =>
    some { fd := buf.fd, fptr := buf.fptr,
           offset_new := (w.fds buf.fd).map (fun f => f.offset),
           offset_old := (w.fds old).map (fun f => f.offset) }

/-- A world with the files `[70]` (5 bytes) and `[71]` (9 bytes); descriptor 3 is open on
`[71]` at offset 2. -/
def twoFilesWorld : World :=
  { files := fun n => if n = [70] then some [1, 2, 3, 4, 5]
      else if n = [71] then some [1, 2, 3, 4, 5, 6, 7, 8, 9] else none
    fds := fun d => if d = 3 then
        some { name := [71], offset := 2, readable := true, writable := true }
      else none
    nextfd := 4, script := [], errno := 0, error := none }

/-! ### vfsops.c: file-name extensions

A C string is the list of its character codes before the terminating zero.
Where the code reads at a fixed offset from a pointer into the string, the
memory is the string, its terminating zero and then the bytes `rest` that
happen to follow it. -/

/-- C library `toupper` in the "C" locale, on an unsigned character code. -/
def toupper (c : Nat) : Nat :=
  if 97 ≤ c ∧ c ≤ 122 then c - 32 else c

/-- C library `isdigit`. -/
def isdigit (c : Nat) : Bool :=
  decide (48 ≤ c ∧ c ≤ 57)

/-- C library `isalnum` in the "C" locale. -/
def isalnum (c : Nat) : Bool :=
  decide ((48 ≤ c ∧ c ≤ 57) ∨ (65 ≤ c ∧ c ≤ 90) ∨ (97 ≤ c ∧ c ≤ 122))

/-- C library `strrchr` for a character other than zero: the index of the last
occurrence of `c` in the string, `none` for the NULL pointer. -/
def strrchr : List Nat → Nat → Option Nat
  | [], _ => none
  | x :: xs, c =>
    match strrchr xs c with
    | some i => some (i + 1)
    | none => if x = c then some 0 else none

/-- The byte at `name + i`: the string, its terminating zero, then `rest`. -/
def byte_at (name rest : List Nat) (i : Nat) : Nat :=
  (name ++ 0 :: rest).getD i 0

/-- Result type of `check_extension`. -/
inductive exttype_t where
  | EXT_UNKNOWN
  | EXT_IS_X00
  | EXT_IS_TYPE
  deriving DecidableEq, Repr

/-- Function `check_extension` of vfsops.c.  The second component is `*ext`, as
an index into `name` (`none` for NULL). -/
def check_extension (name rest : List Nat) : exttype_t × Option Nat :=
  match strrchr name 46 with
  | some i =>
    let ext := i + 1
    let f := toupper (byte_at name rest ext)
    let s := toupper (byte_at name rest (ext + 1))
    let t := toupper (byte_at name rest (ext + 2))
    if (f = 80 ∨ f = 83 ∨ f = 85 ∨ f = 82) ∧ isdigit s = true ∧ isdigit t = true then
      (exttype_t.EXT_IS_X00, some ext)
    else if (f = 80 ∧ s = 82 ∧ t = 71) ∨ (f = 83 ∧ s = 69 ∧ t = 81) ∨
        (f = 82 ∧ s = 69 ∧ t = 76) ∨ (f = 85 ∧ s = 83 ∧ t = 82) then
      (exttype_t.EXT_IS_TYPE, some ext)
    else (exttype_t.EXT_UNKNOWN, some ext)
  | none => (exttype_t.EXT_UNKNOWN, none)

/-- Reference, in the words of the specification: the text `e` is exactly one
of the letters P, S, U, R (either case) followed by two decimal digits. -/
def is_x00_text (e : List Nat) : Bool :=
  match e with
  | [l, a, b] => decide (toupper l ∈ [80, 83, 85, 82]) && isdigit a && isdigit b
  | _ => false

/-- Reference, in the words of the specification: the text `e` is, ignoring
case, exactly PRG, SEQ, REL or USR. -/
def is_type_text (e : List Nat) : Bool :=
  decide (e.map toupper ∈ [[80, 82, 71], [83, 69, 81], [82, 69, 76], [85, 83, 82]])

/-- Reference classification of an extension text, in the words of the
specification. -/
def classify_extension (e : List Nat) : exttype_t :=
  if is_x00_text e then exttype_t.EXT_IS_X00
  else if is_type_text e then exttype_t.EXT_IS_TYPE
  else exttype_t.EXT_UNKNOWN



/-! ### vfsops.c: directory label

The memory at `label` is a list of bytes: the first `CBM_NAME_LENGTH` are the
label buffer of the caller, the following ones are whatever lies behind it. -/

/-- Length of a CBM file name (`CBM_NAME_LENGTH`, "16 characters" in the
comments of `vfs_getdirlabel` and `vfs_getvolumename`). -/
def CBM_NAME_LENGTH : Nat := 16

/-- C library `memset` on the first `n` bytes of `mem`. -/
def memset (mem : List Nat) (c n : Nat) : List Nat :=
  List.replicate n c ++ mem.drop n

/-- C library `memcpy` of the bytes `src` to the start of `mem`. -/
def memcpy (mem src : List Nat) : List Nat :=
  src ++ mem.drop src.length

/-- In-place conversion `asc2pet` of the zero-terminated string at `mem`: each
character before the first zero byte is replaced by its image under the
character table `conv`, which is a parameter. -/
def asc2pet (conv : Nat → Nat) (mem : List Nat) : List Nat :=
  (mem.takeWhile (fun c => decide (c ≠ 0))).map conv ++ mem.dropWhile (fun c => decide (c ≠ 0))

/-- Function `vfs_getvolumename` of vfsops.c; `base_path` is the string
`partition[part].base_path`. -/
def vfs_getvolumename (conv : Nat → Nat) (base_path label : List Nat) : Nat × List Nat :=
  let name := base_path.drop 1
  let label := memset label 32 (CBM_NAME_LENGTH + 1)
  let label := memcpy label name
  (0, asc2pet conv label)

/-- Function `vfs_getdirlabel` of vfsops.c; `pathname` is the string
`path->dir.pathname`.  The result is the return value and the memory at
`label` afterwards. -/
def vfs_getdirlabel (conv : Nat → Nat) (pathname base_path label : List Nat) :
    Nat × List Nat :=
  let label := memset label 32 CBM_NAME_LENGTH
  if pathname.head? ≠ none then
    let name :=
      match strrchr pathname 47 with
      | some i => pathname.drop i
      | none => pathname
    let label := memcpy label name
    (0, asc2pet conv label)
  else vfs_getvolumename conv base_path label

/-- Reference, in the words of the specification: the last component of
`pathname`, without any '/'. -/
def last_component (pathname : List Nat) : List Nat :=
  match strrchr pathname 47 with
  | some i => pathname.drop (i + 1)
  | none => pathname

/-- Reference, in the words of the specification: the directory name converted
and right-padded with spaces in the first 16 bytes, the rest of the memory
untouched. -/
def dirlabel_reference (conv : Nat → Nat) (pathname label : List Nat) : List Nat :=
  (((last_component pathname).map conv ++ List.replicate CBM_NAME_LENGTH 32).take CBM_NAME_LENGTH)
    ++ label.drop CBM_NAME_LENGTH


/-! ### vfsops.c: building the name of a new file -/

/-- The file-type table and constants of the headers that `build_name` uses:
the string `filetypes` of type names, `TYPE_LENGTH`, `EXT_TYPE_MASK` and
`TYPE_PRG`. -/
structure TypeTable where
  filetypes : List Nat
  TYPE_LENGTH : Nat
  EXT_TYPE_MASK : Nat
  TYPE_PRG : Nat

/-- A table for examples: the eight names `DELSEQPRGUSRRELCBMDIR???`. -/
def sampleTypes : TypeTable :=
  { filetypes := [68, 69, 76, 83, 69, 81, 80, 82, 71, 85, 83, 82, 82, 69, 76, 67, 66, 77,
      68, 73, 82, 63, 63, 63]
    TYPE_LENGTH := 3
    EXT_TYPE_MASK := 15
    TYPE_PRG := 2 }

/-- Function `should_save_raw` of vfsops.c; `image_known name` stands for
`check_imageext(name) != IMG_UNKNOWN`. -/
def should_save_raw (image_known : List Nat → Bool) (name : List Nat) : Bool :=
  if image_known name = true then true
  else
    match strrchr name 46 with
    | none => false
    | some i =>
      let ext := name.drop (i + 1)
      let ext := if ext.head? = some 116 ∨ ext.head? = some 84 then ext.drop 1 else ext
      if ext.length ≠ 3 then false
      else decide (ext.map toupper = [67, 82, 84])

/-- Function `is_valid_vfs_char` of vfsops.c. -/
def is_valid_vfs_char (c : Nat) : Bool :=
  isalnum c || decide (c = 33) || decide (c = 32) || decide (35 ≤ c ∧ c ≤ 41) ||
    decide (c = 45) || decide (c = 46)

/-- The character loop of `is_valid_vfs_name`: `none` when it returns false
inside the loop, otherwise the final value of the 8-bit counter `dots`. -/
def is_valid_vfs_name_loop : List Nat → Nat → Option Nat
  | [], dots => some dots
  | c :: cs, dots =>
    let dots := if c = 46 then (dots + 1) % 256 else dots
    if is_valid_vfs_char c = true then is_valid_vfs_name_loop cs dots else none

/-- Function `is_valid_vfs_name` of vfsops.c.  For the empty string the code
reads the byte before the string; it is taken as 0 here. -/
def is_valid_vfs_name (name : List Nat) : Bool :=
  match is_valid_vfs_name_loop name 0 with
  | none => false
  | some dots =>
    if dots > 1 then false
    else if name.getLastD 0 = 32 then false
    else if name.getLastD 0 = 46 then false
    else true

/-- The replacement loop of `build_name`: every character that is not valid
becomes '_'. -/
def build_name_replace : List Nat → List Nat
  | [] => []
  | c :: cs => (if is_valid_vfs_char c = true then c else 95) :: build_name_replace cs

/-- Function `build_name` of vfsops.c (`CONFIG_M2I` is not defined).  `pet2asc`
is the in-place conversion as a function on strings, `rest` the bytes behind
the terminating zero of the converted name.  The result is the string at
`name` afterwards and the returned pointer as an index into it (`none` for
NULL). -/
def build_name (T : TypeTable) (pet2asc : List Nat → List Nat)
    (image_known : List Nat → Bool) (file_extension_mode : Nat)
    (name rest : List Nat) (type : Nat) : List Nat × Option Nat :=
  let name := pet2asc name
  if type = T.TYPE_PRG ∧ should_save_raw image_known name = true then (name, none)
  else if (file_extension_mode = 1 ∧ type ≠ T.TYPE_PRG) ∨ file_extension_mode = 2 ∨
      is_valid_vfs_name name = false then
    let body := build_name_replace name
    (body ++ [46, T.filetypes.getD (3 * type) 0, 48, 48], some (body.length + 3))
  else if (file_extension_mode = 3 ∧ type ≠ T.TYPE_PRG) ∨ file_extension_mode = 4 then
    (name ++ 46 :: (List.range 3).map (fun k =>
      if k < T.TYPE_LENGTH then
        T.filetypes.getD (T.TYPE_LENGTH * (type &&& T.EXT_TYPE_MASK) + k) 0
      else rest.getD k 0), none)
  else (name, none)

/-- Reference, in the words of the specification: a valid VFS name has only
valid characters, at most one '.', and does not end in ' ' or '.'. -/
def valid_vfs_name_reference (n : List Nat) : Bool :=
  n.all is_valid_vfs_char && decide (n.count 46 ≤ 1) &&
    decide (n.getLast? ≠ some 32) && decide (n.getLast? ≠ some 46)

/-- Reference, in the words of the specification: the three-letter name of a
type. -/
def type_name (T : TypeTable) (type : Nat) : List Nat :=
  (T.filetypes.drop (3 * type)).take 3

/-- Reference for `build_name`, in the words of the specification, on the name
`n` after `pet2asc`. -/
def build_name_reference (T : TypeTable) (image_known : List Nat → Bool)
    (file_extension_mode : Nat) (n : List Nat) (type : Nat) : List Nat × Option Nat :=
  if type = T.TYPE_PRG ∧ should_save_raw image_known n = true then (n, none)
  else if (file_extension_mode = 1 ∧ type ≠ T.TYPE_PRG) ∨ file_extension_mode = 2 ∨
      valid_vfs_name_reference n = false then
    let r := n.map (fun c => if is_valid_vfs_char c = true then c else 95)
      ++ 46 :: (type_name T type).take 1 ++ [48, 48]
    (r, some (r.length - 1))
  else if (file_extension_mode = 3 ∧ type ≠ T.TYPE_PRG) ∨ file_extension_mode = 4 then
    (n ++ 46 :: type_name T type, none)
  else (n, none)




/-! ## esp32/system.c: the pin interrupt flag -/

/-- What the pin interrupt shares with the system task: `interrupt_happens`, a `char`
kept as its 8-bit pattern, and the notification value of the system task (32 bits). -/
structure IntrState where
  interrupt_happens : Nat
  notification : Nat
  deriving DecidableEq, Repr

/-- Function `system_pin_intr_handler` of system.c: `interrupt_happens++` on the 8-bit
variable, then `vTaskNotifyGiveIndexedFromISR`, which increments the notification value. -/
def system_pin_intr_handler (s : IntrState) : IntrState :=
  { interrupt_happens := (s.interrupt_happens + 1) % 256
    notification := (s.notification + 1) % 4294967296 }

/-- The state after `n` invocations of `system_pin_intr_handler` with no `system_sleep`
in between. -/
def after_interrupts : Nat → IntrState → IntrState
  | 0, s => s
  | n + 1, s => after_interrupts n (system_pin_intr_handler s)

/-- The state that `system_sleep` leaves when it has consumed the notification:
`interrupt_happens = 0`. -/
def sleptState : IntrState :=
  { interrupt_happens := 0, notification := 0 }

/-! ### vfsops.c: writing behind the end of a file -/

/-- What a call of `vfs_file_write` leaves: its return value, `buf->fptr`, and the
contents of the file `name`; `none` when the call has not returned within `fuel` rounds
of the fill loop. -/
def write_view (E : Errno) (fuel : Nat) (buf : Buffer) (w : World) (name : List Nat) :
    Option (Nat × Nat × Option (List Nat)) :=
  (vfs_file_write E fuel buf w).map (fun r => (r.1, r.2.1.fptr, r.2.2.files name))

/-- A REL buffer (record length 2, one header byte) holding the record "CD" for payload
offset 6. -/
def relGapBuffer : Buffer :=
  { freshBuffer with
    fd := 3, recordlen := 2, headersize := 1, fptr := 6, position := 4, dirty := true,
    write := true, refill := .vfs_file_write,
    data := fun i => if i = 2 then 67 else if i = 3 then 68 else 0 }

/-- A world with the REL file `[70]`: the header byte 2 and the record "AB", open on
descriptor 3; every call succeeds. -/
def relGapWorld : World :=
  { files := fun n => if n = [70] then some [2, 65, 66] else none
    fds := fun d => if d = 3 then
        some { name := [70], offset := 3, readable := true, writable := true }
      else none
    nextfd := 4, script := [], errno := 0, error := none }

/-- Reference, in the words of the specification: the `i` fill bytes, for a REL file in
blocks of `recordlen` bytes that begin with 0xFF, all zero otherwise. -/
def fill_bytes_reference (recordlen i : Nat) : List Nat :=
  if recordlen ≠ 0 then
    (List.replicate (i / recordlen) (255 :: List.replicate (recordlen - 1) 0)).flatten
  else List.replicate i 0

/-- A sequential buffer holding the byte "A" for payload offset 5. -/
def gapBuffer : Buffer :=
  { freshBuffer with
    fd := 3, fptr := 5, position := 3, dirty := true, write := true,
    refill := .vfs_file_write, data := fun i => if i = 2 then 65 else 0 }

/-- A world with the 3-byte file `[70]` open on descriptor 3, in which the fifth system
call (the `lseek` back to the old end of file) fails with errno 5 and every other call
succeeds. -/
def lseekFailsWorld : World :=
  { files := fun n => if n = [70] then some [1, 2, 3] else none
    fds := fun d => if d = 3 then
        some { name := [70], offset := 3, readable := true, writable := true }
      else none
    nextfd := 4, script := [.ok, .ok, .ok, .ok, .fail 5], errno := 0, error := none }




/-! ### vfsops.c: the x00 retry of create_file -/

/-- The statements of `create_file` after the retry loop, for the descriptor `fd`, the
name `realname` and the world the loop ended with; `x00` tells whether `x00ext` is not
NULL. -/
def create_file_opened (E : Errno) (w : World) (fd : Int) (realname : List Nat) (x00 : Bool)
    (cbmname : List Nat) (buf : Buffer) (recordlen : Nat) : Int × Buffer × World × List Nat :=
  if fd < 0 then (fd, buf, w, realname)
  else
    let buf := { buf with fd := fd }
    if x00 || recordlen ≠ 0 then
      let header : List Nat := if x00 then p00_header cbmname recordlen else [recordlen]
      let buf := if x00 then { buf with headersize := P00_HEADER_SIZE }
        else { buf with headersize := 1 }
      match sys_write E w buf.fd header with
      | (byteswritten, w) =>
        if byteswritten ≠ (buf.headersize : Int) then
          (-1, { buf with fd := -1 }, (sys_close E w buf.fd).2, realname)
        else (fd, buf, w, realname)
    else (fd, buf, w, realname)

/-- Reference, in the words of the specification: the name with extension number `k`,
two decimal digits after `pre`. -/
def x00_name (pre : List Nat) (k : Nat) : List Nat :=
  pre ++ [48 + k / 10, 48 + k % 10]

/-- Reference, in the words of the specification: the names with the extension numbers
00, 01, ..., 99 in increasing order. -/
def x00_names (pre : List Nat) : List (List Nat) :=
  (List.range 100).map (x00_name pre)

/-- Reference, in the words of the specification: try the exclusive-create open on the
names in order and stop at the first one that succeeds.  The result is the last value
`open` returned (`last` when there was no name to try), the name that succeeded, and the
world. -/
def open_in_order (E : Errno) : List (List Nat) → Int → World → Int × Option (List Nat) × World
  | [], last, w => (last, none, w)
  | n :: ns, _, w =>
    match vfs_open E w n O_CREAT_EXCL_RDWR with
    | (fd, w) => if fd < 0 then open_in_order E ns fd w else (fd, some n, w)

/-- A world in which the files "A.P00" and "A.P01" exist. -/
def twoTakenWorld : World :=
  { files := fun n => if n = [65, 46, 80, 48, 48] then some [1]
      else if n = [65, 46, 80, 48, 49] then some [2] else none
    fds := fun _ => none, nextfd := 3, script := [], errno := 0, error := none }

/-- The return value of `create_file`, the final name and the descriptor in the buffer. -/
def create_file_view (E : Errno) (fuel : Nat) (w : World) (realname : List Nat)
    (x00ext : Option Nat) (cbmname : List Nat) (buf : Buffer) (recordlen : Nat) :
    Option (Int × List Nat × Int) :=
  (create_file E fuel w realname x00ext cbmname buf recordlen).map
    (fun r => (r.1, r.2.2.2, r.2.1.fd))




/-- A world in which every five-character name beginning with "A.P" exists. -/
def allTakenWorld : World :=
  { files := fun n => if n.take 3 = [65, 46, 80] ∧ n.length = 5 then some [] else none
    fds := fun _ => none, nextfd := 3, script := [], errno := 0, error := none }



/-! ## Theorems -/

set_option maxRecDepth 20000

/-- Signed 32-bit arithmetic behind the timeout test: the deadline is `k` ticks after `ci`,
the counter has advanced by `di`. -/
theorem timeout_arith (ci ki di : Int) (hk0 : 0 ≤ ki) (hd0 : 0 ≤ di)
    (hk : ki < 2147483648) (hd : di < 2147483648) :
    toInt32 (toInt32 ((toInt32 (ci % 4294967296) + ki) % 4294967296)
      - toInt32 ((ci + di) % 4294967296 % 4294967296)) < 0 ↔ di > ki := by
  unfold toInt32
  omega

/-! ### Helper lemmas for the stored configuration -/

theorem foldl_add_mod (f : Nat → Nat) (l : List Nat) (a : Nat) :
    l.foldl (fun c i => (c + f i) % 256) a % 256 = (a + (l.map f).sum) % 256 := by
  induction l generalizing a with
  | nil => simp
  | cons x xs ih =>
    simp only [List.foldl_cons, List.map_cons, List.sum_cons]
    rw [ih]
    omega

theorem config_checksum_eq (env : NvsEnv) (p : List Nat) :
    config_checksum env p
      = ((List.range' 2 (sizeof_storedconfig env - 2)).map (fun i => p.getD i 0)).sum % 256 := by
  unfold config_checksum
  have h := foldl_add_mod (fun i => p.getD i 0) (List.range' 2 (sizeof_storedconfig env - 2)) 0
  simp only [Nat.zero_add] at h
  rw [← h]
  generalize List.range' 2 (sizeof_storedconfig env - 2) = l
  cases l using List.reverseRecOn with
  | nil => rfl
  | append_singleton xs x _ => simp [List.foldl_append]

theorem config_checksum_lt (env : NvsEnv) (p : List Nat) : config_checksum env p < 256 := by
  rw [config_checksum_eq]; exact Nat.mod_lt _ (by norm_num)

theorem StoredConfig.bytes_length (env : NvsEnv) (c : StoredConfig)
    (h : c.romname.length = env.ROM_NAME_LENGTH) :
    c.bytes.length = sizeof_storedconfig env := by
  simp [StoredConfig.bytes, sizeof_storedconfig, h]; omega

theorem StoredConfig.ofBytes_bytes (c : StoredConfig) (h1 : c.structsize < 65536)
    (h2 : c.drvconfig0 < 65536) (h3 : c.drvconfig1 < 65536) :
    StoredConfig.ofBytes c.bytes = c := by
  cases c
  simp only [StoredConfig.bytes, StoredConfig.ofBytes, List.cons_append, List.nil_append,
    List.getD_cons_zero, List.getD_cons_succ, List.drop_succ_cons, List.drop_zero,
    StoredConfig.mk.injEq, and_true, true_and]
  simp only [] at h1 h2 h3
  omega

theorem exists_cons_of_le_length (l : List Nat) (n : Nat) (h : n + 1 ≤ l.length) :
    ∃ x xs, l = x :: xs ∧ n ≤ xs.length := by
  cases l with
  | nil => simp at h
  | cons x xs => exact ⟨x, xs, rfl, by simpa using h⟩

theorem StoredConfig.bytes_ofBytes (b : List Nat) (hlen : 14 ≤ b.length)
    (hb : ∀ x ∈ b, x < 256) : (StoredConfig.ofBytes b).bytes = b := by
  obtain ⟨b0, t0, rfl, l0⟩ := exists_cons_of_le_length b 13 hlen
  obtain ⟨b1, t1, rfl, l1⟩ := exists_cons_of_le_length t0 12 l0
  obtain ⟨b2, t2, rfl, l2⟩ := exists_cons_of_le_length t1 11 l1
  obtain ⟨b3, t3, rfl, l3⟩ := exists_cons_of_le_length t2 10 l2
  obtain ⟨b4, t4, rfl, l4⟩ := exists_cons_of_le_length t3 9 l3
  obtain ⟨b5, t5, rfl, l5⟩ := exists_cons_of_le_length t4 8 l4
  obtain ⟨b6, t6, rfl, l6⟩ := exists_cons_of_le_length t5 7 l5
  obtain ⟨b7, t7, rfl, l7⟩ := exists_cons_of_le_length t6 6 l6
  obtain ⟨b8, t8, rfl, l8⟩ := exists_cons_of_le_length t7 5 l7
  obtain ⟨b9, t9, rfl, l9⟩ := exists_cons_of_le_length t8 4 l8
  obtain ⟨b10, t10, rfl, l10⟩ := exists_cons_of_le_length t9 3 l9
  obtain ⟨b11, t11, rfl, l11⟩ := exists_cons_of_le_length t10 2 l10
  obtain ⟨b12, t12, rfl, l12⟩ := exists_cons_of_le_length t11 1 l11
  obtain ⟨b13, t13, rfl, l13⟩ := exists_cons_of_le_length t12 0 l12
  simp only [List.mem_cons, forall_eq_or_imp] at hb
  obtain ⟨h0, h1, h2, h3, h4, h5, h6, h7, h8, h9, h10, h11, h12, h13, -⟩ := hb
  simp only [StoredConfig.bytes, StoredConfig.ofBytes, List.cons_append, List.nil_append,
    List.getD_cons_zero, List.getD_cons_succ, List.drop_succ_cons, List.drop_zero,
    List.cons.injEq, and_true, true_and]
  omega

theorem map_getD_range' (b : List Nat) (k n : Nat) (h : k + n = b.length) :
    (List.range' k n).map (fun i => b.getD i 0) = b.drop k := by
  induction n generalizing k with
  | zero => simp at h; simp [h]
  | succ n ih =>
    have hk : k < b.length := by omega
    rw [List.range'_succ, List.map_cons, ih (k + 1) (by omega), List.drop_eq_getElem_cons hk]
    simp [List.getD_eq_getElem?_getD, List.getElem?_eq_getElem hk]

theorem config_checksum_eq_sum (env : NvsEnv) (b : List Nat)
    (hlen : b.length = sizeof_storedconfig env) :
    config_checksum env b = (b.drop 2).sum % 256 := by
  rw [config_checksum_eq, map_getD_range' b 2 _ (by unfold sizeof_storedconfig at *; omega)]

theorem read_config_block_full (b dest : List Nat) (h : b.length = dest.length) :
    read_config_block { blob := some b, opens := true } dest = b := by
  simp [read_config_block, h]

theorem sum_set (l : List Nat) (j v : Nat) (h : j < l.length) :
    (l.set j v).sum + l.getD j 0 = l.sum + v := by
  induction l generalizing j with
  | nil => simp at h
  | cons x xs ih =>
    cases j with
    | zero => simp; omega
    | succ j =>
      have := ih j (by simpa using h)
      simp only [List.set_cons_succ, List.sum_cons, List.getD_cons_succ]
      omega

theorem getD_set (l : List Nat) (i j v : Nat) :
    (l.set i v).getD j 0 = if i = j ∧ i < l.length then v else l.getD j 0 := by
  simp only [List.getD_eq_getElem?_getD, List.getElem?_set]
  by_cases hij : i = j
  · subst hij
    by_cases hl : i < l.length
    · simp [hl]
    · simp [hl, List.getElem?_eq_none (Nat.le_of_not_lt hl)]
  · simp [hij]

theorem config_checksum_of_drop_eq (env : NvsEnv) (p q : List Nat) (h : p.drop 2 = q.drop 2) :
    config_checksum env p = config_checksum env q := by
  rw [config_checksum_eq, config_checksum_eq]
  congr 2
  apply List.map_congr_left
  intro i hi
  have hi2 : 2 ≤ i := (List.mem_range'_1.mp hi).1
  have e : ∀ l : List Nat, l.getD i 0 = (l.drop 2).getD (i - 2) 0 := by
    intro l
    simp only [List.getD_eq_getElem?_getD, List.getElem?_drop]
    congr 2; omega
  rw [e p, e q, h]

theorem strncpy_length (src : List Nat) (n : Nat) : (strncpy src n).length = n := by
  simp only [strncpy, List.length_append, List.length_replicate, List.length_take]
  omega

theorem strncpy_lt (src : List Nat) (n : Nat) (h : ∀ x ∈ src, x < 256) :
    ∀ x ∈ strncpy src n, x < 256 := by
  intro x hx
  simp only [strncpy, List.mem_append, List.mem_replicate] at hx
  rcases hx with hx | ⟨-, rfl⟩
  · exact h x (List.takeWhile_subset _ (List.mem_of_mem_take hx))
  · norm_num

theorem StoredConfig.bytes_lt (env : NvsEnv) (c : StoredConfig) (h : c.wf env) :
    ∀ x ∈ c.bytes, x < 256 := by
  obtain ⟨h0, h1, h2, h3, h4, h5, h6, h7, h8, h9, h10, -, h12⟩ := h
  intro x hx
  simp only [StoredConfig.bytes, List.mem_append, List.mem_cons, List.mem_singleton,
    List.not_mem_nil, or_false] at hx
  rcases hx with (rfl | rfl | rfl | rfl | rfl | rfl | rfl | rfl | rfl | rfl | rfl | rfl | rfl | rfl) | hx
  all_goals first | assumption | omega | exact h12 x hx

theorem build_storedconfig_wf (env : NvsEnv) (s : Config)
    (hwf : s.storedconfig.wf env) (hrom : ∀ x ∈ s.rom_filename, x < 256) :
    (build_storedconfig env s).wf env := by
  obtain ⟨h0, h1, h2, h3, h4, h5, h6, h7, h8, h9, h10, h11, h12⟩ := hwf
  unfold build_storedconfig
  cases hm : env.NEED_DISKMUX <;>
  · simp only [StoredConfig.wf, hm, if_true, if_false, Bool.false_eq_true]
    refine ⟨h0, config_checksum_lt _ _, ?_, h3, ?_, ?_, ?_, ?_, ?_, ?_, ?_,
      strncpy_length _ _, strncpy_lt _ _ hrom⟩ <;>
      first | assumption | exact Nat.mod_lt _ (by norm_num)

theorem build_storedconfig_checksum (env : NvsEnv) (s : Config) :
    (build_storedconfig env s).checksum
      = config_checksum env (build_storedconfig env s).bytes := by
  unfold build_storedconfig
  simp only []
  apply config_checksum_of_drop_eq
  simp [StoredConfig.bytes]

theorem build_storedconfig_structsize (env : NvsEnv) (s : Config)
    (hR : sizeof_storedconfig env < 65536) :
    (build_storedconfig env s).structsize = sizeof_storedconfig env := by
  unfold build_storedconfig
  cases hm : env.NEED_DISKMUX <;> simp [Nat.mod_eq_of_lt hR]

theorem read_configuration_of_bad (env : NvsEnv) (s : Config) (b : List Nat)
    (hs : s.storedconfig.romname.length = env.ROM_NAME_LENGTH)
    (hlen : b.length = sizeof_storedconfig env) (hb : ∀ x ∈ b, x < 256)
    (hbad : b.getD 2 0 + 256 * b.getD 3 0 ≠ sizeof_storedconfig env
      ∨ b.getD 1 0 ≠ (b.drop 2).sum % 256) :
    read_configuration env { blob := some b, opens := true } s
      = some (rejected_result env s b) := by
  have h14 : 14 ≤ b.length := by rw [hlen]; unfold sizeof_storedconfig; omega
  have hblk : read_config_block { blob := some b, opens := true } s.storedconfig.bytes = b :=
    read_config_block_full b _ (by rw [hlen, StoredConfig.bytes_length env _ hs])
  have hbytes := StoredConfig.bytes_ofBytes b h14 hb
  have hck := config_checksum_eq_sum env b hlen
  unfold read_configuration rejected_result
  simp only [set_defaults, hblk, hbytes, hck]
  rcases hbad with h | h
  · have h1 : (StoredConfig.ofBytes b).structsize ≠ sizeof_storedconfig env := h
    rw [if_pos h1]
  · have h1 : (StoredConfig.ofBytes b).checksum ≠ (b.drop 2).sum % 256 := h
    by_cases h0 : (StoredConfig.ofBytes b).structsize ≠ sizeof_storedconfig env
    · rw [if_pos h0]
    · rw [if_neg h0, if_pos h1]


theorem config_accepted_ofBytes (env : NvsEnv) (b : List Nat)
    (hlen : b.length = sizeof_storedconfig env) (hb : ∀ x ∈ b, x < 256) :
    config_accepted env (StoredConfig.ofBytes b)
      = (decide (b.getD 2 0 + 256 * b.getD 3 0 = sizeof_storedconfig env)
          && decide (b.getD 1 0 = (b.drop 2).sum % 256)) := by
  have h14 : 14 ≤ b.length := by rw [hlen]; unfold sizeof_storedconfig; omega
  unfold config_accepted
  rw [StoredConfig.bytes_ofBytes b h14 hb, config_checksum_eq_sum env b hlen]
  simp only [StoredConfig.ofBytes]
  rw [Bool.eq_iff_iff]
  simp only [Bool.and_eq_true, beq_iff_eq, decide_eq_true_eq]

theorem write_configuration_blob (env : NvsEnv) (nvs : NvsStore) (s : Config)
    (ho : nvs.opens = true) :
    (write_configuration env nvs s).2.blob = some (build_storedconfig env s).bytes := by
  simp [write_configuration, write_config_block, ho]

/-- The blob that `write_configuration` stores: length, byte range, structsize field and
checksum byte. -/
theorem written_blob_facts (env : NvsEnv) (s : Config)
    (hR : sizeof_storedconfig env < 65536)
    (hwf : s.storedconfig.wf env) (hrom : ∀ x ∈ s.rom_filename, x < 256) :
    (build_storedconfig env s).bytes.length = sizeof_storedconfig env ∧
    (∀ x ∈ (build_storedconfig env s).bytes, x < 256) ∧
    (build_storedconfig env s).bytes.getD 2 0 + 256 * (build_storedconfig env s).bytes.getD 3 0
      = sizeof_storedconfig env ∧
    (build_storedconfig env s).bytes.getD 1 0
      = ((build_storedconfig env s).bytes.drop 2).sum % 256 := by
  have w := build_storedconfig_wf env s hwf hrom
  have hl := StoredConfig.bytes_length env _ w.2.2.2.2.2.2.2.2.2.2.2.1
  refine ⟨hl, StoredConfig.bytes_lt env _ w, ?_, ?_⟩
  · have h := build_storedconfig_structsize env s hR
    have e : (build_storedconfig env s).bytes.getD 2 0
        + 256 * (build_storedconfig env s).bytes.getD 3 0
        = (build_storedconfig env s).structsize % 256
          + 256 * ((build_storedconfig env s).structsize / 256) := by
      simp [StoredConfig.bytes]
    rw [e, h]; omega
  · have h := build_storedconfig_checksum env s
    rw [config_checksum_eq_sum env _ hl] at h
    rw [← h]
    simp [StoredConfig.bytes]

theorem testBit_of_lt_256 (x i : Nat) (h : x < 256) (hi : 8 ≤ i) : x.testBit i = false := by
  apply Nat.testBit_lt_two_pow
  calc x < 2 ^ 8 := h
    _ ≤ 2 ^ i := Nat.pow_le_pow_right (by norm_num) hi

theorem flags_merge (g g2 P E : Nat) (hg2 : g2 < 256) (hP : P < 256) (hE : E < 256) :
    ((((g2 ||| P) % 256) &&& (255 ^^^ ((P ||| E) % 256))) ||| ((g &&& (P ||| E)) % 256)) % 256 &&& (P ||| E)
      = g &&& (P ||| E) ∧
    ((((g2 ||| P) % 256) &&& (255 ^^^ ((P ||| E) % 256))) ||| ((g &&& (P ||| E)) % 256)) % 256
        &&& (255 ^^^ (P ||| E))
      = g2 &&& (255 ^^^ (P ||| E)) := by
  have e255 : (255 : Nat) = 2 ^ 8 - 1 := by norm_num
  have e256 : (256 : Nat) = 2 ^ 8 := by norm_num
  constructor <;>
  · apply Nat.eq_of_testBit_eq
    intro i
    rw [e255, e256]
    simp only [Nat.testBit_and, Nat.testBit_or, Nat.testBit_xor, Nat.testBit_mod_two_pow,
      Nat.testBit_two_pow_sub_one]
    by_cases hi : i < 8
    · simp [hi]
      cases g.testBit i <;> cases g2.testBit i <;> cases P.testBit i <;> cases E.testBit i <;> rfl
    · have h1 := testBit_of_lt_256 g2 i hg2 (by omega)
      have h2 := testBit_of_lt_256 P i hP (by omega)
      have h3 := testBit_of_lt_256 E i hE (by omega)
      simp [hi, h1, h2, h3]

theorem takeWhile_ne_zero_append_replicate (n : List Nat) (k : Nat) (hn : ∀ x ∈ n, x ≠ 0) :
    (n ++ List.replicate k 0).takeWhile (· ≠ 0) = n := by
  induction n with
  | nil => cases k <;> simp [List.replicate_succ]
  | cons x xs ih =>
    have hx : x ≠ 0 := hn x (List.mem_cons_self _ _)
    simp only [List.cons_append]
    rw [List.takeWhile_cons_of_pos (by simpa using hx),
      ih (fun y hy => hn y (List.mem_cons_of_mem _ hy))]

theorem takeWhile_ne_zero_nonzero (l : List Nat) : ∀ x ∈ l.takeWhile (· ≠ 0), x ≠ 0 := by
  intro x hx
  simpa using List.mem_takeWhile_imp hx

theorem strncpy_short (src : List Nat) (n : Nat)
    (h : (src.takeWhile (· ≠ 0)).length < n) :
    strncpy src n = src.takeWhile (· ≠ 0) ++ List.replicate (n - (src.takeWhile (· ≠ 0)).length) 0 := by
  unfold strncpy
  rw [List.take_of_length_le (Nat.le_of_lt h)]

theorem strcpy_padded (nm : List Nat) (k m : Nat) (hn : ∀ x ∈ nm, x ≠ 0) (hk : 0 < k) :
    strcpy (List.replicate m 0) (nm ++ List.replicate k 0)
      = some (nm ++ List.replicate (m - nm.length) 0 ++ List.replicate (if m ≤ nm.length then 1 else 0) 0) := by
  unfold strcpy
  have h0 : 0 ∈ nm ++ List.replicate k 0 := by
    apply List.mem_append_right
    exact List.mem_replicate.mpr ⟨by omega, rfl⟩
  rw [if_pos h0, takeWhile_ne_zero_append_replicate nm k hn]
  simp only [List.drop_replicate, List.append_assoc, Option.some.injEq, List.append_cancel_left_eq]
  by_cases hm : m ≤ nm.length
  · simp [hm, show m - (nm.length + 1) = 0 by omega, show m - nm.length = 0 by omega]
  · simp only [hm, if_false, List.replicate_zero, List.append_nil]
    rw [show m - nm.length = (m - (nm.length + 1)) + 1 by omega, List.replicate_succ]
    rfl

theorem read_configuration_of_good (env : NvsEnv) (nvs : NvsStore) (s2 : Config)
    (sc : StoredConfig) (r0 : List Nat)
    (hblk : StoredConfig.ofBytes (read_config_block nvs s2.storedconfig.bytes) = sc)
    (h1 : sc.structsize = sizeof_storedconfig env)
    (h2 : sc.checksum = config_checksum env sc.bytes)
    (hstr : strcpy (List.replicate (env.ROM_NAME_LENGTH + 1) 0) sc.romname = some r0) :
    ∃ r, read_configuration env nvs s2 = some r ∧
      r.file_extension_mode = sc.fileexts ∧ r.image_as_dir = sc.imagedirs ∧
      r.globalflags = ((((s2.globalflags ||| env.POSTMATCH) % 256)
        &&& (255 ^^^ ((env.POSTMATCH ||| env.EXTENSION_HIDING) % 256))) ||| sc.global_flags) % 256 ∧
      r.rom_filename = r0 ∧ r.storedconfig = sc ∧
      r.device_address
        = (if sc.hardaddress = device_hw_address then sc.hardaddress else s2.device_address) := by
  unfold read_configuration
  simp only [set_defaults, hblk, h1, h2, ne_eq, not_true_eq_false, if_false]
  cases env.NEED_DISKMUX <;> simp only [if_true, if_false, Bool.false_eq_true]
  · split_ifs <;> simp only [hstr] <;> exact ⟨_, rfl, rfl, rfl, rfl, rfl, rfl, by simp [*]⟩
  · split_ifs <;> simp only [hstr] <;> exact ⟨_, rfl, rfl, rfl, rfl, rfl, rfl, by simp [*]⟩

theorem build_storedconfig_fields (env : NvsEnv) (s : Config) :
    (build_storedconfig env s).fileexts = s.file_extension_mode % 256 ∧
    (build_storedconfig env s).imagedirs = s.image_as_dir % 256 ∧
    (build_storedconfig env s).global_flags
      = (s.globalflags &&& (env.POSTMATCH ||| env.EXTENSION_HIDING)) % 256 ∧
    (build_storedconfig env s).romname = strncpy s.rom_filename env.ROM_NAME_LENGTH ∧
    (build_storedconfig env s).hardaddress = device_hw_address ∧
    (build_storedconfig env s).address = s.device_address % 256 := by
  unfold build_storedconfig
  cases env.NEED_DISKMUX <;> simp [device_hw_address]

/-- What `read_configuration` yields on the blob that `write_configuration` stored. -/
theorem read_after_write (env : NvsEnv) (nvs : NvsStore) (s s2 : Config)
    (hR : sizeof_storedconfig env < 65536)
    (hwf : s.storedconfig.wf env) (hrom : ∀ x ∈ s.rom_filename, x < 256)
    (hname : (s.rom_filename.takeWhile (· ≠ 0)).length < env.ROM_NAME_LENGTH)
    (ho : nvs.opens = true)
    (hs2 : s2.storedconfig.romname.length = env.ROM_NAME_LENGTH) :
    ∃ r, read_configuration env (write_configuration env nvs s).2 s2 = some r ∧
      config_accepted env r.storedconfig = true ∧
      r.file_extension_mode = s.file_extension_mode % 256 ∧
      r.image_as_dir = s.image_as_dir % 256 ∧
      r.globalflags = ((((s2.globalflags ||| env.POSTMATCH) % 256)
        &&& (255 ^^^ ((env.POSTMATCH ||| env.EXTENSION_HIDING) % 256)))
        ||| ((s.globalflags &&& (env.POSTMATCH ||| env.EXTENSION_HIDING)) % 256)) % 256 ∧
      r.rom_filename = s.rom_filename.takeWhile (· ≠ 0)
        ++ List.replicate (env.ROM_NAME_LENGTH + 1 - (s.rom_filename.takeWhile (· ≠ 0)).length) 0 ∧
      r.device_address = device_hw_address := by
  have w := build_storedconfig_wf env s hwf hrom
  have hl := StoredConfig.bytes_length env _ w.2.2.2.2.2.2.2.2.2.2.2.1
  obtain ⟨f1, f2, f3, f4, f5, -⟩ := build_storedconfig_fields env s
  have hsz := build_storedconfig_structsize env s hR
  have hck := build_storedconfig_checksum env s
  have hblk : StoredConfig.ofBytes
      (read_config_block (write_configuration env nvs s).2 s2.storedconfig.bytes)
      = build_storedconfig env s := by
    have e : (write_configuration env nvs s).2
        = { blob := some (build_storedconfig env s).bytes, opens := true } := by
      simp [write_configuration, write_config_block, ho]
    rw [e, read_config_block_full _ _ (by rw [hl, StoredConfig.bytes_length env _ hs2])]
    exact StoredConfig.ofBytes_bytes _ w.2.2.1 w.2.2.2.2.2.2.2.2.1 w.2.2.2.2.2.2.2.2.2.1
  have hstr : strcpy (List.replicate (env.ROM_NAME_LENGTH + 1) 0) (build_storedconfig env s).romname
      = some (s.rom_filename.takeWhile (· ≠ 0)
        ++ List.replicate (env.ROM_NAME_LENGTH + 1 - (s.rom_filename.takeWhile (· ≠ 0)).length) 0) := by
    rw [f4, strncpy_short _ _ hname,
      strcpy_padded _ _ _ (takeWhile_ne_zero_nonzero _) (by omega)]
    rw [if_neg (by omega)]
    simp
  obtain ⟨r, hr, g1, g2, g3, g4, g5, g6⟩ :=
    read_configuration_of_good env _ s2 _ _ hblk hsz hck hstr
  refine ⟨r, hr, ?_, by rw [g1, f1], by rw [g2, f2], by rw [g3, f3], g4, ?_⟩
  · rw [g5]
    unfold config_accepted
    rw [hsz, ← hck]
    simp
  · rw [g6, f5, if_pos rfl]

/-! ### Helper lemmas for the file callbacks -/

theorem peek_poke (d : Nat → Nat) (s : Nat) (bytes : List Nat) :
    peek (poke d s bytes) s bytes.length = bytes := by
  apply List.ext_getElem
  · simp [peek]
  · intro i h1 h2
    simp only [peek, poke, List.getElem_map, List.getElem_range]
    rw [if_pos ⟨by omega, by omega⟩]
    simp [List.getD_eq_getElem?_getD, List.getElem?_eq_getElem h2]

theorem poke_outside (d : Nat → Nat) (s : Nat) (bytes : List Nat) (i : Nat)
    (h : i < s ∨ s + bytes.length ≤ i) : poke d s bytes i = d i := by
  unfold poke
  rw [if_neg (by omega)]

theorem sys_read_ready (E : Errno) (w : World) (fd : Int) (c : List Nat) (o len : Nat)
    (hr : ReadyAt w fd c o) :
    ∃ w2, sys_read E w fd len = (((min len (c.length - o) : Nat) : Int), (c.drop o).take len, w2)
      ∧ ReadyAt w2 fd c (o + min len (c.length - o)) := by
  obtain ⟨hs, f, hf, hrd, hoff, hfile⟩ := hr
  have hnext : w.next = (.ok, w) := by simp [World.next, hs]
  have hlen : (List.take len (List.drop o c)).length = min len (c.length - o) := by
    simp [List.length_take, List.length_drop]
  unfold sys_read
  simp only [hnext, hf, hrd, if_true, World.contents, hfile, Option.getD_some, hoff, hlen]
  exact ⟨_, rfl, hs, ⟨f.name, o + min len (c.length - o), true, f.writable⟩, by simp, rfl, rfl,
    hfile⟩

theorem vfs_size_ready (E : Errno) (w : World) (fd : Int) (c : List Nat) (o : Nat)
    (hr : ReadyAt w fd c o) : vfs_size E w fd = ((c.length : Int), w) := by
  obtain ⟨hs, f, hf, hrd, hoff, hfile⟩ := hr
  have hnext : w.next = (.ok, w) := by simp [World.next, hs]
  unfold vfs_size sys_fstat
  simp [hnext, hf, World.contents, hfile]

theorem vfs_tell_ready (E : Errno) (w : World) (fd : Int) (c : List Nat) (o : Nat)
    (hr : ReadyAt w fd c o) :
    ∃ w2, vfs_tell E w fd = ((o : Int), w2) ∧ ReadyAt w2 fd c o := by
  obtain ⟨hs, f, hf, hrd, hoff, hfile⟩ := hr
  have hnext : w.next = (.ok, w) := by simp [World.next, hs]
  unfold vfs_tell sys_lseek
  simp only [hnext, hf, hoff]
  have h0 : ¬ ((o : Int) + 0 < 0) := by omega
  simp only [h0, if_false, Int.add_zero, Int.toNat_ofNat]
  exact ⟨_, rfl, hs, ⟨f.name, o, f.readable, f.writable⟩, by simp, hrd, rfl, hfile⟩

theorem vfs_file_read_seq (E : Errno) (buf : Buffer) (w : World) (c : List Nat) (o : Nat)
    (hr : ReadyAt w buf.fd c o) (hrec : buf.recordlen = 0) (hrest : o < c.length) :
    ∃ buf2 w2, vfs_file_read E buf w = (0, buf2, w2) ∧
      buf2.data = poke buf.data 2 ((c.drop o).take 254) ∧ buf2.position = 2 ∧
      buf2.lastused = min 254 (c.length - o) + 1 ∧
      buf2.sendeoi = (if c.length - o ≤ 254 then 1 else 0) ∧
      buf2.fd = buf.fd ∧ buf2.recordlen = 0 ∧
      ReadyAt w2 buf.fd c (o + min 254 (c.length - o)) := by
  obtain ⟨w1, h1, r1⟩ := sys_read_ready E w buf.fd c o 254 hr
  have hn0 : ¬ ((min 254 (c.length - o) : Nat) : Int) < 0 := by omega
  have hn1 : ¬ ((min 254 (c.length - o) : Nat) : Int) = 0 := by omega
  have hlu : ((((min 254 (c.length - o) : Nat) : Int) + 1) % 256).toNat
      = min 254 (c.length - o) + 1 := by omega
  unfold vfs_file_read
  simp only [hrec, ne_eq, not_true_eq_false, if_false, h1, hn0, hn1, hlu]
  by_cases h254 : ((min 254 (c.length - o) : Nat) : Int) < 254
  · simp only [h254, if_true]
    exact ⟨_, _, rfl, rfl, rfl, rfl, by simp only; rw [if_pos (by omega)], rfl, rfl, r1⟩
  · obtain ⟨w3, h3, r3⟩ := vfs_tell_ready E w1 buf.fd c _ r1
    simp only [h254, if_false, vfs_size_ready E w1 buf.fd c _ r1, h3, or_false]
    by_cases hend : (c.length : Int) - ((o + min 254 (c.length - o) : Nat) : Int) = 0
    · simp only [hend, if_true]
      exact ⟨_, _, rfl, rfl, rfl, rfl, by simp only; rw [if_pos (by omega)], rfl, rfl, r3⟩
    · simp only [hend, if_false]
      exact ⟨_, _, rfl, rfl, rfl, rfl, by simp only; rw [if_neg (by omega)], rfl, rfl, r3⟩

theorem read_blocks_payload (E : Errno) (fuel : Nat) (buf : Buffer) (w : World) (c : List Nat)
    (h : Nat) (hr : ReadyAt w buf.fd c h) (hrec : buf.recordlen = 0) (hL : h < c.length)
    (hfuel : (c.length - h + 253) / 254 ≤ fuel) :
    (read_blocks E fuel buf w).length = (c.length - h + 253) / 254 ∧
    ((read_blocks E fuel buf w).map (fun b => b.bytes)).flatten = c.drop h ∧
    (∀ b ∈ read_blocks E fuel buf w,
      b.position = 2 ∧ b.lastused = b.bytes.length + 1 ∧ b.bytes.length ≤ 254) ∧
    (read_blocks E fuel buf w).map (fun b => b.sendeoi)
      = List.replicate ((c.length - h + 253) / 254 - 1) 0 ++ [1] := by
  induction fuel generalizing buf w h with
  | zero => omega
  | succ fuel ih =>
    obtain ⟨buf2, w2, e, hd, hp, hl, he, hfd, hrec2, r2⟩ := vfs_file_read_seq E buf w c h hr hrec hL
    have hlen : (List.take 254 (List.drop h c)).length = min 254 (c.length - h) := by
      simp [List.length_take, List.length_drop]
    have hb : buf2.block =
        { bytes := (c.drop h).take 254, position := 2,
          lastused := min 254 (c.length - h) + 1, sendeoi := buf2.sendeoi } := by
      unfold Buffer.block
      rw [hd, hp, hl, Nat.add_sub_cancel, ← hlen, peek_poke]
    unfold read_blocks
    simp only [e, ne_eq, not_true_eq_false, if_false]
    by_cases hshort : c.length - h ≤ 254
    · rw [if_pos hshort] at he
      have hc : (c.length - h + 253) / 254 = 1 := by omega
      simp only [he, one_ne_zero, not_false_eq_true, if_true, hb, List.length_singleton,
        List.map_cons, List.map_nil, List.flatten_cons, List.flatten_nil, List.append_nil,
        List.mem_singleton, hc, Nat.sub_self, List.replicate_zero, List.nil_append]
      refine ⟨trivial, ?_, ?_, trivial⟩
      · exact List.take_of_length_le (by rw [List.length_drop]; exact hshort)
      · rintro b rfl
        simp only [hlen]
        exact ⟨trivial, trivial, Nat.min_le_left _ _⟩
    · rw [if_neg hshort] at he
      have hm : min 254 (c.length - h) = 254 := by omega
      rw [hm] at r2
      have hc : (c.length - h + 253) / 254 = (c.length - (h + 254) + 253) / 254 + 1 := by omega
      obtain ⟨i1, i2, i3, i4⟩ := ih buf2 w2 (h + 254) (hfd ▸ r2) hrec2 (by omega) (by omega)
      simp only [he, not_true_eq_false, if_false, List.length_cons, List.map_cons,
        List.flatten_cons, List.mem_cons, i1, i2, i4, hb]
      refine ⟨by omega, ?_, ?_, ?_⟩
      · rw [← List.drop_drop, List.take_append_drop]
      · rintro b (rfl | hb2)
        · simp only [hlen]
          exact ⟨trivial, trivial, Nat.min_le_left _ _⟩
        · exact i3 b hb2
      · rw [hc, Nat.add_sub_cancel]
        have hpos : 1 ≤ (c.length - (h + 254) + 253) / 254 := by omega
        obtain ⟨k, hk⟩ : ∃ k, (c.length - (h + 254) + 253) / 254 = k + 1 := ⟨_, (Nat.sub_add_cancel hpos).symm⟩
        rw [hk, Nat.add_sub_cancel, List.replicate_succ, List.cons_append]

theorem sys_write_ready (E : Errno) (w : World) (fd : Int) (c : List Nat) (o : Nat)
    (bytes : List Nat) (hw : WritableAt w fd c o) :
    ∃ w2, sys_write E w fd bytes = ((bytes.length : Int), w2)
      ∧ WritableAt w2 fd (write_at c o bytes) (o + bytes.length) := by
  obtain ⟨hs, f, hf, hwr, hoff, hfile⟩ := hw
  have hnext : w.next = (.ok, w) := by simp [World.next, hs]
  unfold sys_write
  simp only [hnext, hf, hwr, if_true, World.contents, hfile, Option.getD_some, hoff]
  exact ⟨_, rfl, hs, ⟨f.name, o + bytes.length, f.readable, true⟩, by simp, rfl, rfl, by simp⟩

theorem vfs_size_writable (E : Errno) (w : World) (fd : Int) (c : List Nat) (o : Nat)
    (hw : WritableAt w fd c o) : vfs_size E w fd = ((c.length : Int), w) := by
  obtain ⟨hs, f, hf, hwr, hoff, hfile⟩ := hw
  have hnext : w.next = (.ok, w) := by simp [World.next, hs]
  unfold vfs_size sys_fstat
  simp [hnext, hf, World.contents, hfile]

theorem vfs_tell_writable (E : Errno) (w : World) (fd : Int) (c : List Nat) (o : Nat)
    (hw : WritableAt w fd c o) :
    ∃ w2, vfs_tell E w fd = ((o : Int), w2) ∧ WritableAt w2 fd c o := by
  obtain ⟨hs, f, hf, hwr, hoff, hfile⟩ := hw
  have hnext : w.next = (.ok, w) := by simp [World.next, hs]
  unfold vfs_tell sys_lseek
  simp only [hnext, hf, hoff]
  have h0 : ¬ ((o : Int) + 0 < 0) := by omega
  simp only [h0, if_false, Int.add_zero, Int.toNat_ofNat]
  exact ⟨_, rfl, hs, ⟨f.name, o, f.readable, f.writable⟩, by simp, hwr, rfl, hfile⟩

theorem peek_length (d : Nat → Nat) (s n : Nat) : (peek d s n).length = n := by
  simp [peek]

theorem write_data_seq (E : Errno) (buf : Buffer) (w : World) (c : List Nat) (o k : Nat)
    (hw : WritableAt w buf.fd c o) (hrec : buf.recordlen = 0)
    (hcase : (buf.mustflush = 0 ∧ buf.position = k + 2 ∧ k ≤ 253)
      ∨ (buf.mustflush = 1 ∧ buf.lastused = 255 ∧ k = 254)) :
    ∃ buf2 w2, write_data E buf w = (0, buf2, w2) ∧
      WritableAt w2 buf.fd (write_at c o (peek buf.data 2 k)) (o + k) ∧
      buf2.position = 2 ∧ buf2.lastused = 2 ∧ buf2.mustflush = 0 ∧ buf2.dirty = false ∧
      (buf2.fptr : Int) = (((o + k : Nat) : Int) - (buf.headersize : Int)) % 4294967296 ∧
      buf2.data = buf.data ∧ buf2.fd = buf.fd ∧ buf2.recordlen = 0 ∧
      buf2.headersize = buf.headersize ∧ buf2.refill = buf.refill ∧
      buf2.allocated = buf.allocated ∧ buf2.write = buf.write := by
  obtain ⟨w1, h1, r1⟩ := sys_write_ready E w buf.fd c o (peek buf.data 2 k) hw
  rw [peek_length] at h1 r1
  obtain ⟨w3, h3, r3⟩ := vfs_tell_writable E w1 buf.fd _ _ r1
  have hk0 : ¬ ((k : Int) < 0) := by omega
  unfold write_data
  rcases hcase with ⟨hm, hp, hk⟩ | ⟨hm, hl, hk⟩
  · have hlu : (k + 2 + 255) % 256 = k + 1 := by omega
    have hcnt : u32 (((k + 1 : Nat) : Int) - 1) = k := by unfold u32; omega
    have hcmp : (k : Int) % 4294967296 = (((k + 1 : Nat) : Int) - 1) % 4294967296 := by omega
    have hno : ¬ ((0 : Int) > ((k + 1 : Nat) : Int) - 1) := by omega
    simp only [hm, hp, hrec, if_true, hlu, ne_eq, not_true_eq_false, if_false, hcnt, h1, hk0,
      hcmp, mark_buffer_clean, h3, Nat.cast_zero, hno]
    refine ⟨_, _, rfl, r3, rfl, rfl, rfl, rfl, ?_, rfl, rfl, rfl, rfl, rfl, rfl, rfl⟩
    simp only [u32]
    rw [Int.toNat_of_nonneg (Int.emod_nonneg _ (by norm_num))]
  · subst hk
    have hcnt : u32 (((255 : Nat) : Int) - 1) = 254 := by unfold u32; omega
    have hcmp : ((254 : Nat) : Int) % 4294967296 = (((255 : Nat) : Int) - 1) % 4294967296 := by
      omega
    have hno : ¬ ((0 : Int) > ((255 : Nat) : Int) - 1) := by omega
    simp only [hm, hl, hrec, one_ne_zero, if_false, ne_eq, not_true_eq_false, hcnt, h1, hk0,
      hcmp, mark_buffer_clean, h3, Nat.cast_zero, hno]
    refine ⟨_, _, rfl, r3, rfl, rfl, rfl, rfl, ?_, rfl, rfl, rfl, rfl, rfl, rfl, rfl⟩
    simp only [u32]
    rw [Int.toNat_of_nonneg (Int.emod_nonneg _ (by norm_num))]

theorem WritingTo.writable {w : World} {fd : Int} {name c : List Nat} {o : Nat}
    (h : WritingTo w fd name c o) : WritableAt w fd c o :=
  ⟨h.1, _, h.2.2.1, rfl, rfl, h.2.2.2⟩

theorem sys_write_to (E : Errno) (w : World) (fd : Int) (name c : List Nat) (o : Nat)
    (bytes : List Nat) (hw : WritingTo w fd name c o) :
    ∃ w2, sys_write E w fd bytes = ((bytes.length : Int), w2)
      ∧ WritingTo w2 fd name (write_at c o bytes) (o + bytes.length) := by
  obtain ⟨hs, hn, hf, hfile⟩ := hw
  have hnext : w.next = (.ok, w) := by simp [World.next, hs]
  unfold sys_write
  simp only [hnext, hf, if_true, World.contents, hfile, Option.getD_some]
  exact ⟨_, rfl, hs, hn, by simp, by simp⟩

theorem vfs_tell_to (E : Errno) (w : World) (fd : Int) (name c : List Nat) (o : Nat)
    (hw : WritingTo w fd name c o) :
    ∃ w2, vfs_tell E w fd = ((o : Int), w2) ∧ WritingTo w2 fd name c o := by
  obtain ⟨hs, hn, hf, hfile⟩ := hw
  have hnext : w.next = (.ok, w) := by simp [World.next, hs]
  unfold vfs_tell sys_lseek
  simp only [hnext, hf]
  have h0 : ¬ ((o : Int) + 0 < 0) := by omega
  simp only [h0, if_false, Int.add_zero, Int.toNat_ofNat]
  exact ⟨_, rfl, hs, hn, by simp, hfile⟩

theorem sys_close_to (E : Errno) (w : World) (fd : Int) (name c : List Nat) (o : Nat)
    (hw : WritingTo w fd name c o) :
    ∃ w2, sys_close E w fd = (0, w2) ∧ w2.script = [] ∧ 0 ≤ w2.nextfd ∧
      w2.files name = some c ∧ w2.errno = w.errno := by
  obtain ⟨hs, hn, hf, hfile⟩ := hw
  have hnext : w.next = (.ok, w) := by simp [World.next, hs]
  unfold sys_close
  simp only [hnext, hf]
  exact ⟨_, rfl, hs, hn, hfile, rfl⟩

theorem write_at_end (c bytes : List Nat) : write_at c c.length bytes = c ++ bytes := by
  simp [write_at]

theorem peek_succ (d : Nat → Nat) (s n : Nat) : peek d s (n + 1) = peek d s n ++ [d (s + n)] := by
  simp [peek, List.range_succ]

theorem peek_congr (d1 d2 : Nat → Nat) (s n : Nat) (h : ∀ i, s ≤ i → i < s + n → d1 i = d2 i) :
    peek d1 s n = peek d2 s n := by
  unfold peek
  apply List.map_congr_left
  intro i hi
  exact h _ (by omega) (by have := List.mem_range.mp hi; omega)

/-- `write_data` on a sequential buffer, given that its `write` and the following
`vfs_tell` succeed. -/
theorem write_data_core (E : Errno) (buf : Buffer) (w w1 w3 : World) (k o2 : Nat)
    (hrec : buf.recordlen = 0)
    (hcase : (buf.mustflush = 0 ∧ buf.position = k + 2 ∧ k ≤ 253)
      ∨ (buf.mustflush = 1 ∧ buf.lastused = 255 ∧ k = 254))
    (h1 : sys_write E w buf.fd (peek buf.data 2 k) = ((k : Int), w1))
    (h3 : vfs_tell E w1 buf.fd = ((o2 : Int), w3)) :
    write_data E buf w
      = (0, { buf with dirty := false, mustflush := 0, position := 2, lastused := 2,
                       fptr := u32 ((o2 : Int) - (buf.headersize : Int)) }, w3) := by
  have hk0 : ¬ ((k : Int) < 0) := by omega
  unfold write_data
  rcases hcase with ⟨hm, hp, hk⟩ | ⟨hm, hl, hk⟩
  · have hlu : (k + 2 + 255) % 256 = k + 1 := by omega
    have hcnt : u32 (((k + 1 : Nat) : Int) - 1) = k := by unfold u32; omega
    have hcmp : (k : Int) % 4294967296 = (((k + 1 : Nat) : Int) - 1) % 4294967296 := by omega
    have hno : ¬ ((0 : Int) > ((k + 1 : Nat) : Int) - 1) := by omega
    simp only [hm, hp, hrec, if_true, hlu, ne_eq, not_true_eq_false, if_false, hcnt, h1, hk0,
      hcmp, mark_buffer_clean, h3, Nat.cast_zero, hno]
  · subst hk
    have hcnt : u32 (((255 : Nat) : Int) - 1) = 254 := by unfold u32; omega
    have hcmp : ((254 : Nat) : Int) % 4294967296 = (((255 : Nat) : Int) - 1) % 4294967296 := by
      omega
    have hno : ¬ ((0 : Int) > ((255 : Nat) : Int) - 1) := by omega
    simp only [hm, hl, hrec, one_ne_zero, if_false, ne_eq, not_true_eq_false, hcnt, h1, hk0,
      hcmp, mark_buffer_clean, h3, Nat.cast_zero, hno]

/-- `vfs_file_write` when `fptr` already stands at the end of the payload: it is
`write_data`. -/
theorem vfs_file_write_nogap (E : Errno) (fuel : Nat) (buf buf2 : Buffer) (w w2 : World) (sz : Nat)
    (hsize : vfs_size E w buf.fd = ((sz : Int), w))
    (hfptr : buf.fptr = u32 ((sz : Int) - (buf.headersize : Int)))
    (hwd : write_data E buf w = (0, buf2, w2)) :
    vfs_file_write E fuel buf w = some (0, buf2, w2) := by
  unfold vfs_file_write
  rw [hsize]
  simp only [← hfptr, ne_eq, not_true_eq_false, if_false, lt_self_iff_false, hwd, gt_iff_lt]
  unfold vfs_file_write_gap
  simp

theorem store_byte_inv (E : Errno) (fuel : Nat) (b : Nat) (buf : Buffer) (w : World) (fd : Int)
    (name written pending : List Nat) (h : StoreInv buf w fd name written pending)
    (hsz : written.length + pending.length + 1 < 4294967296) :
    ∃ buf2 w2 written2 pending2, store_byte E fuel b buf w = some (buf2, w2) ∧
      StoreInv buf2 w2 fd name written2 pending2 ∧
      written2 ++ pending2 = written ++ pending ++ [b] := by
  obtain ⟨hw, hfd, hpos, hlen, hpk, hmf, hrec, hhs, hfp, hrf, hwr, hal⟩ := h
  have hdata : peek (poke buf.data buf.position [b]) 2 (pending.length + 1) = pending ++ [b] := by
    have e1 : peek (poke buf.data buf.position [b]) 2 pending.length = pending := by
      refine (peek_congr _ buf.data _ _ (fun i _ h2 => poke_outside _ _ _ _ (Or.inl ?_))).trans hpk
      omega
    have e2 : poke buf.data buf.position [b] (2 + pending.length) = b := by
      have hpp : buf.position = 2 + pending.length := by omega
      simp [poke, hpp]
    rw [peek_succ, e1, e2]
  unfold store_byte
  by_cases hfull : pending.length = 253
  · have hp0 : (buf.position + 1) % 256 = 0 := by omega
    simp only [hp0, if_true]
    have hw' : WritableAt w fd written written.length := hw.writable
    obtain ⟨w1, h1, r1⟩ := sys_write_to E w fd name written written.length
      (peek (poke buf.data buf.position [b]) 2 254) hw
    rw [peek_length] at h1 r1
    obtain ⟨w3, h3, r3⟩ := vfs_tell_to E w1 fd name _ _ r1
    have hd254 : peek (poke buf.data buf.position [b]) 2 254 = pending ++ [b] := by
      rw [← hdata, hfull]
    have hcore := write_data_core E
      { buf with data := poke buf.data buf.position [b], dirty := true, position := 0,
                 mustflush := 1, lastused := 255 } w w1 w3 254 (written.length + 254) hrec
      (Or.inr ⟨rfl, rfl, rfl⟩) (by simpa [hfd] using h1) (by simpa [hfd] using h3)
    have hng := vfs_file_write_nogap E fuel
      { buf with data := poke buf.data buf.position [b], dirty := true, position := 0,
                 mustflush := 1, lastused := 255 } _ w w3 written.length
      (by simpa [hfd] using vfs_size_writable E w fd written written.length hw')
      (by simp only [hfp, hhs, u32]; omega) hcore
    rw [hng]
    simp only [ne_eq, not_true_eq_false, if_false]
    refine ⟨_, _, written ++ pending ++ [b], [], rfl, ?_, by simp⟩
    have hl2 : (written ++ pending ++ [b]).length = written.length + 254 := by
      simp [hfull]
    refine ⟨?_, hfd, rfl, by simp, rfl, rfl, hrec, hhs, ?_, hrf, hwr, hal⟩
    · rw [hl2]
      rw [hd254, write_at_end, ← List.append_assoc] at r3
      exact r3
    · simp only [hhs, u32, List.length_append, List.length_singleton, hfull]
      omega
  · have hp0 : (buf.position + 1) % 256 ≠ 0 := by omega
    simp only [hp0, if_false]
    refine ⟨_, _, written, pending ++ [b], rfl, ?_, by simp⟩
    refine ⟨hw, hfd, ?_, ?_, ?_, hmf, hrec, hhs, hfp, hrf, hwr, hal⟩
    · simp only [List.length_append, List.length_singleton]; omega
    · simp only [List.length_append, List.length_singleton]; omega
    · simp only [List.length_append, List.length_singleton]; exact hdata

theorem store_bytes_inv (E : Errno) (fuel : Nat) (bytes : List Nat) (buf : Buffer) (w : World)
    (fd : Int) (name written pending : List Nat) (h : StoreInv buf w fd name written pending)
    (hsz : written.length + pending.length + bytes.length < 4294967296) :
    ∃ buf2 w2 written2 pending2, store_bytes E fuel bytes buf w = some (buf2, w2) ∧
      StoreInv buf2 w2 fd name written2 pending2 ∧
      written2 ++ pending2 = written ++ pending ++ bytes := by
  induction bytes generalizing buf w written pending with
  | nil => exact ⟨buf, w, written, pending, rfl, h, by simp⟩
  | cons b bs ih =>
    simp only [List.length_cons] at hsz
    obtain ⟨buf1, w1, wr1, pe1, e1, i1, a1⟩ :=
      store_byte_inv E fuel b buf w fd name written pending h (by omega)
    have hl : wr1.length + pe1.length = written.length + pending.length + 1 := by
      have := congrArg List.length a1
      simpa using this
    obtain ⟨buf2, w2, wr2, pe2, e2, i2, a2⟩ := ih buf1 w1 wr1 pe1 i1 (by omega)
    refine ⟨buf2, w2, wr2, pe2, ?_, i2, ?_⟩
    · unfold store_bytes
      rw [e1]
      exact e2
    · rw [a2, a1]; simp

theorem vfs_open_write_fresh (E : Errno) (fuel : Nat) (w : World) (name cbmname : List Nat)
    (buf : Buffer) (hs : w.script = []) (hnone : w.files name = none) (hfd : 0 ≤ w.nextfd)
    (hal : buf.allocated = true) (hrec : buf.recordlen = 0) (hhs : buf.headersize = 0)
    (hfp : buf.fptr = 0) (hmf : buf.mustflush = 0) :
    ∃ buf1 w1, vfs_open_write E fuel w name none cbmname false buf 0 = some (buf1, w1) ∧
      StoreInv buf1 w1 w.nextfd name [] [] := by
  have hnext : w.next = (.ok, w) := by simp [World.next, hs]
  have hlt : ¬ w.nextfd < 0 := by omega
  unfold vfs_open_write create_file vfs_open sys_open
  simp only [hnext, hnone, O_CREAT_EXCL_RDWR, if_true, World.install, ne_eq, not_true_eq_false,
    if_false, Option.isSome_none, Bool.false_eq_true, Bool.false_or, decide_False, hlt,
    mark_write_buffer]
  refine ⟨_, _, rfl, ⟨hs, by simp only; omega, by simp, by simp⟩, rfl, rfl, by simp, ?_, hmf,
    hrec, hhs, hfp, rfl, rfl, hal⟩
  rfl

theorem vfs_file_close_inv (E : Errno) (fuel : Nat) (buf : Buffer) (w : World) (fd : Int)
    (name written pending : List Nat) (h : StoreInv buf w fd name written pending)
    (hsz : written.length + pending.length < 4294967296) :
    ∃ buf3 w3, vfs_file_close E fuel buf w = some (0, buf3, w3) ∧ w3.script = [] ∧
      0 ≤ w3.nextfd ∧ w3.files name = some (written ++ pending) := by
  obtain ⟨hw, hfd, hpos, hlen, hpk, hmf, hrec, hhs, hfp, hrf, hwr, hal⟩ := h
  subst hfd
  obtain ⟨w1, h1, r1⟩ := sys_write_to E w buf.fd name written written.length
    (peek buf.data 2 pending.length) hw
  rw [peek_length] at h1 r1
  obtain ⟨w3, h3, r3⟩ := vfs_tell_to E w1 buf.fd name _ _ r1
  have hcore := write_data_core E buf w w1 w3 pending.length (written.length + pending.length)
    hrec (Or.inl ⟨hmf, hpos, hlen⟩) h1 h3
  have hng := vfs_file_write_nogap E fuel buf _ w w3 written.length
    (vfs_size_writable E w buf.fd written written.length hw.writable)
    (by simp only [hfp, hhs, u32]; omega) hcore
  rw [hpk, write_at_end] at r3
  obtain ⟨w4, h4, s4, n4, f4, -⟩ := sys_close_to E w3 buf.fd name _ _ r3
  unfold vfs_file_close call_refill
  simp only [hal, Bool.not_true, Bool.false_eq_true, if_false, hwr, if_true, hrf, hng, ne_eq,
    not_true_eq_false, h4, lt_self_iff_false]
  exact ⟨_, _, rfl, s4, n4, f4⟩

theorem read_back_eq (E : Errno) (fuel : Nat) (w : World) (name c : List Nat) (buf : Buffer)
    (hs : w.script = []) (hfd : 0 ≤ w.nextfd) (hfile : w.files name = some c) (hc : 0 < c.length)
    (hrec : buf.recordlen = 0) :
    ∃ buf1 w1, ReadyAt w1 buf1.fd c 0 ∧ buf1.recordlen = 0 ∧
      read_back E fuel w name buf = read_blocks E (fuel + 1) buf1 w1 := by
  have hnext : w.next = (.ok, w) := by simp [World.next, hs]
  have hlt : ¬ w.nextfd < 0 := by omega
  have key : vfs_open_read E w name false buf
      = (vfs_file_read E
          (stick_buffer { buf with fd := w.nextfd, read := true, cleanup := .vfs_file_close,
                                   refill := .vfs_file_read, seek := .vfs_file_seek })
          (World.install w name O_RDONLY).2).2 := by
    unfold vfs_open_read vfs_open sys_open
    simp only [hnext, hfile, O_RDONLY, Bool.false_and, Bool.false_eq_true, if_false,
      World.install, hlt]
  have hr : ReadyAt (World.install w name O_RDONLY).2
      (stick_buffer { buf with fd := w.nextfd, read := true, cleanup := .vfs_file_close,
                               refill := .vfs_file_read, seek := .vfs_file_seek }).fd c 0 :=
    ⟨hs, ⟨name, 0, true, false⟩, by simp [World.install, stick_buffer, O_RDONLY], rfl, rfl, hfile⟩
  obtain ⟨buf2, w2, e, -⟩ := vfs_file_read_seq E _ _ c 0 hr hrec hc
  refine ⟨_, _, hr, hrec, ?_⟩
  unfold read_back
  rw [key, e]
  conv_rhs => unfold read_blocks
  rw [e]
  simp

theorem sys_read_cases (E : Errno) (w : World) (fd : Int) (len : Nat) :
    ((sys_read E w fd len).1 = -1 ∧ (sys_read E w fd len).2.1 = []) ∨
    ((sys_read E w fd len).1 = ((sys_read E w fd len).2.1.length : Int) ∧
      (sys_read E w fd len).2.1.length ≤ len) := by
  unfold sys_read
  rcases hn : w.next with ⟨o, w1⟩
  cases o with
  | fail e => left; exact ⟨rfl, rfl⟩
  | ok =>
    simp only
    cases hf : w1.fds fd with
    | none => left; exact ⟨rfl, rfl⟩
    | some f =>
      simp only
      by_cases hrd : f.readable = true
      · right
        simp only [hrd, if_true]
        exact ⟨trivial, by simp only [List.length_take]; omega⟩
      · left
        simp only [hrd, Bool.false_eq_true, if_false]
        exact ⟨trivial, trivial⟩
  | short n =>
    simp only
    cases hf : w1.fds fd with
    | none => left; exact ⟨rfl, rfl⟩
    | some f =>
      simp only
      by_cases hrd : f.readable = true
      · right
        simp only [hrd, if_true]
        exact ⟨trivial, by simp only [List.length_take]; omega⟩
      · left
        simp only [hrd, Bool.false_eq_true, if_false]
        exact ⟨trivial, trivial⟩

theorem strip_nulls_bounds (data : Nat → Nat) (fuel l : Nat) (h2 : 2 ≤ l) (h255 : l ≤ 255) :
    1 ≤ strip_nulls data fuel l ∧ strip_nulls data fuel l ≤ l := by
  induction fuel generalizing l with
  | zero => simp only [strip_nulls]; omega
  | succ fuel ih =>
    have hl : (l + 255) % 256 = l - 1 := by omega
    unfold strip_nulls
    by_cases hd : data l = 0
    · simp only [hd, if_true, hl]
      by_cases hgt : l - 1 > 1
      · simp only [hgt, if_true]
        have := ih (l - 1) (by omega) (by omega)
        omega
      · simp only [hgt, if_false]
        omega
    · simp only [hd, if_false]
      omega

theorem vfs_file_read_eq (E : Errno) (buf : Buffer) (w : World) :
    vfs_file_read E buf w
      = vfs_file_read_after E buf
          (sys_read E w buf.fd (if buf.recordlen ≠ 0 then buf.recordlen else 254)) := by
  rfl

theorem vfs_file_read_eoi_fields (E : Errno) (buf : Buffer) (r : Int) (w : World) :
    (vfs_file_read_eoi E buf r w).1 = 0 ∧
    (vfs_file_read_eoi E buf r w).2.1.position = buf.position ∧
    (vfs_file_read_eoi E buf r w).2.1.lastused = buf.lastused ∧
    (vfs_file_read_eoi E buf r w).2.1.data = buf.data := by
  unfold vfs_file_read_eoi
  split_ifs
  · exact ⟨rfl, rfl, rfl, rfl⟩
  · split; split; split_ifs <;> exact ⟨rfl, rfl, rfl, rfl⟩

theorem vfs_file_read_filled_fields (buf : Buffer) (bytes : List Nat)
    (hb : bytes.length ≤ 254) :
    (vfs_file_read_filled buf bytes.length bytes).position = 2 ∧
    1 ≤ (vfs_file_read_filled buf bytes.length bytes).lastused ∧
    (vfs_file_read_filled buf bytes.length bytes).lastused ≤ 255 ∧
    ∀ i, i < 2 ∨ 255 < i → (vfs_file_read_filled buf bytes.length bytes).data i = buf.data i := by
  have hd1 : ∀ i, i < 2 ∨ 255 < i → poke buf.data 2 bytes i = buf.data i := by
    intro i hi
    rw [poke_outside _ _ _ _ (by omega)]
  have hd2 : ∀ x i, i < 2 ∨ 255 < i → poke (poke buf.data 2 bytes) 2 [x] i = buf.data i := by
    intro x i hi
    rw [poke_outside _ _ _ _ (by simp only [List.length_singleton]; omega), hd1 i hi]
  have hl1 : (((1 : Int) + 1) % 256).toNat = 2 := by decide
  have hl : ((((bytes.length : Nat) : Int) + 1) % 256).toNat = bytes.length + 1 := by omega
  unfold vfs_file_read_filled
  by_cases hr : buf.recordlen = 0 <;> by_cases h0 : bytes.length = 0
  · have h0' : ((bytes.length : Nat) : Int) = 0 := by omega
    simp only [h0', hr, if_true, hl1, ne_eq, not_true_eq_false, if_false]
    exact ⟨trivial, by omega, by omega, hd2 _⟩
  · have h0' : ¬ ((bytes.length : Nat) : Int) = 0 := by omega
    simp only [h0', hr, hl, ne_eq, not_true_eq_false, if_false]
    exact ⟨trivial, by omega, by omega, hd1⟩
  · have h0' : ((bytes.length : Nat) : Int) = 0 := by omega
    simp only [h0', hr, if_true, hl1, ne_eq, not_false_eq_true]
    have := strip_nulls_bounds (poke (poke buf.data 2 bytes) 2 [255]) 257 2
      (le_refl _) (by norm_num)
    exact ⟨trivial, this.1, by omega, hd2 _⟩
  · have h0' : ¬ ((bytes.length : Nat) : Int) = 0 := by omega
    simp only [h0', hr, hl, ne_eq, not_false_eq_true, if_true, if_false]
    have := strip_nulls_bounds (poke buf.data 2 bytes) 257 (bytes.length + 1)
      (by omega) (by omega)
    exact ⟨trivial, this.1, by omega, hd1⟩

/-- For record lengths up to 254 (sequential files included) every successful
`vfs_file_read` leaves `position = 2 ≤ lastused + 1 ≤ 256` and writes only inside
`data[2..255]`. -/
theorem vfs_file_read_bounds (E : Errno) (buf : Buffer) (w : World) (hrec : buf.recordlen ≤ 254)
    (hok : (vfs_file_read E buf w).1 = 0) :
    (vfs_file_read E buf w).2.1.position = 2 ∧
    (vfs_file_read E buf w).2.1.position ≤ (vfs_file_read E buf w).2.1.lastused + 1 ∧
    (vfs_file_read E buf w).2.1.lastused + 1 ≤ 256 ∧
    ∀ i, i < 2 ∨ 255 < i → (vfs_file_read E buf w).2.1.data i = buf.data i := by
  have hlen : (if buf.recordlen ≠ 0 then buf.recordlen else 254) ≤ 254 := by
    split_ifs <;> omega
  have hc := sys_read_cases E w buf.fd (if buf.recordlen ≠ 0 then buf.recordlen else 254)
  rw [vfs_file_read_eq] at hok ⊢
  generalize sys_read E w buf.fd (if buf.recordlen ≠ 0 then buf.recordlen else 254) = res
    at hc hok ⊢
  obtain ⟨r, bytes, w1⟩ := res
  unfold vfs_file_read_after at hok ⊢
  simp only at hc hok ⊢
  rcases hc with ⟨h1, -⟩ | ⟨h1, h2⟩
  · subst h1
    simp at hok
  · subst h1
    have hnn : ¬ ((bytes.length : Int) < 0) := by omega
    simp only [hnn, if_false]
    obtain ⟨-, e2, e3, e4⟩ := vfs_file_read_eoi_fields E
      (vfs_file_read_filled buf bytes.length bytes)
      (if (bytes.length : Int) = 0 then 1 else (bytes.length : Int)) w1
    obtain ⟨f1, f2, f3, f4⟩ := vfs_file_read_filled_fields buf bytes (le_trans h2 hlen)
    rw [e2, e3, e4]
    exact ⟨f1, by omega, by omega, f4⟩

/-- C1: if `start_timeout u` is called while the 32-bit cycle counter reads `c`, with
`k = u * (CONFIG_MCU_FREQ/1000000) < 2^31`, then after `d < 2^31` further ticks (counter
`(c + d) mod 2^32`) `has_timed_out` is true exactly when `d > k`, wrap-around included. -/
theorem has_timed_out_iff (c u d : Nat)
    (hk : u * (CONFIG_MCU_FREQ / 1000000) < 2147483648) (hd : d < 2147483648) :
    has_timed_out (start_timeout c u) ((c + d) % 4294967296) = true
      ↔ d > u * (CONFIG_MCU_FREQ / 1000000) := by
  have hf : CONFIG_MCU_FREQ / 1000000 = 160 := rfl
  rw [hf] at hk ⊢
  have hu : u % 4294967296 * 160 % 4294967296 = u * 160 := by omega
  have key := timeout_arith (c : Int) ((u * 160 : Nat) : Int) (d : Int)
    (Int.ofNat_nonneg _) (Int.ofNat_nonneg _) (by exact_mod_cast hk) (by exact_mod_cast hd)
  simp only [has_timed_out, start_timeout, asm_ccount, hf, decide_eq_true_eq, hu]
  have hcd : (((c + d) % 4294967296 : Nat) : Int) = ((c : Int) + (d : Int)) % 4294967296 := by
    rw [Int.natCast_mod, Int.natCast_add]; rfl
  rw [hcd, key]
  exact Nat.cast_lt

/-- Witness for C1: the counter is 100 ticks below the wrap, the timeout is 1 µs
(160 ticks, so `c + k` wraps) and 161 ticks have elapsed. -/
theorem has_timed_out_iff_witness :
    1 * (CONFIG_MCU_FREQ / 1000000) < 2147483648 ∧ 161 < 2147483648 ∧
    (has_timed_out (start_timeout 4294967196 1) ((4294967196 + 161) % 4294967296) = true
      ↔ 161 > 1 * (CONFIG_MCU_FREQ / 1000000)) :=
  ⟨by norm_num [CONFIG_MCU_FREQ], by norm_num,
    has_timed_out_iff 4294967196 1 161 (by norm_num [CONFIG_MCU_FREQ]) (by norm_num)⟩

/-- C10: `parse_error` records `ERROR_OK` for 0, the listed error for each listed errno
(with `res` as track and sector 0) and `ERROR_SYNTAX_UNABLE` with track `res`, sector 99
for every other value; the result does not depend on `readflag`. -/
theorem parse_error_table (E : Errno) (hE : E.labels_distinct) (res : Int) (readflag : Nat) :
    (res = 0 → parse_error E res readflag = .set_error .ERROR_OK) ∧
    (res = E.ENOENT → parse_error E res readflag = .set_error_ts .ERROR_FILE_NOT_FOUND res 0) ∧
    (res = E.EACCES ∨ res = E.EPERM →
      parse_error E res readflag = .set_error_ts .ERROR_WRITE_PROTECT res 0) ∧
    (res = E.EEXIST → parse_error E res readflag = .set_error_ts .ERROR_FILE_EXISTS res 0) ∧
    (res = E.EBUSY ∨ res = E.EFAULT ∨ res = E.EBADF →
      parse_error E res readflag = .set_error_ts .ERROR_DRIVE_NOT_READY res 0) ∧
    (res ≠ 0 ∧ res ≠ E.ENOENT ∧ res ≠ E.EACCES ∧ res ≠ E.EPERM ∧ res ≠ E.EEXIST ∧
        res ≠ E.EBUSY ∧ res ≠ E.EFAULT ∧ res ≠ E.EBADF →
      parse_error E res readflag = .set_error_ts .ERROR_SYNTAX_UNABLE res 99) ∧
    (res ≠ 0 → ∃ c s, parse_error E res readflag = .set_error_ts c res s) ∧
    (∀ readflag2, parse_error E res readflag2 = parse_error E res readflag) := by
  simp only [Errno.labels_distinct, List.nodup_cons, List.mem_cons, List.mem_singleton,
    List.not_mem_nil, not_or, List.nodup_nil, or_false, and_true] at hE
  obtain ⟨⟨h01, h02, h03, h04, h05, h06, h07⟩, ⟨h12, h13, h14, h15, h16, h17⟩,
    ⟨h23, h24, h25, h26, h27⟩, ⟨h34, h35, h36, h37⟩, ⟨h45, h46, h47⟩, ⟨h56, h57⟩, h67, -⟩ := hE
  refine ⟨?_, ?_, ?_, ?_, ?_, ?_, ?_, ?_⟩
  · intro h; simp [parse_error, h]
  · intro h; subst h; simp [parse_error, Ne.symm h01]
  · rintro (h | h) <;> subst h
    · simp [parse_error, Ne.symm h02, Ne.symm h12]
    · simp [parse_error, Ne.symm h03, Ne.symm h13]
  · intro h; subst h; simp [parse_error, Ne.symm h04, Ne.symm h14, Ne.symm h24, Ne.symm h34]
  · rintro (h | h | h) <;> subst h
    · simp [parse_error, Ne.symm h05, Ne.symm h15, Ne.symm h25, Ne.symm h35, Ne.symm h45]
    · simp [parse_error, Ne.symm h06, Ne.symm h16, Ne.symm h26, Ne.symm h36, Ne.symm h46]
    · simp [parse_error, Ne.symm h07, Ne.symm h17, Ne.symm h27, Ne.symm h37, Ne.symm h47,
        Ne.symm h57, Ne.symm h67]
  · rintro ⟨a, b, c, d, e, f, g, h⟩; simp [parse_error, a, b, c, d, e, f, g, h]
  · intro h
    unfold parse_error
    rw [if_neg h]
    split_ifs <;> exact ⟨_, _, rfl⟩
  · intro _; rfl

/-- Witness for C10: newlib's errno values, `res = EACCES`. -/
theorem parse_error_table_witness :
    newlibErrno.labels_distinct ∧
    parse_error newlibErrno 13 1 = .set_error_ts .ERROR_WRITE_PROTECT 13 0 :=
  ⟨by decide, (parse_error_table newlibErrno (by decide) 13 1).2.2.1 (Or.inl rfl)⟩

/-- C7 fails as stated: starting from the blob that `write_configuration` stores for
`sampleConfig`, (1) changing only the unused byte at offset 0, and (2) raising the
file-extension byte (offset 8) by one while lowering the image-directory byte (offset 13)
by one, both give a different blob of the same length that passes both tests;
in case (2) `read_configuration` copies the altered `file_extension_mode` 3. -/
theorem mutated_blob_accepted :
    (write_configuration sampleEnv emptyStore sampleConfig).2.blob
      = some [0, 45, 30, 0, 0, 16, 9, 8, 2, 0, 255, 255, 255, 1,
              82, 79, 77, 0, 0, 0, 0, 0, 0, 0, 0, 0, 0, 0, 0, 0] ∧
    config_accepted sampleEnv (StoredConfig.ofBytes
      [1, 45, 30, 0, 0, 16, 9, 8, 2, 0, 255, 255, 255, 1,
       82, 79, 77, 0, 0, 0, 0, 0, 0, 0, 0, 0, 0, 0, 0, 0]) = true ∧
    config_accepted sampleEnv (StoredConfig.ofBytes
      [0, 45, 30, 0, 0, 16, 9, 8, 3, 0, 255, 255, 255, 0,
       82, 79, 77, 0, 0, 0, 0, 0, 0, 0, 0, 0, 0, 0, 0, 0]) = true ∧
    (read_configuration sampleEnv
      { blob := some [0, 45, 30, 0, 0, 16, 9, 8, 3, 0, 255, 255, 255, 0,
                      82, 79, 77, 0, 0, 0, 0, 0, 0, 0, 0, 0, 0, 0, 0, 0], opens := true }
      sampleConfig).map (fun r => (r.file_extension_mode, r.image_as_dir)) = some (3, 0) := by
  decide

/-- C7 (amended): let `b` be the blob stored by `write_configuration`.  Every blob that
differs from `b` in exactly one byte, at an offset other than 0 (the unused `dummy`
byte), fails the structsize test or the checksum test, so `read_configuration` returns
early with the defaults and copies no field of it. -/
theorem single_byte_change_rejected (env : NvsEnv) (nvs : NvsStore) (s s2 : Config)
    (b : List Nat) (hR : sizeof_storedconfig env < 65536)
    (hwf : s.storedconfig.wf env) (hrom : ∀ x ∈ s.rom_filename, x < 256)
    (ho : nvs.opens = true)
    (hw : (write_configuration env nvs s).2.blob = some b)
    (hs2 : s2.storedconfig.romname.length = env.ROM_NAME_LENGTH)
    (i v : Nat) (hi1 : 1 ≤ i) (hi2 : i < b.length) (hv : v < 256) (hne : v ≠ b.getD i 0) :
    config_accepted env (StoredConfig.ofBytes (b.set i v)) = false ∧
    read_configuration env { blob := some (b.set i v), opens := true } s2
      = some (rejected_result env s2 (b.set i v)) := by
  rw [write_configuration_blob env nvs s ho] at hw
  obtain rfl := Option.some.inj hw
  obtain ⟨hl, hlt, hsz, hck⟩ := written_blob_facts env s hR hwf hrom
  generalize (build_storedconfig env s).bytes = b at *
  have hl2 : (b.set i v).length = sizeof_storedconfig env := by rw [List.length_set, hl]
  have hlt2 : ∀ x ∈ b.set i v, x < 256 := by
    intro x hx
    rcases List.mem_or_eq_of_mem_set hx with h | h
    · exact hlt x h
    · rw [h]; exact hv
  have hbi : b.getD i 0 < 256 := by
    rw [List.getD_eq_getElem?_getD, List.getElem?_eq_getElem hi2]
    exact hlt _ (List.getElem_mem hi2)
  have hbk : ∀ k, b.getD k 0 < 256 := by
    intro k
    rw [List.getD_eq_getElem?_getD]
    by_cases hk : k < b.length
    · rw [List.getElem?_eq_getElem hk]; exact hlt _ (List.getElem_mem hk)
    · rw [List.getElem?_eq_none (Nat.le_of_not_lt hk)]; norm_num
  have e1 : (b.set i v).getD 1 0 = if i = 1 then v else b.getD 1 0 := by
    rw [getD_set]; simp [hi2]
  have e2 : (b.set i v).getD 2 0 = if i = 2 then v else b.getD 2 0 := by
    rw [getD_set]; simp [hi2]
  have e3 : (b.set i v).getD 3 0 = if i = 3 then v else b.getD 3 0 := by
    rw [getD_set]; simp [hi2]
  have hbad : (b.set i v).getD 2 0 + 256 * (b.set i v).getD 3 0 ≠ sizeof_storedconfig env
      ∨ (b.set i v).getD 1 0 ≠ ((b.set i v).drop 2).sum % 256 := by
    rw [e1, e2, e3, List.drop_set]
    have h2 := hbk 2
    have h3 := hbk 3
    by_cases h1 : i = 1
    · subst h1
      right
      rw [if_pos rfl, if_pos (by norm_num), ← hck]; exact hne
    · have hge : ¬ i < 2 := by omega
      have hsum := sum_set (b.drop 2) (i - 2) v (by rw [List.length_drop]; omega)
      have hget : (b.drop 2).getD (i - 2) 0 = b.getD i 0 := by
        simp only [List.getD_eq_getElem?_getD, List.getElem?_drop]
        congr 2; omega
      rw [hget] at hsum
      rw [if_neg hge, if_neg h1]
      by_cases h2 : i = 2
      · left; subst h2
        rw [if_pos rfl, if_neg (by norm_num)]
        omega
      · by_cases h3 : i = 3
        · left; subst h3
          rw [if_pos rfl, if_neg (by norm_num)]
          omega
        · right
          omega
  refine ⟨?_, read_configuration_of_bad env s2 _ hs2 hl2 hlt2 hbad⟩
  rw [config_accepted_ofBytes env _ hl2 hlt2]
  rcases hbad with h | h
  · rw [decide_eq_false h, Bool.false_and]
  · rw [decide_eq_false h, Bool.and_false]

/-- Witness for C7 (amended): the blob written for `sampleConfig` with its checksum byte
(offset 1) changed from 45 to 46. -/
theorem single_byte_change_rejected_witness :
    config_accepted sampleEnv (StoredConfig.ofBytes
      ([0, 45, 30, 0, 0, 16, 9, 8, 2, 0, 255, 255, 255, 1,
        82, 79, 77, 0, 0, 0, 0, 0, 0, 0, 0, 0, 0, 0, 0, 0].set 1 46)) = false ∧
    read_configuration sampleEnv
      { blob := some ([0, 45, 30, 0, 0, 16, 9, 8, 2, 0, 255, 255, 255, 1,
          82, 79, 77, 0, 0, 0, 0, 0, 0, 0, 0, 0, 0, 0, 0, 0].set 1 46), opens := true }
      sampleConfig
      = some (rejected_result sampleEnv sampleConfig
          ([0, 45, 30, 0, 0, 16, 9, 8, 2, 0, 255, 255, 255, 1,
            82, 79, 77, 0, 0, 0, 0, 0, 0, 0, 0, 0, 0, 0, 0, 0].set 1 46)) :=
  single_byte_change_rejected sampleEnv emptyStore sampleConfig sampleConfig _
    (by decide) (by decide) (by decide) rfl (by decide) (by decide) 1 46
    (by decide) (by decide) (by decide) (by decide)

/-- C8: `write_configuration` followed by `read_configuration` (on any later state `s2`
of the globals, the store handing back the written blob) passes the structsize and the
checksum test and restores `file_extension_mode`, `image_as_dir`, the POSTMATCH and
EXTENSION_HIDING bits of `globalflags` and the name in `rom_filename` (zero-padded) to
their values at the time of writing; the other bits of `globalflags` stay as they were
before the read. -/
theorem write_read_roundtrip (env : NvsEnv) (nvs : NvsStore) (s s2 : Config)
    (hR : sizeof_storedconfig env < 65536)
    (hP : env.POSTMATCH < 256) (hE : env.EXTENSION_HIDING < 256)
    (hwf : s.storedconfig.wf env) (hrom : ∀ x ∈ s.rom_filename, x < 256)
    (hf : s.file_extension_mode < 256) (hi : s.image_as_dir < 256)
    (hg2 : s2.globalflags < 256)
    (hname : (s.rom_filename.takeWhile (· ≠ 0)).length < env.ROM_NAME_LENGTH)
    (ho : nvs.opens = true)
    (hs2 : s2.storedconfig.romname.length = env.ROM_NAME_LENGTH) :
    ∃ r, read_configuration env (write_configuration env nvs s).2 s2 = some r ∧
      config_accepted env r.storedconfig = true ∧
      r.file_extension_mode = s.file_extension_mode ∧
      r.image_as_dir = s.image_as_dir ∧
      r.globalflags &&& (env.POSTMATCH ||| env.EXTENSION_HIDING)
        = s.globalflags &&& (env.POSTMATCH ||| env.EXTENSION_HIDING) ∧
      r.globalflags &&& (255 ^^^ (env.POSTMATCH ||| env.EXTENSION_HIDING))
        = s2.globalflags &&& (255 ^^^ (env.POSTMATCH ||| env.EXTENSION_HIDING)) ∧
      r.rom_filename.takeWhile (· ≠ 0) = s.rom_filename.takeWhile (· ≠ 0) ∧
      r.rom_filename = s.rom_filename.takeWhile (· ≠ 0)
        ++ List.replicate (env.ROM_NAME_LENGTH + 1 - (s.rom_filename.takeWhile (· ≠ 0)).length) 0 := by
  obtain ⟨r, hr, a1, a2, a3, a4, a5, -⟩ := read_after_write env nvs s s2 hR hwf hrom hname ho hs2
  obtain ⟨m1, m2⟩ := flags_merge s.globalflags s2.globalflags env.POSTMATCH
    env.EXTENSION_HIDING hg2 hP hE
  refine ⟨r, hr, a1, by rw [a2, Nat.mod_eq_of_lt hf], by rw [a3, Nat.mod_eq_of_lt hi],
    by rw [a4]; exact m1, by rw [a4]; exact m2, ?_, a5⟩
  rw [a5]
  exact takeWhile_ne_zero_append_replicate _ _ (takeWhile_ne_zero_nonzero _)

/-- Witness for C8: `sampleConfig` written to an empty store and read back into a state
whose globals were changed in between. -/
theorem write_read_roundtrip_witness :
    ∃ r, read_configuration sampleEnv (write_configuration sampleEnv emptyStore sampleConfig).2
        { sampleConfig with globalflags := 1, file_extension_mode := 0, image_as_dir := 0,
                            rom_filename := List.replicate 17 0 } = some r ∧
      config_accepted sampleEnv r.storedconfig = true ∧
      r.file_extension_mode = sampleConfig.file_extension_mode ∧
      r.image_as_dir = sampleConfig.image_as_dir ∧
      r.globalflags &&& (sampleEnv.POSTMATCH ||| sampleEnv.EXTENSION_HIDING)
        = sampleConfig.globalflags &&& (sampleEnv.POSTMATCH ||| sampleEnv.EXTENSION_HIDING) ∧
      r.globalflags &&& (255 ^^^ (sampleEnv.POSTMATCH ||| sampleEnv.EXTENSION_HIDING))
        = 1 &&& (255 ^^^ (sampleEnv.POSTMATCH ||| sampleEnv.EXTENSION_HIDING)) ∧
      r.rom_filename.takeWhile (· ≠ 0) = sampleConfig.rom_filename.takeWhile (· ≠ 0) ∧
      r.rom_filename = sampleConfig.rom_filename.takeWhile (· ≠ 0)
        ++ List.replicate (sampleEnv.ROM_NAME_LENGTH + 1
            - (sampleConfig.rom_filename.takeWhile (· ≠ 0)).length) 0 :=
  write_read_roundtrip sampleEnv emptyStore sampleConfig
    { sampleConfig with globalflags := 1, file_extension_mode := 0, image_as_dir := 0,
                        rom_filename := List.replicate 17 0 }
    (by decide) (by decide) (by decide) (by decide) (by decide) (by decide) (by decide)
    (by decide) (by decide) rfl (by decide)

/-- C9 fails on the code: with `device_address` 9 set by software (hardware address 8),
`write_configuration` stores 9 in `address` and 8 in `hardaddress`; the following
`read_configuration` passes both tests and assigns `hardaddress` to `device_address`,
which is 8 afterwards. -/
theorem device_address_not_restored :
    sampleConfig.device_address = 9 ∧
    (write_configuration sampleEnv emptyStore sampleConfig).1.storedconfig.address = 9 ∧
    (write_configuration sampleEnv emptyStore sampleConfig).1.storedconfig.hardaddress = 8 ∧
    (read_configuration sampleEnv (write_configuration sampleEnv emptyStore sampleConfig).2
      (write_configuration sampleEnv emptyStore sampleConfig).1).map (fun r => r.device_address)
      = some 8 := by
  decide

/-- C2: for a sequential file (recordlen 0) with a payload of `L ≥ 1` bytes behind its
header and all I/O succeeding, calling `vfs_file_read` from the start of the payload until
`sendeoi` is set takes exactly `ceil(L/254)` calls; every call leaves `position = 2` and
`lastused = n + 1` with `n ≤ 254` bytes at `data[2..n+1]`; the blocks concatenated are
the payload; `sendeoi` is 0 after every call but the last and 1 after the last. -/
theorem vfs_file_read_sequential (E : Errno) (fuel : Nat) (buf : Buffer) (w : World)
    (header payload : List Nat)
    (hr : ReadyAt w buf.fd (header ++ payload) header.length) (hrec : buf.recordlen = 0)
    (hL : 1 ≤ payload.length) (hfuel : (payload.length + 253) / 254 ≤ fuel) :
    (read_blocks E fuel buf w).length = (payload.length + 253) / 254 ∧
    ((read_blocks E fuel buf w).map (fun b => b.bytes)).flatten = payload ∧
    (∀ b ∈ read_blocks E fuel buf w,
      b.position = 2 ∧ b.lastused = b.bytes.length + 1 ∧ b.bytes.length ≤ 254) ∧
    (read_blocks E fuel buf w).map (fun b => b.sendeoi)
      = List.replicate ((payload.length + 253) / 254 - 1) 0 ++ [1] := by
  have key := read_blocks_payload E fuel buf w (header ++ payload) header.length hr hrec
    (by rw [List.length_append]; omega) (by rw [List.length_append]; omega)
  have e1 : (header ++ payload).length - header.length = payload.length := by
    rw [List.length_append]; omega
  rw [e1, List.drop_left] at key
  exact key

/-- Witness for C2: a file of 508 bytes (exactly two blocks) without header, opened for
reading. -/
theorem vfs_file_read_sequential_witness :
    (read_blocks newlibErrno 2 { freshBuffer with fd := 3 }
      (sys_open newlibErrno (worldWith [70] (List.replicate 508 7)) [70] O_RDONLY).2).length
      = ((List.replicate 508 7).length + 253) / 254 ∧
    ((read_blocks newlibErrno 2 { freshBuffer with fd := 3 }
      (sys_open newlibErrno (worldWith [70] (List.replicate 508 7)) [70] O_RDONLY).2).map
        (fun b => b.bytes)).flatten = List.replicate 508 7 ∧
    (∀ b ∈ read_blocks newlibErrno 2 { freshBuffer with fd := 3 }
        (sys_open newlibErrno (worldWith [70] (List.replicate 508 7)) [70] O_RDONLY).2,
      b.position = 2 ∧ b.lastused = b.bytes.length + 1 ∧ b.bytes.length ≤ 254) ∧
    (read_blocks newlibErrno 2 { freshBuffer with fd := 3 }
      (sys_open newlibErrno (worldWith [70] (List.replicate 508 7)) [70] O_RDONLY).2).map
        (fun b => b.sendeoi)
      = List.replicate (((List.replicate 508 7).length + 253) / 254 - 1) 0 ++ [1] :=
  vfs_file_read_sequential newlibErrno 2 { freshBuffer with fd := 3 }
    (sys_open newlibErrno (worldWith [70] (List.replicate 508 7)) [70] O_RDONLY).2
    [] (List.replicate 508 7)
    ⟨rfl, ⟨[70], 0, true, false⟩, rfl, rfl, rfl, rfl⟩ rfl
    (by rw [List.length_replicate]; norm_num) (by rw [List.length_replicate])

/-- C4: for a sequential write buffer whose descriptor is open for writing at offset `o`,
with all I/O succeeding: if `mustflush = 0` and the buffer holds `k ≤ 253` bytes at
`data[2..k+1]` with `position = k + 2`, or if `mustflush = 1`, `lastused = 255` and
`k = 254`, then `write_data` returns 0, the file holds exactly the `k` bytes
`data[2..k+1]` at offset `o`, the offset is `o + k`, and the buffer has `position = 2`,
`lastused = 2`, `mustflush = 0`, is clean, and `fptr` is the new offset minus
`headersize` (as `uint32_t`). -/
theorem write_data_sequential (E : Errno) (buf : Buffer) (w : World) (c : List Nat) (o k : Nat)
    (hw : WritableAt w buf.fd c o) (hrec : buf.recordlen = 0)
    (hcase : (buf.mustflush = 0 ∧ buf.position = k + 2 ∧ k ≤ 253)
      ∨ (buf.mustflush = 1 ∧ buf.lastused = 255 ∧ k = 254)) :
    ∃ buf2 w2, write_data E buf w = (0, buf2, w2) ∧
      WritableAt w2 buf.fd (write_at c o (peek buf.data 2 k)) (o + k) ∧
      buf2.position = 2 ∧ buf2.lastused = 2 ∧ buf2.mustflush = 0 ∧ buf2.dirty = false ∧
      (buf2.fptr : Int) = (((o + k : Nat) : Int) - (buf.headersize : Int)) % 4294967296 := by
  obtain ⟨buf2, w2, h, a1, a2, a3, a4, a5, a6, -⟩ := write_data_seq E buf w c o k hw hrec hcase
  exact ⟨buf2, w2, h, a1, a2, a3, a4, a5, a6⟩

/-- Witness for C4: three bytes in a dirty buffer, written to a newly created file. -/
theorem write_data_sequential_witness :
    ∃ buf2 w2,
      write_data newlibErrno
        { freshBuffer with fd := 3, position := 5, dirty := true, data := fun i => 60 + i }
        (sys_open newlibErrno emptyWorld [70] O_CREAT_EXCL_RDWR).2 = (0, buf2, w2) ∧
      WritableAt w2 3 (write_at [] 0 (peek (fun i => 60 + i) 2 3)) (0 + 3) ∧
      buf2.position = 2 ∧ buf2.lastused = 2 ∧ buf2.mustflush = 0 ∧ buf2.dirty = false ∧
      (buf2.fptr : Int) = (((0 + 3 : Nat) : Int) - ((0 : Nat) : Int)) % 4294967296 :=
  write_data_sequential newlibErrno
    { freshBuffer with fd := 3, position := 5, dirty := true, data := fun i => 60 + i }
    (sys_open newlibErrno emptyWorld [70] O_CREAT_EXCL_RDWR).2 [] 0 3
    ⟨rfl, ⟨[70], 0, true, true⟩, rfl, rfl, rfl, rfl⟩ rfl (Or.inl ⟨rfl, rfl, by decide⟩)

/-- C3: on a world where every call succeeds, for every byte sequence of length `k ≥ 1`
(below 2^31): creating a header-free file with `vfs_open_write` (no append), storing the
bytes from position 2 on with a flush through `vfs_file_write` whenever `position` wraps
past 255, closing with `vfs_file_close`, then opening the file with `vfs_open_read` and
draining it with `vfs_file_read` yields blocks whose concatenation is the same byte
sequence; `sendeoi` is set on the last block only. -/
theorem listen_talk_roundtrip (E : Errno) (fuel : Nat) (w : World) (name cbmname bytes : List Nat)
    (wbuf rbuf : Buffer) (hs : w.script = []) (hnone : w.files name = none)
    (hfd : 0 ≤ w.nextfd) (hal : wbuf.allocated = true) (hrec : wbuf.recordlen = 0)
    (hhs : wbuf.headersize = 0) (hfp : wbuf.fptr = 0) (hmf : wbuf.mustflush = 0)
    (hrrec : rbuf.recordlen = 0) (hk : 1 ≤ bytes.length) (hk2 : bytes.length < 2147483648)
    (hfuel : (bytes.length + 253) / 254 ≤ fuel + 1) :
    ∃ bs, write_then_read E fuel w name cbmname bytes wbuf rbuf = some bs ∧
      (bs.map (fun b => b.bytes)).flatten = bytes ∧
      bs.map (fun b => b.sendeoi) = List.replicate (bs.length - 1) 0 ++ [1] ∧
      bs.length = (bytes.length + 253) / 254 := by
  obtain ⟨buf1, w1, e1, i1⟩ := vfs_open_write_fresh E fuel w name cbmname wbuf hs hnone hfd hal
    hrec hhs hfp hmf
  obtain ⟨buf2, w2, wr, pe, e2, i2, a2⟩ := store_bytes_inv E fuel bytes buf1 w1 _ name [] [] i1
    (by simp only [List.length_nil]; omega)
  simp only [List.nil_append] at a2
  have hl : wr.length + pe.length = bytes.length := by
    have := congrArg List.length a2
    simpa using this
  obtain ⟨buf3, w3, e3, s3, n3, f3⟩ := vfs_file_close_inv E fuel buf2 w2 _ name wr pe i2
    (by omega)
  rw [a2] at f3
  obtain ⟨rb, rw1, hr, hrr, e4⟩ := read_back_eq E fuel w3 name bytes rbuf s3 n3 f3 (by omega) hrrec
  obtain ⟨p1, p2, -, p4⟩ := read_blocks_payload E (fuel + 1) rb rw1 bytes 0 hr hrr (by omega)
    (by simpa using hfuel)
  simp only [Nat.sub_zero, List.drop_zero] at p1 p2 p4
  refine ⟨read_blocks E (fuel + 1) rb rw1, ?_, p2, by rw [p4, p1], p1⟩
  unfold write_then_read
  simp only [e1, e2, e3, ne_eq, not_true_eq_false, if_false, e4]

/-- Witness for C3: three bytes written to a new file in an empty world and read back. -/
theorem listen_talk_roundtrip_witness :
    ∃ bs, write_then_read newlibErrno 0 emptyWorld [70] [70] [65, 66, 67] freshBuffer freshBuffer
        = some bs ∧
      (bs.map (fun b => b.bytes)).flatten = [65, 66, 67] ∧
      bs.map (fun b => b.sendeoi) = List.replicate (bs.length - 1) 0 ++ [1] ∧
      bs.length = ([65, 66, 67].length + 253) / 254 :=
  listen_talk_roundtrip newlibErrno 0 emptyWorld [70] [70] [65, 66, 67] freshBuffer freshBuffer
    rfl rfl (by decide) rfl rfl rfl rfl rfl rfl (by decide) (by decide) (by decide)

/-- C5 fails on the code for record length 255: `vfs_file_read` succeeds and asks
`read` for 255 bytes at `data + 2`, so the byte at index 256, behind the 256-byte data
area, is overwritten, and `lastused = 255 + 1` wraps to 0 in its 8-bit field, leaving
`position = 2 > lastused + 1`. -/
theorem vfs_file_read_recordlen_255 :
    (vfs_file_read newlibErrno rel255Buffer rel255World).1 = 0 ∧
    (vfs_file_read newlibErrno rel255Buffer rel255World).2.1.position = 2 ∧
    (vfs_file_read newlibErrno rel255Buffer rel255World).2.1.lastused = 0 ∧
    rel255Buffer.data 256 = 0 ∧
    (vfs_file_read newlibErrno rel255Buffer rel255World).2.1.data 256 = 1 := by
  decide

/-- While every round is quiet, `system_sleep_loop` keeps waiting. -/
theorem system_sleep_loop_quiet (pre rest : List SleepObs) (n : Nat)
    (hq : ∀ p ∈ pre, p.quiet) :
    system_sleep_loop (pre ++ rest) n = system_sleep_loop rest (n + pre.length) := by
  induction pre generalizing n with
  | nil => simp
  | cons p ps ih =>
    obtain ⟨h1, h2, h3⟩ := hq p (List.mem_cons_self _ _)
    have e := ih (n + 1) (fun q hq2 => hq q (List.mem_cons_of_mem _ hq2))
    rw [List.cons_append]
    conv_lhs => unfold system_sleep_loop
    simp only [h1, h2, h3, ne_eq, not_false_eq_true, and_self, if_true, not_true_eq_false,
      if_false, List.length_cons]
    rw [e, show n + 1 + ps.length = n + (ps.length + 1) by omega]

/-- C11 fails as stated: with ATN released and no interrupt flagged, a wait that times
out is followed by a second wait (and a third); `system_sleep` returns only with the
notification of the third round, after three waits, and has not returned after two
timed-out waits. -/
theorem system_sleep_waits_again :
    system_sleep [{ interrupt_happens := 0, iec_atn := 1, notification := 0 },
                  { interrupt_happens := 0, iec_atn := 1, notification := 0 },
                  { interrupt_happens := 0, iec_atn := 1, notification := 1 }]
      = some { waits := 3, interrupt_happens := 0 } ∧
    system_sleep [{ interrupt_happens := 0, iec_atn := 1, notification := 0 },
                  { interrupt_happens := 0, iec_atn := 1, notification := 0 }] = none := by
  decide

/-- C11 (amended): after any number of quiet rounds (no interrupt flagged, ATN released,
wait timed out) `system_sleep` goes on waiting; it returns in the first round in which
the interrupt flag is set or ATN is asserted (both seen before waiting, so without a
further wait) or in which the wait receives a notification; on return
`interrupt_happens` is 0.  While all rounds are quiet it does not return. -/
theorem system_sleep_returns (pre post : List SleepObs) (o : SleepObs)
    (hq : ∀ p ∈ pre, p.quiet) (ho : ¬ o.quiet) :
    system_sleep (pre ++ o :: post)
      = some { waits := pre.length + (if o.interrupt_happens = 0 ∧ o.iec_atn ≠ 0 then 1 else 0)
               interrupt_happens := 0 } ∧
    system_sleep pre = none := by
  constructor
  · unfold system_sleep
    rw [system_sleep_loop_quiet pre (o :: post) 0 hq]
    unfold system_sleep_loop
    by_cases hc : o.interrupt_happens = 0 ∧ o.iec_atn ≠ 0
    · have hn : o.notification ≠ 0 := fun h => ho ⟨hc.1, hc.2, h⟩
      simp only [hc, ne_eq, not_false_eq_true, and_self, if_true, hn, Nat.zero_add]
    · simp only [hc, if_false, Nat.zero_add, Nat.add_zero]
  · unfold system_sleep
    have := system_sleep_loop_quiet pre [] 0 hq
    rw [List.append_nil] at this
    rw [this]
    rfl

/-- Witness for C11 (amended): two quiet rounds, then ATN is found asserted. -/
theorem system_sleep_returns_witness :
    system_sleep ([{ interrupt_happens := 0, iec_atn := 1, notification := 0 },
                   { interrupt_happens := 0, iec_atn := 1, notification := 0 }]
        ++ { interrupt_happens := 0, iec_atn := 0, notification := 0 } :: [])
      = some { waits := [({ interrupt_happens := 0, iec_atn := 1, notification := 0 } : SleepObs),
                         { interrupt_happens := 0, iec_atn := 1, notification := 0 }].length
                  + (if (0 : Nat) = 0 ∧ (0 : Nat) ≠ 0 then 1 else 0)
               interrupt_happens := 0 } ∧
    system_sleep [{ interrupt_happens := 0, iec_atn := 1, notification := 0 },
                  { interrupt_happens := 0, iec_atn := 1, notification := 0 }] = none :=
  system_sleep_returns _ [] { interrupt_happens := 0, iec_atn := 0, notification := 0 }
    (by decide) (by decide)

/-- C12 fails on the code: `atncmd2str` masks with 0xF0, so the LISTEN bytes 0x30..0x3E
(devices 16 to 30) and the TALK bytes 0x50..0x5E get "UNKNOWN CMD", while the decoding
table names them LISTEN and TALK; on all other bytes the two agree. -/
theorem atncmd2str_upper_devices :
    atncmd2str 0x30 = "UNKNOWN CMD" ∧ atn_table_name 0x30 = "ATN_CODE_LISTEN" ∧
    atncmd2str 0x5E = "UNKNOWN CMD" ∧ atn_table_name 0x5E = "ATN_CODE_TALK" ∧
    atncmd2str 0x28 = "ATN_CODE_LISTEN" ∧ atncmd2str 0x3F = "ATN_CODE_UNLISTEN" := by
  decide

/-- C13 fails on the code: `set_clock0` assigns `data_state`, not `clock_state`, so
`set_clock(0)` leaves `clock_state` at 1 and clears `data_state`. -/
theorem set_clock_zero_cached_state :
    (set_clock fastGpio 0 linesPulled).clock_state = 1 ∧
    (set_clock fastGpio 0 linesPulled).data_state = 0 ∧
    linesPulled.data_state = 1 ∧
    (set_clock fastGpio 0 linesPulled).out_clock = false ∧
    (set_data fastGpio 0 linesPulled).data_state = 0 ∧
    (set_data fastGpio 0 linesPulled).clock_state = 1 := by
  decide

/-- C14 fails on the code: `vfs_delete` tests `res < 0` the wrong way round.  Deleting
an existing file (`unlink` returns 0, the file is gone) yields 255, deleting a missing
file (`unlink` fails with ENOENT) yields 1. -/
theorem vfs_delete_inverted :
    (vfs_delete newlibErrno (worldWith [70] [1, 2, 3]) [70]).1 = 255 ∧
    (vfs_delete newlibErrno (worldWith [70] [1, 2, 3]) [70]).2.files [70] = none ∧
    (vfs_delete newlibErrno emptyWorld [70]).1 = 1 ∧
    (vfs_delete newlibErrno emptyWorld [70]).2.error
      = some (.set_error_ts .ERROR_FILE_NOT_FOUND 2 0) := by
  decide

/-- The return value of `vfs_readdir` is 0 or -1, never 1. -/
theorem vfs_readdir_ret (E : Errno) (stat : List Nat → Int) (stream : List ReaddirResult) :
    (vfs_readdir E stat stream).ret = 0 ∨ (vfs_readdir E stat stream).ret = -1 := by
  induction stream with
  | nil => right; rfl
  | cons r rest ih =>
    cases r with
    | null e =>
      cases e with
      | none => right; rfl
      | some e =>
        unfold vfs_readdir
        split_ifs <;> (right; rfl)
    | entry d =>
      unfold vfs_readdir
      split_ifs
      · exact ih
      · right; rfl
      · left; rfl

/-- C15 fails on the code: when `readdir` returns NULL with `errno` set (here 5), and
when `stat` on the entry fails, `vfs_readdir` returns -1, the value that stands for "no
more entries", and not 1. -/
theorem vfs_readdir_error_returns :
    (vfs_readdir newlibErrno (fun _ => 0) [.null (some 5)]).ret = -1 ∧
    (vfs_readdir newlibErrno (fun _ => 0) [.null (some 5)]).error
      = some (.set_error_ts .ERROR_SYNTAX_UNABLE 5 99) ∧
    (vfs_readdir newlibErrno (fun _ => -1) [.entry [65]]).ret = -1 ∧
    (vfs_readdir newlibErrno (fun _ => 0) [.null none]).ret = -1 ∧
    (vfs_readdir newlibErrno (fun _ => 0) [.entry [46], .entry [65]]).ret = 0 := by
  decide

/-- C16 fails on the code: in the append branch `vfs_size` and `lseek` are applied to
`buf->pvt.vfs.fd` as it stood before the call.  With a fresh buffer (descriptor 0, not
open) the new descriptor of the 5-byte file stays at offset 0 and `fptr` is
`(uint32_t)(-1)`; with a buffer still holding descriptor 3 of another file (9 bytes),
`fptr` becomes 9 and descriptor 3 is moved to offset 9. -/
theorem vfs_open_write_append_stale_fd :
    append_view newlibErrno (worldWith [70] [1, 2, 3, 4, 5]) [70] false freshBuffer 0
      = some { fd := 3, fptr := 4294967295, offset_new := some 0, offset_old := none } ∧
    append_view newlibErrno twoFilesWorld [70] false { freshBuffer with fd := 3 } 3
      = some { fd := 4, fptr := 9, offset_new := some 0, offset_old := some 9 } := by
  decide

/-- C20 fails on the code: a file opened with `vfs_open_write` and closed at once ends
up empty.  `write_data` takes `lastused = position - 1 = 1` and writes `lastused - 1 = 0`
bytes, so the 0x0D placed at `data[2]` never reaches the file. -/
theorem untouched_file_is_empty :
    open_and_close newlibErrno 0 emptyWorld [70] freshBuffer = some (0, some []) := by
  decide

/-! ### check_extension -/

theorem strrchr_none (name : List Nat) (c : Nat) (h : c ∉ name) :
    strrchr name c = none := by
  induction name with
  | nil => rfl
  | cons x xs ih =>
    simp only [List.mem_cons, not_or] at h
    simp only [strrchr, ih h.2]
    rw [if_neg (fun e => h.1 e.symm)]

theorem strrchr_last (pre e : List Nat) (c : Nat) (h : c ∉ e) :
    strrchr (pre ++ c :: e) c = some pre.length := by
  induction pre with
  | nil => simp [strrchr, strrchr_none e c h]
  | cons x xs ih => simp [strrchr, ih]

theorem isdigit_toupper (c : Nat) : isdigit (toupper c) = isdigit c := by
  unfold isdigit toupper
  split
  · rw [decide_eq_false (by omega), decide_eq_false (by omega)]
  · rfl

theorem byte_at_ext (pre e rest : List Nat) (k : Nat) :
    byte_at (pre ++ 46 :: e) rest (pre.length + 1 + k) = (e ++ 0 :: rest).getD k 0 := by
  unfold byte_at
  have : pre ++ 46 :: e ++ 0 :: rest = (pre ++ [46]) ++ (e ++ 0 :: rest) := by simp
  rw [this, List.getD_append_right _ _ _ _ (by simp)]
  simp


theorem toupper_zero : toupper 0 = 0 := by decide

theorem isdigit_zero : isdigit 0 = false := by decide

theorem check_extension_eq (pre e rest : List Nat) (h : 46 ∉ e) :
    check_extension (pre ++ 46 :: e) rest
      = (classify_extension (e.take 3), some (pre.length + 1)) := by
  have b0 := byte_at_ext pre e rest 0
  have b1 := byte_at_ext pre e rest 1
  have b2 := byte_at_ext pre e rest 2
  unfold check_extension
  rw [strrchr_last pre e 46 h]
  simp only [b1, b2]
  rw [show pre.length + 1 = pre.length + 1 + 0 from rfl, b0]
  rcases e with _ | ⟨a, _ | ⟨b, _ | ⟨c, tl⟩⟩⟩
  · simp [classify_extension, is_x00_text, is_type_text, toupper_zero]
  · simp [classify_extension, is_x00_text, is_type_text, toupper_zero, isdigit_zero,
      isdigit_toupper]
  · simp [classify_extension, is_x00_text, is_type_text, toupper_zero, isdigit_zero,
      isdigit_toupper]
  · simp only [List.cons_append, List.getD_cons_zero, List.getD_cons_succ, isdigit_toupper,
      classify_extension, is_x00_text, is_type_text, List.take_succ_cons, List.take_zero,
      List.map_cons, List.map_nil, Nat.add_zero]
    have ex : (decide (toupper a ∈ [80, 83, 85, 82]) && isdigit b && isdigit c) = true ↔
        ((toupper a = 80 ∨ toupper a = 83 ∨ toupper a = 85 ∨ toupper a = 82) ∧
          isdigit b = true ∧ isdigit c = true) := by
      simp [and_assoc]
    have et : decide ([toupper a, toupper b, toupper c]
          ∈ [[80, 82, 71], [83, 69, 81], [82, 69, 76], [85, 83, 82]]) = true ↔
        ((toupper a = 80 ∧ toupper b = 82 ∧ toupper c = 71) ∨
          (toupper a = 83 ∧ toupper b = 69 ∧ toupper c = 81) ∨
          (toupper a = 82 ∧ toupper b = 69 ∧ toupper c = 76) ∨
          (toupper a = 85 ∧ toupper b = 83 ∧ toupper c = 82)) := by
      simp
    simp only [ex, et]
    split_ifs <;> rfl


/-- C17 fails on the code: `check_extension` compares three characters and never
looks at the length of the extension text, so "A.P123" is returned as
`EXT_IS_X00` and "A.PRGX" as `EXT_IS_TYPE`, while neither text is exactly a letter
with two digits or a type name; the reference gives `EXT_UNKNOWN` for both. -/
theorem check_extension_longer_text :
    check_extension [65, 46, 80, 49, 50, 51] [] = (exttype_t.EXT_IS_X00, some 2) ∧
    classify_extension [80, 49, 50, 51] = exttype_t.EXT_UNKNOWN ∧
    check_extension [65, 46, 80, 82, 71, 88] [] = (exttype_t.EXT_IS_TYPE, some 2) ∧
    classify_extension [80, 82, 71, 88] = exttype_t.EXT_UNKNOWN := by
  decide

/-- What `check_extension` computes: for a name whose last '.' is followed by the
text `e`, it classifies the first three characters of `e` (x00 when they
are a letter P, S, U, R in either case and two digits; a type when they are,
ignoring case, PRG, SEQ, REL or USR; unknown otherwise, also when `e` has fewer
than three characters) whatever bytes follow the string in memory, and sets
`*ext` to the first character after that '.'; a name without '.' is unknown
with `*ext` NULL. -/
theorem check_extension_first_three (pre e name rest : List Nat)
    (hdot : 46 ∉ e) (hno : 46 ∉ name) :
    check_extension (pre ++ 46 :: e) rest
      = (classify_extension (e.take 3), some (pre.length + 1)) ∧
    check_extension name rest = (exttype_t.EXT_UNKNOWN, none) := by
  refine ⟨check_extension_eq pre e rest hdot, ?_⟩
  unfold check_extension
  rw [strrchr_none name 46 hno]

theorem check_extension_first_three_witness :
    (46 ∉ [115, 48, 49, 120]) ∧ (46 ∉ [65, 66]) ∧
    check_extension ([65, 46, 66] ++ 46 :: [115, 48, 49, 120]) [7]
      = (classify_extension ([115, 48, 49, 120].take 3), some ([65, 46, 66].length + 1)) ∧
    check_extension [65, 66] [7] = (exttype_t.EXT_UNKNOWN, none) :=
  ⟨by decide, by decide,
    check_extension_first_three [65, 46, 66] [115, 48, 49, 120] [65, 66] [7]
      (by decide) (by decide)⟩

/-- The sibling `should_save_raw` does test the length of the extension text before it
compares three characters: "A.CRT" is raw, "A.CRTX" is not. -/
theorem should_save_raw_tests_length :
    should_save_raw (fun _ => false) [65, 46, 67, 82, 84] = true ∧
    should_save_raw (fun _ => false) [65, 46, 67, 82, 84, 88] = false := by
  decide

/-- C19: in a directory below the first level `vfs_getdirlabel` copies the
last component together with the '/' before it (pathname "A/B" gives the label
"/B"), and a component longer than 16 characters is copied past `label[15]`
(the 17 letters A..Q change the byte at `label[16]`).  The reference of the
specification gives "B" padded, and leaves `label[16]` alone. -/
theorem vfs_getdirlabel_keeps_slash (conv : Nat → Nat) :
    vfs_getdirlabel conv [65, 47, 66] [] (List.replicate 16 170 ++ [0])
      = (0, [conv 47, conv 66] ++ List.replicate 14 (conv 32) ++ [0]) ∧
    dirlabel_reference conv [65, 47, 66] (List.replicate 16 170 ++ [0])
      = [conv 66] ++ List.replicate 15 32 ++ [0] ∧
    (vfs_getdirlabel conv [65, 66, 67, 68, 69, 70, 71, 72, 73, 74, 75, 76, 77, 78, 79, 80, 81] []
      (List.replicate 16 170 ++ [0, 0])).2.getD 16 0 = conv 81 ∧
    (dirlabel_reference conv
      [65, 66, 67, 68, 69, 70, 71, 72, 73, 74, 75, 76, 77, 78, 79, 80, 81]
      (List.replicate 16 170 ++ [0, 0])).getD 16 0 = 0 := by
  refine ⟨rfl, rfl, rfl, rfl⟩


/-! ### build_name -/

theorem build_name_replace_eq (n : List Nat) :
    build_name_replace n = n.map (fun c => if is_valid_vfs_char c = true then c else 95) := by
  induction n with
  | nil => rfl
  | cons c cs ih => simp [build_name_replace, ih]

theorem is_valid_vfs_name_loop_eq (n : List Nat) (d : Nat) (hd : d < 256) :
    is_valid_vfs_name_loop n d
      = if n.all is_valid_vfs_char = true then some ((d + n.count 46) % 256) else none := by
  induction n generalizing d with
  | nil => simp [is_valid_vfs_name_loop, Nat.mod_eq_of_lt hd]
  | cons c cs ih =>
    unfold is_valid_vfs_name_loop
    by_cases hv : is_valid_vfs_char c = true
    · by_cases hc : c = 46
      · subst hc
        simp only [if_true, hv, List.all_cons, Bool.true_and, List.count_cons_self]
        rw [ih _ (Nat.mod_lt _ (by norm_num))]
        by_cases ha : cs.all is_valid_vfs_char = true
        · simp only [ha, if_true]
          congr 1
          omega
        · simp only [ha]
          rfl
      · simp only [hc, if_false, hv, if_true, List.all_cons, Bool.true_and]
        rw [ih d hd, List.count_cons_of_ne (fun e => hc e.symm)]
    · simp [hv]


theorem is_valid_vfs_name_eq (n : List Nat) (hne : n ≠ []) (hdots : n.count 46 < 256) :
    is_valid_vfs_name n = valid_vfs_name_reference n := by
  unfold is_valid_vfs_name valid_vfs_name_reference
  rw [is_valid_vfs_name_loop_eq n 0 (by norm_num), Nat.zero_add, Nat.mod_eq_of_lt hdots]
  obtain ⟨x, hx⟩ : ∃ x, n.getLast? = some x := by
    cases h : n.getLast? with
    | none => exact absurd (List.getLast?_eq_none_iff.mp h) hne
    | some x => exact ⟨x, rfl⟩
  have hl : n.getLastD 0 = x := by
    rw [List.getLastD_eq_getLast?, hx]
    rfl
  rw [hl, hx]
  by_cases ha : n.all is_valid_vfs_char = true
  · rw [if_pos ha, ha]
    by_cases h1 : n.count 46 > 1
    · have : ¬ (n.count 46 ≤ 1) := by omega
      simp [h1, this]
    · have : n.count 46 ≤ 1 := by omega
      by_cases h2 : x = 32
      · simp [h1, this, h2]
      · by_cases h3 : x = 46
        · simp [h1, this, h3]
        · simp [h1, this, h2, h3]
  · rw [if_neg ha]
    simp only [Bool.not_eq_true] at ha
    rw [ha]
    rfl

theorem type_name_bytes (T : TypeTable) (type : Nat) (rest : List Nat)
    (hTL : T.TYPE_LENGTH = 3) (hmask : type &&& T.EXT_TYPE_MASK = type)
    (hlen : 3 * type + 3 ≤ T.filetypes.length) :
    ((List.range 3).map (fun k =>
      if k < T.TYPE_LENGTH then
        T.filetypes.getD (T.TYPE_LENGTH * (type &&& T.EXT_TYPE_MASK) + k) 0
      else rest.getD k 0)) = type_name T type ∧
    [T.filetypes.getD (3 * type) 0] = (type_name T type).take 1 := by
  rw [hTL, hmask]
  unfold type_name
  obtain ⟨a, b, c, tl, h⟩ : ∃ a b c tl, T.filetypes.drop (3 * type) = a :: b :: c :: tl := by
    have hl : (T.filetypes.drop (3 * type)).length ≥ 3 := by
      rw [List.length_drop]
      omega
    rcases hd : T.filetypes.drop (3 * type) with _ | ⟨a, _ | ⟨b, _ | ⟨c, tl⟩⟩⟩
    · rw [hd] at hl; simp at hl
    · rw [hd] at hl; simp at hl
    · rw [hd] at hl; simp at hl
    · exact ⟨a, b, c, tl, rfl⟩
  have g : ∀ k, T.filetypes.getD (3 * type + k) 0 = (a :: b :: c :: tl).getD k 0 := by
    intro k
    rw [← h]
    simp [List.getD_eq_getElem?_getD, List.getElem?_drop]
  have g0 := g 0
  have g1 := g 1
  have g2 := g 2
  simp only [Nat.add_zero, List.getD_cons_zero, List.getD_cons_succ] at g0 g1 g2
  simp only [List.getD_eq_getElem?_getD] at g0 g1 g2
  rw [h]
  simp [List.range_succ, g0, g1, g2]

theorem build_name_eq (T : TypeTable) (pet2asc : List Nat → List Nat)
    (image_known : List Nat → Bool) (mode : Nat) (name rest : List Nat) (type : Nat)
    (hTL : T.TYPE_LENGTH = 3) (hmask : type &&& T.EXT_TYPE_MASK = type)
    (hlen : 3 * type + 3 ≤ T.filetypes.length)
    (hne : pet2asc name ≠ []) (hdots : (pet2asc name).count 46 < 256) :
    build_name T pet2asc image_known mode name rest type
      = build_name_reference T image_known mode (pet2asc name) type := by
  obtain ⟨e3, e1⟩ := type_name_bytes T type rest hTL hmask hlen
  unfold build_name build_name_reference
  simp only [is_valid_vfs_name_eq _ hne hdots, build_name_replace_eq, e3]
  split_ifs
  · rfl
  · rw [← e1]
    simp
  · rfl
  · rfl


/-- Outside the two ranges 0x30..0x3E and 0x50..0x5E `atncmd2str` gives the name of the
decoding table. -/
theorem atncmd2str_agrees_elsewhere :
    ∀ b : Fin 256, ¬ (0x30 ≤ b.val ∧ b.val ≤ 0x3E) → ¬ (0x50 ≤ b.val ∧ b.val ≤ 0x5E) →
      atncmd2str (b.val : Int) = atn_table_name b.val := by
  decide

/-- C18: for a non-empty converted name with fewer than 256 dots, a type without flag
bits whose entry lies in the table, and three-letter type names, `build_name` gives the
string and the pointer of the reference: unchanged name and NULL for a raw PRG file; the
name with '_' for invalid characters, '.', the first letter of the type name and "00",
with a pointer to the final '0', in x00 mode or for an invalid name; the name with '.'
and the type name and NULL in type-suffix mode; unchanged name and NULL otherwise. -/
theorem build_name_refines_reference (T : TypeTable) (pet2asc : List Nat → List Nat)
    (image_known : List Nat → Bool) (mode : Nat) (name rest : List Nat) (type : Nat)
    (hTL : T.TYPE_LENGTH = 3) (hmask : type &&& T.EXT_TYPE_MASK = type)
    (hlen : 3 * type + 3 ≤ T.filetypes.length)
    (hne : pet2asc name ≠ []) (hdots : (pet2asc name).count 46 < 256) :
    build_name T pet2asc image_known mode name rest type
      = build_name_reference T image_known mode (pet2asc name) type :=
  build_name_eq T pet2asc image_known mode name rest type hTL hmask hlen hne hdots

theorem build_name_refines_reference_witness :
    sampleTypes.TYPE_LENGTH = 3 ∧ 1 &&& sampleTypes.EXT_TYPE_MASK = 1 ∧
    3 * 1 + 3 ≤ sampleTypes.filetypes.length ∧
    (fun s : List Nat => s) [65, 42, 66] ≠ [] ∧
    ((fun s : List Nat => s) [65, 42, 66]).count 46 < 256 ∧
    build_name sampleTypes (fun s => s) (fun _ => false) 0 [65, 42, 66] [] 1
      = build_name_reference sampleTypes (fun _ => false) 0
          ((fun s : List Nat => s) [65, 42, 66]) 1 :=
  ⟨rfl, by decide, by decide, by decide, by decide,
    build_name_refines_reference sampleTypes (fun s => s) (fun _ => false) 0 [65, 42, 66] [] 1
      rfl (by decide) (by decide) (by decide) (by decide)⟩

/-- Examples of `build_name` with the sample table and the identity for `pet2asc`: the
name "A*B" of a SEQ file becomes "A_B.S00" with the pointer at index 6; in mode 4 the
name "AB" of a PRG file becomes "AB.PRG". -/
theorem build_name_examples :
    build_name sampleTypes (fun s => s) (fun _ => false) 0 [65, 42, 66] [] 1
      = ([65, 95, 66, 46, 83, 48, 48], some 6) ∧
    build_name sampleTypes (fun s => s) (fun _ => false) 4 [65, 66] [] 2
      = ([65, 66, 46, 80, 82, 71], none) := by
  decide


/-! ### The pin interrupt flag -/

theorem after_interrupts_flag (n : Nat) (s : IntrState) (h : s.interrupt_happens < 256) :
    (after_interrupts n s).interrupt_happens = (s.interrupt_happens + n) % 256 := by
  induction n generalizing s with
  | zero => simp [after_interrupts, Nat.mod_eq_of_lt h]
  | succ n ih =>
    unfold after_interrupts
    rw [ih _ (Nat.mod_lt _ (by norm_num))]
    simp only [system_pin_intr_handler]
    omega

/-- C24 fails on the code: `interrupt_happens` is an 8-bit counter, so after 256
invocations of `system_pin_intr_handler` with no `system_sleep` in between it is 0 again
(while 256 notifications are pending); after 255 it is still 255. -/
theorem interrupt_flag_wraps :
    (after_interrupts 256 sleptState).interrupt_happens = 0 ∧
    (after_interrupts 256 sleptState).notification = 256 ∧
    (after_interrupts 255 sleptState).interrupt_happens = 255 ∧
    (after_interrupts 1 sleptState).interrupt_happens = 1 := by
  decide

/-- For every number of invocations that is not a multiple of 256 the flag is non-zero. -/
theorem interrupt_flag_set (n : Nat) (h : n % 256 ≠ 0) :
    (after_interrupts n sleptState).interrupt_happens ≠ 0 := by
  rw [after_interrupts_flag n sleptState (by decide)]
  simpa [sleptState] using h

/-! ### vfs_file_write behind the end of the file -/

theorem vfs_file_write_fill_skipped (E : Errno) (offset : Int) (fuel i : Nat) (buf : Buffer)
    (w : World) (h : 0 ≤ offset) :
    vfs_file_write_fill E offset fuel i buf w = some (0, buf, w) := by
  unfold vfs_file_write_fill
  rw [if_neg (by omega)]

/-- C21 fails on the code: with every call succeeding, `vfs_file_write` on a REL buffer
(record length 2) placed 4 bytes behind the end of the payload writes the record and
returns 0 without having written any fill byte: the loop `while(offset < 0)` is not
entered because the `lseek` succeeded.  The gap holds the zeros that the file system put
there, where the reference has two fill records beginning with 0xFF. -/
theorem vfs_file_write_gap_not_filled :
    write_view newlibErrno 0 relGapBuffer relGapWorld [70]
      = some (0, 8, some [2, 65, 66, 0, 0, 0, 0, 67, 68]) ∧
    [2, 65, 66] ++ fill_bytes_reference 2 4 ++ [67, 68]
      = [2, 65, 66, 255, 0, 255, 0, 67, 68] := by
  decide!


/-- Once the `lseek` to the old end of file has failed, the loop `while(offset < 0)` of
`vfs_file_write` does not end as long as its writes succeed: no amount of fuel suffices. -/
theorem vfs_file_write_fill_diverges (E : Errno) (offset : Int) (hoff : offset < 0) (fuel : Nat) :
    ∀ (i : Nat) (buf : Buffer) (w : World) (c : List Nat) (o : Nat), i ≤ 253 →
      WritableAt w buf.fd c o → buf.recordlen = 0 → buf.mustflush = 0 →
      vfs_file_write_fill E offset fuel i buf w = none := by
  induction fuel with
  | zero =>
    intro i buf w c o _ _ _ _
    unfold vfs_file_write_fill
    rw [if_pos hoff]
  | succ fuel ih =>
    intro i buf w c o hi hw hrec hmf
    obtain ⟨buf2, w2, hwd, hw2, -, -, hmf2, -, -, -, hfd2, hrec2, -⟩ :=
      write_data_seq E { buf with lastused := i, position := (i + 2) % 256 } w c o i hw hrec
        (Or.inl ⟨hmf, by show (i + 2) % 256 = i + 2; omega, hi⟩)
    have hi1 : ¬ (i > 254) := by omega
    have hi2 : i % 256 = i := by omega
    unfold vfs_file_write_fill
    rw [if_pos hoff]
    have hwd2 := hwd
    simp only [hrec] at hwd2
    simp only [hrec, ne_eq, not_true_eq_false, if_false, hi1, hi2, hwd2]
    refine ih _ buf2 w2 _ _ ?_ (by rw [hfd2]; exact hw2) hrec2 hmf2
    omega

theorem vfs_file_write_gap_diverges (E : Errno) (fuel fptr i : Nat) (buf : Buffer) (w : World)
    (e : Int) (c : List Nat) (o : Nat) (hi0 : i ≠ 0) (hi : i ≤ 253)
    (hs : w.script = [.fail e])
    (hf : ∃ f, w.fds buf.fd = some f ∧ f.writable = true ∧ f.offset = o ∧
      w.files f.name = some c)
    (hrec : buf.recordlen = 0) :
    vfs_file_write_gap E fuel fptr i buf w = none := by
  have hnext : w.next = (.fail e, { w with script := [] }) := by simp [World.next, hs]
  unfold vfs_file_write_gap
  rw [if_pos hi0]
  unfold sys_lseek
  simp only [hnext]
  have key := fun b w2 h1 h2 h3 =>
    vfs_file_write_fill_diverges E (-1) (by decide) fuel i b w2 c o hi h1 h2 h3
  rw [key]
  · exact ⟨rfl, hf⟩
  · exact hrec
  · rfl


/-- C22 fails on the code: when the `lseek` back to the old end of file fails and the
writes succeed, `vfs_file_write` never returns.  The loop `while(offset < 0)` does not
change `offset`; after the 2 fill bytes it goes on writing blocks of length 0.  Here the
file has 3 bytes, the buffer stands 2 bytes behind its end, and the fifth system call
fails: for every number of rounds allowed the call has not returned. -/
theorem vfs_file_write_never_returns (fuel : Nat) :
    vfs_file_write newlibErrno fuel gapBuffer lseekFailsWorld = none := by
  have h : vfs_file_write newlibErrno fuel gapBuffer lseekFailsWorld
      = vfs_file_write_gap newlibErrno fuel 3 2
          (write_data newlibErrno gapBuffer
            (sys_lseek newlibErrno (vfs_size newlibErrno lseekFailsWorld 3).2 3 5 .SEEK_SET).2).2.1
          (write_data newlibErrno gapBuffer
            (sys_lseek newlibErrno (vfs_size newlibErrno lseekFailsWorld 3).2 3 5 .SEEK_SET).2).2.2 :=
    rfl
  rw [h]
  exact vfs_file_write_gap_diverges newlibErrno fuel 3 2 _ _ 5 [1, 2, 3, 0, 0, 65] 6
    (by decide) (by decide) (by decide!)
    ⟨⟨[70], 6, true, true⟩, by decide!, rfl, rfl, by decide!⟩ (by decide!)


/-! ### create_file -/

theorem create_file_eq (E : Errno) (fuel : Nat) (w : World) (realname : List Nat)
    (x00ext : Option Nat) (cbmname : List Nat) (buf : Buffer) (recordlen : Nat) :
    create_file E fuel w realname x00ext cbmname buf recordlen
      = (match x00ext with
          | some x => create_file_retry E x fuel (vfs_open E w realname O_CREAT_EXCL_RDWR).2
              realname (vfs_open E w realname O_CREAT_EXCL_RDWR).1
          | none => some ((vfs_open E w realname O_CREAT_EXCL_RDWR).1, realname,
              (vfs_open E w realname O_CREAT_EXCL_RDWR).2)).map
        (fun (r : Int × List Nat × World) =>
          create_file_opened E r.2.2 r.1 r.2.1 x00ext.isSome cbmname buf recordlen) := by
  unfold create_file create_file_opened
  generalize vfs_open E w realname O_CREAT_EXCL_RDWR = p
  obtain ⟨fd0, w0⟩ := p
  cases x00ext with
  | none =>
    simp only [Option.map_some', Option.isSome_none, Bool.false_or, Bool.false_eq_true, if_false]
    split_ifs <;> rfl
  | some x =>
    simp only
    generalize create_file_retry E x fuel w0 realname fd0 = t
    cases t with
    | none => rfl
    | some r =>
      obtain ⟨fd1, n1, w1⟩ := r
      simp only [Option.map_some', Option.isSome_some, Bool.true_or, if_true]
      split_ifs <;> rfl

theorem getD_two_snd (pre : List Nat) (a b : Nat) : (pre ++ [a, b]).getD (pre.length + 1) 0 = b := by
  induction pre with
  | nil => rfl
  | cons x xs ih => simpa using ih

theorem getD_two_fst (pre : List Nat) (a b : Nat) : (pre ++ [a, b]).getD pre.length 0 = a := by
  induction pre with
  | nil => rfl
  | cons x xs ih => simpa using ih

theorem set_two_snd (pre : List Nat) (a b v : Nat) :
    (pre ++ [a, b]).set (pre.length + 1) v = pre ++ [a, v] := by
  induction pre with
  | nil => rfl
  | cons x xs ih => simp

theorem set_two_fst (pre : List Nat) (a b v : Nat) :
    (pre ++ [a, b]).set pre.length v = pre ++ [v, b] := by
  induction pre with
  | nil => rfl
  | cons x xs ih => simp


theorem create_file_retry_done (E : Errno) (x fuel : Nat) (w : World) (name : List Nat)
    (fd : Int) (h : ¬ fd < 0) :
    create_file_retry E x fuel w name fd = some (fd, name, w) := by
  unfold create_file_retry
  rw [if_neg h]

theorem create_file_retry_step (E : Errno) (pre : List Nat) (fuel : Nat) (w : World)
    (a b : Nat) (fd : Int) (h : fd < 0) (ha : a < 255) (hb : b < 255) :
    create_file_retry E (pre.length + 1) (fuel + 1) w (pre ++ [a, b]) fd
      = if b + 1 = 58 then
          if a + 1 = 58 then some (fd, pre ++ [a + 1, 48], w)
          else create_file_retry E (pre.length + 1) fuel
            (vfs_open E w (pre ++ [a + 1, 48]) O_CREAT_EXCL_RDWR).2 (pre ++ [a + 1, 48])
            (vfs_open E w (pre ++ [a + 1, 48]) O_CREAT_EXCL_RDWR).1
        else create_file_retry E (pre.length + 1) fuel
          (vfs_open E w (pre ++ [a, b + 1]) O_CREAT_EXCL_RDWR).2 (pre ++ [a, b + 1])
          (vfs_open E w (pre ++ [a, b + 1]) O_CREAT_EXCL_RDWR).1 := by
  have hb1 : (b + 1) % 256 = b + 1 := by omega
  have ha1 : (a + 1) % 256 = a + 1 := by omega
  conv_lhs => unfold create_file_retry
  rw [if_pos h]
  simp only [getD_two_snd, set_two_snd, hb1]
  by_cases h58 : b + 1 = 58
  · simp only [h58, if_true, set_two_snd, Nat.add_sub_cancel, getD_two_fst, set_two_fst, ha1]
  · simp only [h58, if_false]

theorem x00_name_succ (E : Errno) (pre : List Nat) (fuel : Nat) (w : World) (k : Nat)
    (fd : Int) (h : fd < 0) (hk : k < 99) :
    create_file_retry E (pre.length + 1) (fuel + 1) w (x00_name pre k) fd
      = create_file_retry E (pre.length + 1) fuel
          (vfs_open E w (x00_name pre (k + 1)) O_CREAT_EXCL_RDWR).2 (x00_name pre (k + 1))
          (vfs_open E w (x00_name pre (k + 1)) O_CREAT_EXCL_RDWR).1 := by
  unfold x00_name
  rw [create_file_retry_step E pre fuel w _ _ fd h (by omega) (by omega)]
  by_cases h9 : k % 10 = 9
  · have e1 : 48 + k % 10 + 1 = 58 := by omega
    have e2 : ¬ (48 + k / 10 + 1 = 58) := by omega
    have e3 : 48 + k / 10 + 1 = 48 + (k + 1) / 10 := by omega
    have e5 : (k + 1) % 10 = 0 := by omega
    have en : pre ++ [48 + k / 10 + 1, 48] = pre ++ [48 + (k + 1) / 10, 48 + (k + 1) % 10] := by
      rw [e3, e5]
    rw [if_pos e1, if_neg e2, en]
  · have e1 : ¬ (48 + k % 10 + 1 = 58) := by omega
    have e3 : 48 + k / 10 = 48 + (k + 1) / 10 := by omega
    have e4 : 48 + k % 10 + 1 = 48 + (k + 1) % 10 := by omega
    rw [if_neg e1, e3, e4]


theorem create_file_retry_from (E : Errno) (pre : List Nat) :
    ∀ (n k : Nat), k + n = 99 → ∀ (fuel : Nat) (w : World) (fd : Int), n + 1 ≤ fuel → fd < 0 →
      create_file_retry E (pre.length + 1) fuel w (x00_name pre k) fd
        = some ((open_in_order E ((List.range' (k + 1) n).map (x00_name pre)) fd w).1,
            (open_in_order E ((List.range' (k + 1) n).map (x00_name pre)) fd w).2.1.getD
              (pre ++ [58, 48]),
            (open_in_order E ((List.range' (k + 1) n).map (x00_name pre)) fd w).2.2) := by
  intro n
  induction n with
  | zero =>
    intro k hk fuel w fd hfuel hfd
    obtain ⟨f, rfl⟩ : ∃ f, fuel = f + 1 := ⟨fuel - 1, by omega⟩
    have hk99 : k = 99 := by omega
    subst hk99
    have hn : x00_name pre 99 = pre ++ [57, 57] := rfl
    rw [hn, create_file_retry_step E pre f w 57 57 fd hfd (by decide) (by decide)]
    simp [open_in_order]
  | succ n ih =>
    intro k hk fuel w fd hfuel hfd
    obtain ⟨f, rfl⟩ : ∃ f, fuel = f + 1 := ⟨fuel - 1, by omega⟩
    rw [x00_name_succ E pre f w k fd hfd (by omega)]
    rcases hv : vfs_open E w (x00_name pre (k + 1)) O_CREAT_EXCL_RDWR with ⟨fd2, w2⟩
    simp only [List.range'_succ, List.map_cons, open_in_order, hv]
    by_cases h2 : fd2 < 0
    · rw [if_pos h2]
      exact ih (k + 1) (by omega) f w2 fd2 (by omega) h2
    · rw [if_neg h2, create_file_retry_done E _ f w2 _ fd2 h2]
      rfl

theorem open_in_order_cons (E : Errno) (n : List Nat) (ns : List (List Nat)) (last : Int)
    (w : World) :
    open_in_order E (n :: ns) last w
      = if (vfs_open E w n O_CREAT_EXCL_RDWR).1 < 0 then
          open_in_order E ns (vfs_open E w n O_CREAT_EXCL_RDWR).1
            (vfs_open E w n O_CREAT_EXCL_RDWR).2
        else ((vfs_open E w n O_CREAT_EXCL_RDWR).1, some n,
          (vfs_open E w n O_CREAT_EXCL_RDWR).2) :=
  rfl

theorem create_file_retry_all (E : Errno) (pre : List Nat) (fuel : Nat) (w : World)
    (hfuel : 100 ≤ fuel) :
    create_file_retry E (pre.length + 1) fuel
        (vfs_open E w (pre ++ [48, 48]) O_CREAT_EXCL_RDWR).2 (pre ++ [48, 48])
        (vfs_open E w (pre ++ [48, 48]) O_CREAT_EXCL_RDWR).1
      = some ((open_in_order E (x00_names pre) (-1) w).1,
          (open_in_order E (x00_names pre) (-1) w).2.1.getD (pre ++ [58, 48]),
          (open_in_order E (x00_names pre) (-1) w).2.2) := by
  have hl : x00_names pre = (pre ++ [48, 48]) :: (List.range' (0 + 1) 99).map (x00_name pre) := by
    have : List.range 100 = 0 :: List.range' (0 + 1) 99 := by decide
    unfold x00_names
    rw [this]
    rfl
  have h0 : x00_name pre 0 = pre ++ [48, 48] := rfl
  rw [hl, open_in_order_cons]
  by_cases h : (vfs_open E w (pre ++ [48, 48]) O_CREAT_EXCL_RDWR).1 < 0
  · rw [if_pos h]
    have key := create_file_retry_from E pre 99 0 (by omega) fuel
      (vfs_open E w (pre ++ [48, 48]) O_CREAT_EXCL_RDWR).2
      (vfs_open E w (pre ++ [48, 48]) O_CREAT_EXCL_RDWR).1 (by omega) h
    rw [h0] at key
    exact key
  · rw [if_neg h, create_file_retry_done E _ fuel _ _ _ h]
    rfl

theorem open_in_order_cases (E : Errno) (names : List (List Nat)) :
    ∀ (last : Int) (w : World), last < 0 →
      ((open_in_order E names last w).2.1 = none ∧ (open_in_order E names last w).1 < 0) ∨
      (∃ n ∈ names, (open_in_order E names last w).2.1 = some n ∧
        0 ≤ (open_in_order E names last w).1) := by
  induction names with
  | nil =>
    intro last w h
    exact Or.inl ⟨rfl, h⟩
  | cons n ns ih =>
    intro last w h
    rcases hv : vfs_open E w n O_CREAT_EXCL_RDWR with ⟨fd, w1⟩
    simp only [open_in_order, hv]
    by_cases h2 : fd < 0
    · rw [if_pos h2]
      rcases ih fd w1 h2 with h3 | ⟨m, hm, h3⟩
      · exact Or.inl h3
      · exact Or.inr ⟨m, List.mem_cons_of_mem _ hm, h3⟩
    · rw [if_neg h2]
      exact Or.inr ⟨n, List.mem_cons_self _ _, rfl, by omega⟩


/-- C23: with an x00 extension from `build_name` (the name ends in "00" and `x00ext`
points at its last character) and fuel for 100 rounds, `create_file` returns, and what
it does is: try the exclusive-create open on the names with the numbers 00, 01, ..., 99
in this order, stop at the first open that succeeds, and go on with that descriptor, that
name and the world after these opens.  There are 100 such names, so at most 100 opens;
when none succeeds the return value is negative.  Without an x00 extension it goes on
with the result of the single open on `realname`. -/
theorem create_file_tries_in_order (E : Errno) (fuel : Nat) (w : World)
    (pre realname cbmname : List Nat) (buf : Buffer) (recordlen : Nat) (hfuel : 100 ≤ fuel) :
    create_file E fuel w (pre ++ [48, 48]) (some (pre.length + 1)) cbmname buf recordlen
      = some (create_file_opened E (open_in_order E (x00_names pre) (-1) w).2.2
          (open_in_order E (x00_names pre) (-1) w).1
          ((open_in_order E (x00_names pre) (-1) w).2.1.getD (pre ++ [58, 48]))
          true cbmname buf recordlen) ∧
    (x00_names pre).length = 100 ∧
    ((open_in_order E (x00_names pre) (-1) w).2.1 = none →
      ∃ r, create_file E fuel w (pre ++ [48, 48]) (some (pre.length + 1)) cbmname buf recordlen
        = some r ∧ r.1 < 0) ∧
    create_file E fuel w realname none cbmname buf recordlen
      = some (create_file_opened E (vfs_open E w realname O_CREAT_EXCL_RDWR).2
          (vfs_open E w realname O_CREAT_EXCL_RDWR).1 realname false cbmname buf recordlen) := by
  have h1 : create_file E fuel w (pre ++ [48, 48]) (some (pre.length + 1)) cbmname buf recordlen
      = some (create_file_opened E (open_in_order E (x00_names pre) (-1) w).2.2
          (open_in_order E (x00_names pre) (-1) w).1
          ((open_in_order E (x00_names pre) (-1) w).2.1.getD (pre ++ [58, 48]))
          true cbmname buf recordlen) := by
    rw [create_file_eq]
    simp only [create_file_retry_all E pre fuel w hfuel]
    rfl
  refine ⟨h1, by simp [x00_names], ?_, ?_⟩
  · intro hn
    refine ⟨_, h1, ?_⟩
    rcases open_in_order_cases E (x00_names pre) (-1) w (by decide) with ⟨-, hneg⟩ | ⟨n, -, hs, -⟩
    · unfold create_file_opened
      rw [if_pos hneg]
      exact hneg
    · rw [hn] at hs
      exact absurd hs (by simp)
  · rw [create_file_eq]
    rfl

theorem create_file_tries_in_order_witness :
    100 ≤ 100 ∧
    create_file newlibErrno 100 twoTakenWorld ([65, 46, 80] ++ [48, 48])
        (some ([65, 46, 80].length + 1)) [65] freshBuffer 0
      = some (create_file_opened newlibErrno
          (open_in_order newlibErrno (x00_names [65, 46, 80]) (-1) twoTakenWorld).2.2
          (open_in_order newlibErrno (x00_names [65, 46, 80]) (-1) twoTakenWorld).1
          ((open_in_order newlibErrno (x00_names [65, 46, 80]) (-1) twoTakenWorld).2.1.getD
            ([65, 46, 80] ++ [58, 48]))
          true [65] freshBuffer 0) :=
  ⟨by decide,
    (create_file_tries_in_order newlibErrno 100 twoTakenWorld [65, 46, 80] [65] [65]
      freshBuffer 0 (by decide)).1⟩

/-- Examples of `create_file`: with "A.P00" and "A.P01" taken the file "A.P02" is
created on descriptor 3; with all hundred names taken the result is -1, the name is left
as "A.P:0" and the buffer keeps its descriptor; without an x00 extension and the name
taken the single open fails. -/
theorem create_file_examples :
    create_file_view newlibErrno 100 twoTakenWorld [65, 46, 80, 48, 48] (some 4) [65]
        freshBuffer 0 = some (3, [65, 46, 80, 48, 50], 3) ∧
    create_file_view newlibErrno 100 allTakenWorld [65, 46, 80, 48, 48] (some 4) [65]
        freshBuffer 0 = some (-1, [65, 46, 80, 58, 48], 0) ∧
    create_file_view newlibErrno 0 twoTakenWorld [65, 46, 80, 48, 48] none [65]
        freshBuffer 0 = some (-1, [65, 46, 80, 48, 48], 0) := by
  decide!


/-- When `build_name` returns a pointer, the name it leaves ends in "00" and the pointer
addresses its last character: the form that `create_file_tries_in_order` starts from. -/
theorem build_name_x00_shape (T : TypeTable) (pet2asc : List Nat → List Nat)
    (image_known : List Nat → Bool) (mode : Nat) (name rest : List Nat) (type x : Nat)
    (h : (build_name T pet2asc image_known mode name rest type).2 = some x) :
    ∃ pre, (build_name T pet2asc image_known mode name rest type).1 = pre ++ [48, 48] ∧
      x = pre.length + 1 := by
  unfold build_name at h ⊢
  simp only at h ⊢
  split_ifs at h ⊢
  refine ⟨build_name_replace (pet2asc name) ++ [46, T.filetypes.getD (3 * type) 0], ?_, ?_⟩
  · simp
  · simp only [Option.some.injEq] at h
    simp only [List.length_append, List.length_cons, List.length_nil]
    omega

end Sd2iec
